import Mathlib

/-! winauto: retry loops and supervisor pass

A shallow embedding of the operational core of `winauto`:

* `internal/sshx/sshx.go`      : `Run`, `shouldRetryConnectionError`, `sleepContext`
* `internal/aloha/client.go`   : `doRequestWithRetry`, `isRetryableStatus`,
                                 `isTransientNetworkError`, `sleepContext`
* `cmd/win-automation/supervisor.go` : `supervisorRunner.runOnce`

Calls that leave the process (`exec.LookPath`, `cmd.Run`, `http.Client.Do`,
the `select` inside `sleepContext`, `ctx.Err()`, the dependency probes) are
answered by an environment record that is indexed by the loop iteration; every
function returns its Go result together with the list of effects it performed,
in program order.
-/

set_option autoImplicit false

/-! ## Go errors -/

/-- A Go `error` value, described by the observations the program makes of it. -/
structure GoError where
  /-- `err.Error()` -/
  text : String
  /-- `errors.Is(err, context.Canceled)` -/
  isCanceled : Bool
  /-- `errors.Is(err, context.DeadlineExceeded)` -/
  isDeadlineExceeded : Bool
  /-- `errors.As(err, &exitErr)` with `exitErr *exec.ExitError`: `exitErr.ExitCode()` -/
  exitCode : Option Int
  /-- `errors.As(err, &netErr)` with `netErr net.Error`: `(netErr.Timeout(), netErr.Temporary())` -/
  netError : Option (Bool × Bool)
deriving DecidableEq, Repr

/-- `fmt.Errorf` / `errors.New` without a `%w` verb: a fresh error that wraps nothing. -/
def Errorf (text : String) : GoError :=
  { text := text, isCanceled := false, isDeadlineExceeded := false, exitCode := none, netError := none }

namespace context

/-- `context.Canceled` -/
def Canceled : GoError :=
  { text := "context canceled", isCanceled := true, isDeadlineExceeded := false,
    exitCode := none, netError := none }

/-- `context.DeadlineExceeded`; its type implements `net.Error` with `Timeout()` and
`Temporary()` both true. -/
def DeadlineExceeded : GoError :=
  { text := "context deadline exceeded", isCanceled := false, isDeadlineExceeded := true,
    exitCode := none, netError := some (true, true) }

end context

/-! ## Package `strings` and `unicode` -/

namespace strings

/-- Substring search on rune sequences. -/
def hasInfix (sub : List Char) : List Char → Bool
  | [] => sub.isEmpty
  | c :: cs => sub.isPrefixOf (c :: cs) || hasInfix sub cs

/-- `strings.Contains(s, substr)` -/
def Contains (s substr : String) : Bool := hasInfix substr.data s.data

/-- `unicode.ToLower` on one rune. The ASCII range is the code of the standard library;
the case table for the runes above it is the parameter `table`. -/
def lowerRune (table : Char → Char) (c : Char) : Char :=
  if c.toNat < 128 then
    if 65 ≤ c.toNat ∧ c.toNat ≤ 90 then Char.ofNat (c.toNat + 32) else c
  else table c

/-- `strings.ToLower(s)` -/
def ToLower (table : Char → Char) (s : String) : String :=
  String.mk (s.data.map (lowerRune table))

/-- `unicode.IsSpace` -/
def isSpace (c : Char) : Bool :=
  let n := c.toNat
  n = 9 || n = 10 || n = 11 || n = 12 || n = 13 || n = 32 || n = 0x85 || n = 0xA0 ||
  n = 0x1680 || (0x2000 ≤ n && n ≤ 0x200A) || n = 0x2028 || n = 0x2029 || n = 0x202F ||
  n = 0x205F || n = 0x3000

/-- `strings.TrimSpace(s)` -/
def TrimSpace (s : String) : String :=
  String.mk ((s.data.dropWhile isSpace).reverse.dropWhile isSpace).reverse

end strings

/-! ## Package `time` -/

namespace time

/-- `time.Millisecond`, in nanoseconds -/
def Millisecond : Int := 1000000

/-- `time.Second`, in nanoseconds -/
def Second : Int := 1000 * Millisecond

/-- `time.Minute`, in nanoseconds -/
def Minute : Int := 60 * Second

end time

/-- The channel that the `select` of a `sleepContext` call receives from. -/
inductive Wake where
  /-- `<-timer.C` -/
  | timer
  /-- `<-ctx.Done()`; `ctxErr` is the value of `ctx.Err()` afterwards -/
  | ctxDone (ctxErr : GoError)
deriving DecidableEq, Repr

/-! ## `internal/config` -/

namespace config

/-- The `Config` struct -/
structure Config where
  WindowsSSHHost : String
  WindowsSSHPort : Int
  WindowsSSHUser : String
  WindowsSSHIdentityFile : String
  AlohaServerURL : String
  AlohaClientURL : String
  AlohaServerStartCmd : String
  AlohaClientStartCmd : String
  PlaywrightHost : String
  PlaywrightPort : Int
  ArtifactOutDir : String
  ArtifactRetentionDays : Int
  Timeout : Int
  HatchetHTTPURL : String
  HatchetGRPCAddress : String
  HatchetHealthURL : String
  HatchetToken : String
  HatchetTLSStrategy : String
  HatchetNamespace : String
  HatchetWorkerName : String
  HatchetWorkerConcurrency : Int
  HatchetJobTimeout : Int
  HatchetRetryMax : Int
  HatchetRetryBackoff : Int
deriving DecidableEq, Repr

/-- `defaultConfig` -/
def defaultConfig : Config :=
  { WindowsSSHHost := "localhost",
    WindowsSSHPort := 22555,
    WindowsSSHUser := "administrator",
    WindowsSSHIdentityFile := "",
    AlohaServerURL := "http://127.0.0.1:7887",
    AlohaClientURL := "http://127.0.0.1:7888",
    AlohaServerStartCmd := "",
    AlohaClientStartCmd := "",
    PlaywrightHost := "127.0.0.1",
    PlaywrightPort := 9323,
    ArtifactOutDir := "./artifacts",
    ArtifactRetentionDays := 7,
    Timeout := 10 * time.Second,
    HatchetHTTPURL := "http://127.0.0.1:8888",
    HatchetGRPCAddress := "localhost:7077",
    HatchetHealthURL := "http://127.0.0.1:8733",
    HatchetToken := "",
    HatchetTLSStrategy := "",
    HatchetNamespace := "default",
    HatchetWorkerName := "win-automation",
    HatchetWorkerConcurrency := 5,
    HatchetJobTimeout := 10 * time.Minute,
    HatchetRetryMax := 3,
    HatchetRetryBackoff := 5 * time.Second }

end config

/-! ## `internal/sshx/sshx.go` -/

namespace sshx

/-- The `Result` struct -/
structure Result where
  Stdout : String
  Stderr : String
  ExitCode : Int
deriving DecidableEq, Repr

/-- What one `cmd.Run()` leaves behind: the two capture buffers and `runErr`. -/
structure CmdRun where
  stdout : String
  stderr : String
  runErr : Option GoError
deriving DecidableEq, Repr

/-- The effects of `Run`, in program order. -/
inductive Event where
  /-- `exec.LookPath("ssh")` -/
  | lookPath
  /-- `cmd.Run()` in loop iteration `attempt`, for `exec.CommandContext(ctx, sshPath, args...)` -/
  | cmdRun (attempt : Nat) (sshPath : String) (args : List String)
  /-- `sleepContext(ctx, d)` -/
  | sleep (d : Int)
deriving DecidableEq, Repr

/-- The world as `Run` sees it. -/
structure Env where
  /-- `exec.LookPath("ssh")` -/
  lookPath : Except GoError String
  /-- the outcome of `cmd.Run()` in loop iteration `i` -/
  cmdRun : Nat → CmdRun
  /-- which channel the `select` of the `sleepContext` call of iteration `i` receives from -/
  wake : Nat → Wake
  /-- `ctx.Err()` at the top of loop iteration `i`. `Run` never reads it; it only hands
  `ctx` to `exec.CommandContext` and to `sleepContext`. -/
  ctxErr : Nat → Option GoError
  /-- the case table of `unicode.ToLower` above the ASCII range -/
  lowerTable : Char → Char

/-- `shouldRetryConnectionError` -/
def shouldRetryConnectionError (table : Char → Char) (err : GoError) : Bool :=
  let lower := strings.ToLower table err.text
  strings.Contains lower "connection" || strings.Contains lower "timeout"

/-- `sleepContext` -/
def sleepContext (w : Wake) : Option GoError :=
  match w with
  | Wake.timer => none
  | Wake.ctxDone ctxErr => some ctxErr

/-- `maxAttempts` in `Run` -/
def maxAttempts : Nat := 3

/-- `backoffDurations` in `Run` -/
def backoffDurations : List Int :=
  [500 * time.Millisecond, 1 * time.Second, 2 * time.Second]

/-- The argument vector that `Run` builds for `ssh`. -/
def sshArgs (cfg : config.Config) (remoteCommand : String) : List String :=
  let target := cfg.WindowsSSHUser ++ "@" ++ cfg.WindowsSSHHost
  let args := ["-p", toString cfg.WindowsSSHPort,
    "-o", "BatchMode=yes",
    "-o", "StrictHostKeyChecking=no",
    "-o", "UserKnownHostsFile=/dev/null",
    target,
    remoteCommand]
  if strings.TrimSpace cfg.WindowsSSHIdentityFile ≠ "" then
    ["-i", cfg.WindowsSSHIdentityFile] ++ args
  else args

/-- The `for attempt := 0; attempt < maxAttempts; attempt++` loop of `Run`; `remaining`
is `maxAttempts - attempt`, so that `remaining = 0` is the exit of the loop. The loop sleeps
only when `attempt` is not `maxAttempts - 1`, so `backoffDurations[attempt]` is in range. -/
def runLoop (env : Env) (sshPath : String) (args : List String) :
    (remaining : Nat) → (attempt : Nat) → (Result × Option GoError) × List Event
  | 0, _ =>
    (({ Stdout := "", Stderr := "", ExitCode := 0 },
      some (Errorf ("ssh command failed after " ++ toString maxAttempts ++ " attempts"))), [])
  | remaining + 1, attempt =>
    let out := env.cmdRun attempt
    let ev := Event.cmdRun attempt sshPath args
    match out.runErr with
    | none => (({ Stdout := out.stdout, Stderr := out.stderr, ExitCode := 0 }, none), [ev])
    | some runErr =>
      match runErr.exitCode with
      | some code =>
        (({ Stdout := out.stdout, Stderr := out.stderr, ExitCode := code },
          some (Errorf ("ssh command failed (exit " ++ toString code ++ ")"))), [ev])
      | none =>
        let res : Result := { Stdout := out.stdout, Stderr := out.stderr, ExitCode := -1 }
        if attempt = maxAttempts - 1 ∨ ¬ shouldRetryConnectionError env.lowerTable runErr = true then
          ((res, some (Errorf ("ssh command failed: " ++ runErr.text))), [ev])
        else
          let d := backoffDurations.getD attempt 0
          match sleepContext (env.wake attempt) with
          | some err => ((res, some err), [ev, Event.sleep d])
          | none =>
            let rest := runLoop env sshPath args remaining (attempt + 1)
            (rest.1, ev :: Event.sleep d :: rest.2)

/-- `Run` -/
def Run (env : Env) (cfg : config.Config) (remoteCommand : String) :
    (Result × Option GoError) × List Event :=
  match env.lookPath with
  | Except.error _ =>
    (({ Stdout := "", Stderr := "", ExitCode := 0 }, some (Errorf "ssh not found in PATH")),
      [Event.lookPath])
  | Except.ok sshPath =>
    let r := runLoop env sshPath (sshArgs cfg remoteCommand) maxAttempts 0
    (r.1, Event.lookPath :: r.2)

/-- The number of `cmd.Run()` calls among the effects. -/
def attempts (evs : List Event) : Nat :=
  (evs.filter (fun e => match e with | Event.cmdRun _ _ _ => true | _ => false)).length

/-- The number of `sleepContext` calls among the effects. -/
def sleeps (evs : List Event) : Nat :=
  (evs.filter (fun e => match e with | Event.sleep _ => true | _ => false)).length

/-- A transient failure of one `cmd.Run()` in the words of the specification: a transport
error that is no remote exit and whose text contains "connection" or "timeout". -/
def failsTransiently (out : CmdRun) : Bool :=
  match out.runErr with
  | none => false
  | some e =>
    e.exitCode.isNone && (strings.Contains e.text "connection" || strings.Contains e.text "timeout")

/-- The outcomes of `cmd.Run()` after which `Run` goes into its backoff sleep (when the
attempt is not the last one): no remote exit, and `shouldRetryConnectionError` holds. -/
def retryable (table : Char → Char) (out : CmdRun) : Bool :=
  match out.runErr with
  | none => false
  | some e => e.exitCode.isNone && shouldRetryConnectionError table e

/-- The error of `*exec.ExitError` for a process that exited with `code`. -/
def exitError (code : Int) : GoError :=
  { text := "exit status " ++ toString code, isCanceled := false, isDeadlineExceeded := false,
    exitCode := some code, netError := none }

/-- An environment in which every attempt is refused at the transport level. -/
def envRefused : Env :=
  { lookPath := Except.ok "/usr/bin/ssh",
    cmdRun := fun i =>
      { stdout := "", stderr := "",
        runErr := some (Errorf (match i with
          | 0 => "dial: connection refused (first)"
          | 1 => "dial: connection refused (second)"
          | _ => "dial: i/o timeout (third)")) },
    wake := fun _ => Wake.timer,
    ctxErr := fun _ => none,
    lowerTable := fun c => c }

/-- An environment whose transport error is spelled with a capital letter. -/
def envCapital : Env :=
  { lookPath := Except.ok "/usr/bin/ssh",
    cmdRun := fun _ => { stdout := "", stderr := "", runErr := some (Errorf "Connection reset by peer") },
    wake := fun _ => Wake.timer,
    ctxErr := fun _ => none,
    lowerTable := fun c => c }

/-- An environment whose first attempt fails for good at the transport level. -/
def envPermanent : Env :=
  { lookPath := Except.ok "/usr/bin/ssh",
    cmdRun := fun _ =>
      { stdout := "", stderr := "", runErr := some (Errorf "fork/exec /usr/bin/ssh: permission denied") },
    wake := fun _ => Wake.timer,
    ctxErr := fun _ => none,
    lowerTable := fun c => c }

/-- An environment whose context is cancelled before `Run` is called: `cmd.Run()` of a
command made by `exec.CommandContext` then returns `ctx.Err()` without starting a process. -/
def envCancelled : Env :=
  { lookPath := Except.ok "/usr/bin/ssh",
    cmdRun := fun _ => { stdout := "", stderr := "", runErr := some context.Canceled },
    wake := fun _ => Wake.ctxDone context.Canceled,
    ctxErr := fun _ => some context.Canceled,
    lowerTable := fun c => c }

/-- An environment whose context is cancelled during the first backoff sleep. -/
def envCancelledInBackoff : Env :=
  { lookPath := Except.ok "/usr/bin/ssh",
    cmdRun := fun _ => { stdout := "", stderr := "", runErr := some (Errorf "dial: connection refused") },
    wake := fun _ => Wake.ctxDone context.Canceled,
    ctxErr := fun i => if i = 0 then none else some context.Canceled,
    lowerTable := fun c => c }

/-- An environment whose second attempt reaches the host, where the command exits with 127. -/
def envExit127 : Env :=
  { lookPath := Except.ok "/usr/bin/ssh",
    cmdRun := fun i =>
      if i = 0 then { stdout := "", stderr := "", runErr := some (Errorf "dial: connection refused") }
      else { stdout := "partial", stderr := "command not found", runErr := some (exitError 127) },
    wake := fun _ => Wake.timer,
    ctxErr := fun _ => none,
    lowerTable := fun c => c }

/-- An environment without an `ssh` executable on the `PATH`. -/
def envNoSSH : Env :=
  { lookPath := Except.error (Errorf "exec: ssh: executable file not found in $PATH"),
    cmdRun := fun _ => { stdout := "", stderr := "", runErr := none },
    wake := fun _ => Wake.timer,
    ctxErr := fun _ => none,
    lowerTable := fun c => c }

end sshx

/-! ## `internal/aloha/client.go` -/

namespace aloha

/-- The part of `*http.Request` that the client fills in. -/
structure Request where
  Method : String
  URL : String
  Body : Option String
  Header : List (String × String)
deriving DecidableEq, Repr

/-- The part of `*http.Response` that the client reads. -/
structure Response where
  StatusCode : Int
  Body : String
deriving DecidableEq, Repr

/-- The effects of `doRequestWithRetry`, in program order. -/
inductive Event where
  /-- `c.http.Do(req)` in loop iteration `attempt` -/
  | httpDo (attempt : Nat) (req : Request)
  /-- `resp.Body.Close()` in loop iteration `attempt` -/
  | closeBody (attempt : Nat)
  /-- `sleepContext(ctx, d)` -/
  | sleep (d : Int)
deriving DecidableEq, Repr

/-- The world as `doRequestWithRetry` sees it. -/
structure Env where
  /-- `ctx.Err()` at the top of loop iteration `i` -/
  ctxErr : Nat → Option GoError
  /-- the outcome of `c.http.Do(req)` in loop iteration `i` -/
  httpDo : Nat → Except GoError Response
  /-- which channel the `select` of the `sleepContext` call of iteration `i` receives from -/
  wake : Nat → Wake

/-- `requestMaxAttempts` -/
def requestMaxAttempts : Nat := 3

/-- `requestBackoffDurations` -/
def requestBackoffDurations : List Int :=
  [500 * time.Millisecond, 1 * time.Second, 2 * time.Second]

/-- `isRetryableStatus`; 502, 503 and 504 are `http.StatusBadGateway`,
`http.StatusServiceUnavailable` and `http.StatusGatewayTimeout`. -/
def isRetryableStatus (status : Int) : Bool :=
  if status = 502 ∨ status = 503 ∨ status = 504 then true else false

/-- `isTransientNetworkError`, for a non-nil `err` -/
def isTransientNetworkError (err : GoError) : Bool :=
  if err.isCanceled || err.isDeadlineExceeded then false
  else
    match err.netError with
    | some (timeout, temporary) => if timeout || temporary then true else false
    | none => false

/-- `sleepContext` -/
def sleepContext (w : Wake) : Option GoError :=
  match w with
  | Wake.timer => none
  | Wake.ctxDone ctxErr => some ctxErr

/-- The `for attempt := 0; attempt < requestMaxAttempts; attempt++` loop of
`doRequestWithRetry`; `remaining` is `requestMaxAttempts - attempt`. The loop sleeps only
when `attempt` is below `requestMaxAttempts - 1`, so `requestBackoffDurations[attempt]` is
in range. -/
def requestLoop (env : Env) (buildReq : Unit → Except GoError Request) :
    (remaining : Nat) → (attempt : Nat) → Except GoError Response × List Event
  | 0, _ =>
    (Except.error (Errorf ("aloha request failed after " ++ toString requestMaxAttempts ++
      " attempts")), [])
  | remaining + 1, attempt =>
    match env.ctxErr attempt with
    | some ctxErr => (Except.error ctxErr, [])
    | none =>
      match buildReq () with
      | Except.error err => (Except.error err, [])
      | Except.ok req =>
        let ev := Event.httpDo attempt req
        let d := requestBackoffDurations.getD attempt 0
        match env.httpDo attempt with
        | Except.error err =>
          if attempt = requestMaxAttempts - 1 ∨ ¬ isTransientNetworkError err = true then
            (Except.error err, [ev])
          else
            match sleepContext (env.wake attempt) with
            | some err => (Except.error err, [ev, Event.sleep d])
            | none =>
              let rest := requestLoop env buildReq remaining (attempt + 1)
              (rest.1, ev :: Event.sleep d :: rest.2)
        | Except.ok resp =>
          if isRetryableStatus resp.StatusCode = true ∧ attempt < requestMaxAttempts - 1 then
            match sleepContext (env.wake attempt) with
            | some err => (Except.error err, [ev, Event.closeBody attempt, Event.sleep d])
            | none =>
              let rest := requestLoop env buildReq remaining (attempt + 1)
              (rest.1, ev :: Event.closeBody attempt :: Event.sleep d :: rest.2)
          else
            (Except.ok resp, [ev])

/-- `Client.doRequestWithRetry` -/
def doRequestWithRetry (env : Env) (buildReq : Unit → Except GoError Request) :
    Except GoError Response × List Event :=
  requestLoop env buildReq requestMaxAttempts 0

/-- The number of `c.http.Do` calls among the effects. -/
def attempts (evs : List Event) : Nat :=
  (evs.filter (fun e => match e with | Event.httpDo _ _ => true | _ => false)).length

/-- The number of `sleepContext` calls among the effects. -/
def sleeps (evs : List Event) : Nat :=
  (evs.filter (fun e => match e with | Event.sleep _ => true | _ => false)).length

/-- A transient failure of one `c.http.Do` in the words of the specification, taken
literally: a network error that reports a timeout or a temporary condition, or a response
with status 502, 503 or 504. Whether the error is or wraps an error of a context plays no
part. -/
def transientAsWorded (o : Except GoError Response) : Bool :=
  match o with
  | Except.error e =>
    (match e.netError with
      | some (timeout, temporary) => timeout || temporary
      | none => false)
  | Except.ok resp =>
    decide (resp.StatusCode = 502 ∨ resp.StatusCode = 503 ∨ resp.StatusCode = 504)

/-- The narrower condition under which the loop does retry: `transientAsWorded`, and in
addition the error neither is nor wraps `context.Canceled` or `context.DeadlineExceeded`.
The addition is not in the words of the specification; it excludes among others the error of
an elapsed `http.Client.Timeout`, which wraps `context.DeadlineExceeded`. -/
def failsTransiently (o : Except GoError Response) : Bool :=
  match o with
  | Except.error e =>
    (match e.netError with
      | some (timeout, temporary) => timeout || temporary
      | none => false) && !e.isCanceled && !e.isDeadlineExceeded
  | Except.ok resp =>
    decide (resp.StatusCode = 502 ∨ resp.StatusCode = 503 ∨ resp.StatusCode = 504)

/-- The outcomes of `c.http.Do` after which `doRequestWithRetry` goes into its backoff sleep
(when the attempt is not the last one). -/
def retryable (o : Except GoError Response) : Bool :=
  match o with
  | Except.error e => isTransientNetworkError e
  | Except.ok resp => isRetryableStatus resp.StatusCode

/-- A `net.Error` that reports a timeout. -/
def dialTimeout : GoError :=
  { text := "dial tcp 127.0.0.1:7887: i/o timeout", isCanceled := false,
    isDeadlineExceeded := false, exitCode := none, netError := some (true, false) }

/-- The error of `c.http.Do` when the `Timeout` of the `http.Client` (set by `New` from
`cfg.Timeout`) elapses before the response headers arrive: a `net.Error` whose `Timeout()`
and `Temporary()` are true and for which `errors.Is(err, context.DeadlineExceeded)` holds,
whatever the state of the context of the caller. -/
def clientTimeout : GoError :=
  { text := "Get \"http://127.0.0.1:7887/\": context deadline exceeded " ++
      "(Client.Timeout exceeded while awaiting headers)",
    isCanceled := false, isDeadlineExceeded := true, exitCode := none,
    netError := some (true, true) }

/-- An error that is no `net.Error`. -/
def badCertificate : GoError := Errorf "tls: failed to verify certificate"

/-- The request that `ServerHealth` builds for the default configuration. -/
def healthRequest : Request :=
  { Method := "GET", URL := "http://127.0.0.1:7887/", Body := none, Header := [] }

/-- A `buildReq` that always succeeds with `healthRequest`. -/
def buildHealth : Unit → Except GoError Request := fun _ => Except.ok healthRequest

/-- An environment in which the server is unreachable, then answers 503, then 504. -/
def envUnavailable : Env :=
  { ctxErr := fun _ => none,
    httpDo := fun i =>
      match i with
      | 0 => Except.error dialTimeout
      | 1 => Except.ok { StatusCode := 503, Body := "starting" }
      | _ => Except.ok { StatusCode := 504, Body := "gateway timeout" },
    wake := fun _ => Wake.timer }

/-- An environment in which the server never answers within the `Timeout` of the
`http.Client`, while the context of the caller is never cancelled and has no deadline. -/
def envClientTimeout : Env :=
  { ctxErr := fun _ => none,
    httpDo := fun _ => Except.error clientTimeout,
    wake := fun _ => Wake.timer }

/-- An environment in which the first request fails for good. -/
def envBadCertificate : Env :=
  { ctxErr := fun _ => none,
    httpDo := fun _ => Except.error badCertificate,
    wake := fun _ => Wake.timer }

/-- An environment whose context is cancelled before the first attempt. -/
def envCancelled : Env :=
  { ctxErr := fun _ => some context.Canceled,
    httpDo := fun _ => Except.error context.Canceled,
    wake := fun _ => Wake.ctxDone context.Canceled }

/-- An environment whose context is cancelled during the first backoff sleep. -/
def envCancelledInBackoff : Env :=
  { ctxErr := fun i => if i = 0 then none else some context.Canceled,
    httpDo := fun _ => Except.ok { StatusCode := 503, Body := "" },
    wake := fun _ => Wake.ctxDone context.Canceled }

end aloha

/-! ## `cmd/win-automation/supervisor.go`: one supervisor pass -/

namespace supervisor

/-- `supervisorFailpointEnv` -/
def supervisorFailpointEnv : String := "WIN_AUTOMATION_SUPERVISOR_FAILPOINT"

/-- `supervisorExitFailure` -/
def supervisorExitFailure : Int := 1

/-- `supervisorExitDependency` -/
def supervisorExitDependency : Int := 3

/-- The `supervisorResult` struct -/
structure supervisorResult where
  exitCode : Int
  err : Option GoError
deriving DecidableEq, Repr

/-- The effects of `runOnce`, in program order. -/
inductive Event where
  /-- `check.check(ctx)` of the dependency `name` -/
  | check (name : String)
  /-- `check.remediate(ctx)` of the dependency `name` -/
  | remediate (name : String)
  /-- `logx.Error("supervisor", op, msg, err)` -/
  | logError (op msg : String) (err : GoError)
  /-- `logx.Info("supervisor", op, msg)`, which `debugLog` calls when `r.debug` is set -/
  | logInfo (op msg : String)
deriving DecidableEq, Repr

/-- The `supervisorRunner` of one pass. Its probe and remediation methods reach the
dependencies over ssh and HTTP; here each is given by what its calls return in this pass,
`f n` being the result of the call number `n` of the method (`none` for a nil error). -/
structure supervisorRunner where
  debug : Bool
  checkSSH : Nat → Option GoError
  checkAlohaServer : Nat → Option GoError
  checkAlohaClient : Nat → Option GoError
  checkHatchet : Nat → Option GoError
  checkPlaywright : Nat → Option GoError
  remediateAlohaServer : Nat → Option GoError
  remediateAlohaClient : Nat → Option GoError
  remediatePlaywright : Nat → Option GoError

/-- An element of the slice `checks` in `runOnce`; `remediate` is `none` for a nil function. -/
structure checkEntry where
  name : String
  exitCode : Int
  check : Nat → Option GoError
  remediate : Option (Nat → Option GoError)

/-- `supervisorRunner.debugLog` -/
def debugLog (debug : Bool) (op msg : String) : List Event :=
  if ¬ debug = true then [] else [Event.logInfo op msg]

/-- The slice `checks` that `runOnce` builds. -/
def checks (r : supervisorRunner) : List checkEntry :=
  [ { name := "ssh",
      exitCode := supervisorExitFailure,
      check := r.checkSSH,
      remediate := none },
    { name := "aloha_server",
      exitCode := supervisorExitDependency,
      check := r.checkAlohaServer,
      remediate := some r.remediateAlohaServer },
    { name := "aloha_client",
      exitCode := supervisorExitDependency,
      check := r.checkAlohaClient,
      remediate := some r.remediateAlohaClient },
    { name := "hatchet",
      exitCode := supervisorExitDependency,
      check := r.checkHatchet,
      remediate := none },
    { name := "playwright",
      exitCode := supervisorExitDependency,
      check := r.checkPlaywright,
      remediate := some r.remediatePlaywright } ]

/-- The `for _, check := range checks` loop of `runOnce`, with the `return supervisorResult{}`
that follows it. Within one pass every entry's `check` is called for the first time at the top
of its turn (call `0`) and for the second time after the remediation (call `1`). -/
def runChecks (debug : Bool) : List checkEntry → supervisorResult × List Event
  | [] => ({ exitCode := 0, err := none }, [])
  | check :: rest =>
    let pre := debugLog debug "check" ("checking " ++ check.name) ++ [Event.check check.name]
    match check.check 0 with
    | none =>
      let out := runChecks debug rest
      (out.1, pre ++ debugLog debug "check" (check.name ++ " ok") ++ out.2)
    | some err =>
      let pre := pre ++ [Event.logError "check" (check.name ++ " failed") err]
      match check.remediate with
      | none =>
        ({ exitCode := check.exitCode, err := some (Errorf (check.name ++ " check failed")) }, pre)
      | some remediate =>
        let pre := pre ++ [Event.remediate check.name] ++
          (match remediate 0 with
            | some err => [Event.logError "remediate" (check.name ++ " remediation failed") err]
            | none => []) ++
          [Event.check check.name]
        match check.check 1 with
        | some err =>
          ({ exitCode := check.exitCode, err := some (Errorf (check.name ++ " check failed")) },
            pre ++ [Event.logError "check" (check.name ++ " recheck failed") err])
        | none =>
          let out := runChecks debug rest
          (out.1, pre ++ debugLog debug "check" (check.name ++ " ok after remediation") ++ out.2)

/-- `supervisorRunner.runOnce`; `getenv` is `os.Getenv`. -/
def runOnce (getenv : String → String) (r : supervisorRunner) : supervisorResult × List Event :=
  let failpoint := strings.TrimSpace (getenv supervisorFailpointEnv)
  if failpoint ≠ "" then
    let err := Errorf ("failpoint enabled: " ++ failpoint)
    ({ exitCode := supervisorExitFailure, err := some err },
      [Event.logError "failpoint" "triggered" err])
  else
    runChecks r.debug (checks r)

/-- The calls of probes and remediations among the effects, without the log lines. -/
def invocations (evs : List Event) : List Event :=
  evs.filter (fun e => match e with
    | Event.check _ => true
    | Event.remediate _ => true
    | _ => false)

/-! ### The protocol of the specification (section 4.4) -/

/-- The states of one dependency within a pass. -/
inductive DepState where
  | CHECKING
  | REMEDIATING
  | RECHECKING
  | OK
  | FAILED
deriving DecidableEq, Repr

/-- The transitions `CHECKING → (pass) → OK`, `CHECKING → (fail, no remediation) → FAILED`,
`CHECKING → (fail) → REMEDIATING → RECHECKING → OK | FAILED`; the remediation's own result
does not enter. -/
def specStep (c : checkEntry) : DepState → DepState
  | DepState.CHECKING =>
    if (c.check 0).isNone then DepState.OK
    else if c.remediate.isNone then DepState.FAILED
    else DepState.REMEDIATING
  | DepState.REMEDIATING => DepState.RECHECKING
  | DepState.RECHECKING => if (c.check 1).isNone then DepState.OK else DepState.FAILED
  | DepState.OK => DepState.OK
  | DepState.FAILED => DepState.FAILED

/-- The state in which a dependency ends: three transitions from `CHECKING` reach `OK` or
`FAILED` on every path. -/
def specVerdict (c : checkEntry) : DepState :=
  specStep c (specStep c (specStep c DepState.CHECKING))

/-- The calls that the protocol makes for one dependency: one check, and after a failed check
of a dependency with a remediation, one remediation and one recheck. -/
def specCalls (c : checkEntry) : List Event :=
  if (c.check 0).isNone ∨ c.remediate.isNone then [Event.check c.name]
  else [Event.check c.name, Event.remediate c.name, Event.check c.name]

/-- The calls of a fail-fast pass over `cs`, in the order of `cs`: those of every dependency
up to and including the first one that does not end `OK`. -/
def specPassCalls : List checkEntry → List Event
  | [] => []
  | c :: rest =>
    specCalls c ++ (if specVerdict c = DepState.OK then specPassCalls rest else [])

/-- The result of a fail-fast pass over `cs`: success, or the first dependency that does not
end `OK`, by name and declared exit code. -/
def specResult (cs : List checkEntry) : supervisorResult :=
  match cs.find? (fun c => decide (specVerdict c ≠ DepState.OK)) with
  | none => { exitCode := 0, err := none }
  | some c => { exitCode := c.exitCode, err := some (Errorf (c.name ++ " check failed")) }

/-! ### Runners for the examples -/

/-- A runner all of whose probes pass. -/
def runnerHealthy : supervisorRunner :=
  { debug := true,
    checkSSH := fun _ => none,
    checkAlohaServer := fun _ => none,
    checkAlohaClient := fun _ => none,
    checkHatchet := fun _ => none,
    checkPlaywright := fun _ => none,
    remediateAlohaServer := fun _ => none,
    remediateAlohaClient := fun _ => none,
    remediatePlaywright := fun _ => none }

/-- A runner whose aloha server is down, whose remediation reports an error, and whose
recheck passes. -/
def runnerRecovered : supervisorRunner :=
  { runnerHealthy with
    checkAlohaServer := fun n => if n = 0 then some (Errorf "connection refused") else none,
    remediateAlohaServer := fun _ => some (Errorf "ssh command failed (exit 1)") }

/-- A runner whose hatchet probe fails. -/
def runnerHatchetDown : supervisorRunner :=
  { runnerHealthy with
    checkHatchet := fun _ => some (Errorf "hatchet health /live returned http 503") }

/-- A runner whose playwright probe fails before and after the remediation. -/
def runnerPlaywrightDown : supervisorRunner :=
  { runnerHealthy with
    checkPlaywright := fun _ => some (Errorf "playwright port is not listening") }

/-- A runner whose ssh probe fails, and with it every probe that goes over ssh. -/
def runnerSSHDown : supervisorRunner :=
  { runnerHealthy with
    checkSSH := fun _ => some (Errorf "ssh command failed: dial: connection refused"),
    checkPlaywright := fun _ => some (Errorf "ssh command failed: dial: connection refused") }

/-- An environment without variables: `os.Getenv` returns the empty string. -/
def noEnv : String → String := fun _ => ""

end supervisor

/-! ## `cmd/win-automation/supervisor.go`: the circuit-breaker loop -/

namespace supervisor

/-- `supervisorCircuitThreshold` -/
def supervisorCircuitThreshold : Int := 3

/-- `supervisorCircuitOpenDuration` -/
def supervisorCircuitOpenDuration : Int := 60 * time.Second

/-- `supervisorLoopInterval` -/
def supervisorLoopInterval : Int := 10 * time.Second

/-- The `sleepContext` of `supervisor.go`, which returns at once for `d <= 0`. -/
def sleepContext (d : Int) (w : Wake) : Option GoError :=
  if d ≤ 0 then none
  else
    match w with
    | Wake.timer => none
    | Wake.ctxDone ctxErr => some ctxErr

/-- The two local variables of the loop of `cmdSupervisorRun`. Instants (`time.Time`) are
counted in nanoseconds from the zero `time.Time`, so that `0` is `time.Time{}` and every clock
reading is a natural number. -/
structure circuitVars where
  consecutiveFailures : Int
  circuitOpenUntil : Nat
deriving DecidableEq, Repr

/-- The effects of `cmdSupervisorRun`, in program order. -/
inductive LoopEvent where
  /-- `logx.Info("supervisor", op, msg, ...)` -/
  | logInfo (op msg : String)
  /-- `logx.Warn("supervisor", op, msg, ...)` -/
  | logWarn (op msg : String)
  /-- `logx.Error("supervisor", op, msg, err, ...)` -/
  | logError (op msg : String) (err : GoError)
  /-- `sleepContext(ctx, d)` -/
  | sleep (d : Int)
  /-- `runner.runOnce(ctx)` of loop turn `turn`; `start` is the instant at which the pass
  begins and `vars` holds the two variables at that instant -/
  | pass (turn : Nat) (start : Nat) (vars : circuitVars) (result : supervisorResult)
  /-- the assignment `circuitOpenUntil = time.Now().Add(supervisorCircuitOpenDuration)` -/
  | opened (openUntil : Nat)
deriving DecidableEq, Repr

/-- The world as the loop of `cmdSupervisorRun` sees it, by loop turn. Time passes in the
blocking calls only: a pass takes `passDuration`, and a timer fires `cooldownLag` or
`intervalLag` after the duration it was set for. -/
structure LoopEnv where
  /-- `ctx.Err()` at the top of turn `i` -/
  ctxErr : Nat → Option GoError
  /-- the `select` of `sleepContext(ctx, wait)` in turn `i` -/
  cooldownWake : Nat → Wake
  /-- how long after `wait` the timer of that sleep fires -/
  cooldownLag : Nat → Nat
  /-- `os.Getenv` during the pass of turn `i` -/
  getenv : Nat → String → String
  /-- what the probes and remediations return during the pass of turn `i` -/
  probes : Nat → supervisorRunner
  /-- how long the pass of turn `i` takes -/
  passDuration : Nat → Nat
  /-- the `select` of `sleepContext(ctx, supervisorLoopInterval)` in turn `i` -/
  intervalWake : Nat → Wake
  /-- how long after `supervisorLoopInterval` the timer of that sleep fires -/
  intervalLag : Nat → Nat

/-- The pass of turn `i`: `runner.runOnce(ctx)` for the runner built by `cmdSupervisorRun`. -/
def passResult (env : LoopEnv) (debug : Bool) (i : Nat) : supervisorResult :=
  (runOnce (env.getenv i) { env.probes i with debug := debug }).1

/-- Lines 74 to 81 of `cmdSupervisorRun`: the wait for an open circuit. `time.Until` is the
difference of the two instants (a difference outside the range of `time.Duration` would
saturate with the same sign). The result is the exit code of a cancelled wait, or the instant
and the variables with which the turn goes on. -/
def cooldown (env : LoopEnv) (i : Nat) (now : Nat) (v : circuitVars) :
    Except Int (Nat × circuitVars) × List LoopEvent :=
  let wait : Int := (v.circuitOpenUntil : Int) - (now : Int)
  if wait > 0 then
    match sleepContext wait (env.cooldownWake i) with
    | some _ =>
      (Except.error supervisorExitFailure, [LoopEvent.logWarn "circuit" "open", LoopEvent.sleep wait])
    | none =>
      (Except.ok (now + wait.toNat + env.cooldownLag i,
          { consecutiveFailures := 0, circuitOpenUntil := 0 }),
        [LoopEvent.logWarn "circuit" "open", LoopEvent.sleep wait])
  else
    (Except.ok (now, v), [])

/-- `supervisorRunner.debugLog`, as an effect of `cmdSupervisorRun` -/
def loopDebugLog (debug : Bool) (op msg : String) : List LoopEvent :=
  if ¬ debug = true then [] else [LoopEvent.logInfo op msg]

/-- Lines 84 to 100 of `cmdSupervisorRun`: what follows `runner.runOnce(ctx)`; `now` is the
instant at which the pass has ended. The result is the exit code of a `--once` run, or the
variables with which the turn goes on. -/
def afterPass (once debug : Bool) (now : Nat) (v : circuitVars) (result : supervisorResult) :
    Except Int circuitVars × List LoopEvent :=
  match result.err with
  | none =>
    let v1 : circuitVars := { v with consecutiveFailures := 0 }
    let log := loopDebugLog debug "run" "pass completed"
    if once = true then (Except.error 0, log) else (Except.ok v1, log)
  | some err =>
    let log := [LoopEvent.logError "run" "pass failed" err]
    let v1 : circuitVars := { v with consecutiveFailures := v.consecutiveFailures + 1 }
    if once = true then (Except.error result.exitCode, log)
    else if v1.consecutiveFailures ≥ supervisorCircuitThreshold then
      let openUntil := now + supervisorCircuitOpenDuration.toNat
      (Except.ok { v1 with circuitOpenUntil := openUntil },
        log ++ [LoopEvent.opened openUntil, LoopEvent.logWarn "circuit" "opened"])
    else (Except.ok v1, log)

/-- The `for` loop of `cmdSupervisorRun`, lines 68 to 105. The loop has no exit condition of
its own, so the model runs `fuel` turns of it: the result is `none` while the loop is still
running after them, and `some code` once `cmdSupervisorRun` has returned `code`. `turn` counts
the turns and `now` is the instant at the top of the turn. -/
def superviseLoop (env : LoopEnv) (once debug : Bool) :
    (fuel : Nat) → (turn : Nat) → (now : Nat) → circuitVars → Option Int × List LoopEvent
  | 0, _, _, _ => (none, [])
  | fuel + 1, turn, now, v =>
    match env.ctxErr turn with
    | some _ => (some 0, [LoopEvent.logInfo "run" "stopped"])
    | none =>
      match cooldown env turn now v with
      | (Except.error code, evs) => (some code, evs)
      | (Except.ok (start, v1), evs) =>
        let result := passResult env debug turn
        let ended := start + env.passDuration turn
        let evs := evs ++ [LoopEvent.pass turn start v1 result]
        match afterPass once debug ended v1 result with
        | (Except.error code, evs2) => (some code, evs ++ evs2)
        | (Except.ok v2, evs2) =>
          let evs := evs ++ evs2 ++ [LoopEvent.sleep supervisorLoopInterval]
          match sleepContext supervisorLoopInterval (env.intervalWake turn) with
          | some _ => (some 0, evs)
          | none =>
            let rest := superviseLoop env once debug fuel (turn + 1)
              (ended + supervisorLoopInterval.toNat + env.intervalLag turn) v2
            (rest.1, evs ++ rest.2)

/-- `cmdSupervisorRun`, run for `fuel` turns of its loop from the instant `start`; `flags` is
what `fs.Parse(args)` gives for `--once` and `--debug`. -/
def cmdSupervisorRun (env : LoopEnv) (flags : Except GoError (Bool × Bool)) (start : Nat)
    (fuel : Nat) : Option Int × List LoopEvent :=
  match flags with
  | Except.error _ => (some 2, [])
  | Except.ok (once, debug) =>
    let out := superviseLoop env once debug fuel 0 start
      { consecutiveFailures := 0, circuitOpenUntil := 0 }
    (out.1, LoopEvent.logInfo "run" "starting" :: out.2)

/-! ### Observations on the effects of the loop -/

/-- The number of passes among the effects. -/
def passCount (evs : List LoopEvent) : Nat :=
  (evs.filter (fun e => match e with | LoopEvent.pass _ _ _ _ => true | _ => false)).length

/-- The number of `sleepContext` calls among the effects. -/
def sleepCount (evs : List LoopEvent) : Nat :=
  (evs.filter (fun e => match e with | LoopEvent.sleep _ => true | _ => false)).length

/-- The number of times the circuit is opened among the effects. -/
def openedCount (evs : List LoopEvent) : Nat :=
  (evs.filter (fun e => match e with | LoopEvent.opened _ => true | _ => false)).length

/-- The length of the run of failed passes at the end of the effects `evs`, when `n` is its
length before them. -/
def streakFrom (n : Nat) (evs : List LoopEvent) : Nat :=
  evs.foldl (fun k e =>
    match e with
    | LoopEvent.pass _ _ _ result => if result.err.isNone then 0 else k + 1
    | _ => k) n

/-- The number of consecutive failed passes at the end of the effects `evs`. -/
def streak (evs : List LoopEvent) : Nat := streakFrom 0 evs

/-! ### Environments for the examples -/

/-- An environment whose ssh probe always fails, with passes of two seconds and punctual
timers. -/
def envAlwaysDown : LoopEnv :=
  { ctxErr := fun _ => none,
    cooldownWake := fun _ => Wake.timer,
    cooldownLag := fun _ => 0,
    getenv := fun _ => noEnv,
    probes := fun _ => runnerSSHDown,
    passDuration := fun _ => 2000000000,
    intervalWake := fun _ => Wake.timer,
    intervalLag := fun _ => 0 }

/-- As `envAlwaysDown`, but the timer of the interval sleep that follows the third pass fires
a minute late (the process was stopped in between). -/
def envStalled : LoopEnv :=
  { envAlwaysDown with
    intervalLag := fun i => if i = 2 then 60000000000 else 0 }

/-- An environment whose first two passes fail and whose third pass succeeds. -/
def envRecovers : LoopEnv :=
  { envAlwaysDown with
    probes := fun i => if i < 2 then runnerSSHDown else runnerHealthy }

/-- An environment whose context is already cancelled when `cmdSupervisorRun` is called. -/
def envCancelledAtEntry : LoopEnv :=
  { envAlwaysDown with
    ctxErr := fun _ => some context.DeadlineExceeded }

/-- The instant 2026-11-01T00:00:00Z, in nanoseconds from the zero `time.Time`. -/
def someInstant : Nat := 63929779200000000000

end supervisor

/-! ## Package `encoding/json`: values -/

/-- A JSON value. Decoded into `interface{}` it is a `nil`, `bool`, `float64`, `string`,
`[]interface{}` or `map[string]interface{}`, constructor by constructor. -/
inductive JSON where
  | null
  | bool (b : Bool)
  | number (n : Int)
  | string (s : String)
  | array (items : List JSON)
  | object (fields : List (String × JSON))

/-- The index expression `m[key]` with the comma-ok form, for a map decoded from a JSON
object whose members are `fields`. -/
def mapIndex (fields : List (String × JSON)) (key : String) : Option JSON :=
  fields.lookup key

/-- The member that `json.Marshal` writes for a struct field tagged `omitempty`. -/
def omitempty (key : String) (value : JSON) (isZero : Bool) : List (String × JSON) :=
  if isZero then [] else [(key, value)]

/-! ## `internal/hatchet/client.go`: job types and inputs -/

namespace hatchet

/-- `JobTypeWindowsExec` -/
def JobTypeWindowsExec : String := "windows.exec"

/-- `JobTypeAlohaRun` -/
def JobTypeAlohaRun : String := "aloha.run"

/-- The `WindowsExecInput` struct -/
structure WindowsExecInput where
  Command : String
  Timeout : Int
deriving DecidableEq, Repr

/-- The `AlohaRunInput` struct -/
structure AlohaRunInput where
  Task : String
  SelectedScreen : Int
  TraceID : String
  MaxSteps : Int
deriving DecidableEq, Repr

/-- The members that `json.Marshal` writes for a `WindowsExecInput`, by its field tags. -/
def WindowsExecInput.members (x : WindowsExecInput) : List (String × JSON) :=
  [("command", JSON.string x.Command)] ++
  omitempty "timeout" (JSON.number x.Timeout) (decide (x.Timeout = 0))

/-- The members that `json.Marshal` writes for an `AlohaRunInput`, by its field tags. -/
def AlohaRunInput.members (x : AlohaRunInput) : List (String × JSON) :=
  [("task", JSON.string x.Task)] ++
  omitempty "selected_screen" (JSON.number x.SelectedScreen) (decide (x.SelectedScreen = 0)) ++
  omitempty "trace_id" (JSON.string x.TraceID) (decide (x.TraceID = "")) ++
  omitempty "max_steps" (JSON.number x.MaxSteps) (decide (x.MaxSteps = 0))

end hatchet

/-! ## `cmd/win-automation/jobs.go` -/

namespace jobs

/-- The constants of `rest.V1TaskStatus` in the REST client of the queue, a string type. -/
def V1TaskStatusQUEUED : String := "QUEUED"

/-- See `V1TaskStatusQUEUED`. -/
def V1TaskStatusRUNNING : String := "RUNNING"

/-- See `V1TaskStatusQUEUED`. -/
def V1TaskStatusCOMPLETED : String := "COMPLETED"

/-- See `V1TaskStatusQUEUED`. -/
def V1TaskStatusFAILED : String := "FAILED"

/-- See `V1TaskStatusQUEUED`. -/
def V1TaskStatusCANCELLED : String := "CANCELLED"

/-- The `jobOutput` struct -/
structure jobOutput where
  JobID : String
  State : String
  TraceID : String
deriving DecidableEq, Repr

/-- The `jobEnqueueOptions` struct -/
structure jobEnqueueOptions where
  jobType : String
  cmd : String
  task : String
  timeout : Int
  maxSteps : Int
  selectedScreen : Int
  traceID : String
  jsonOutput : Bool
  idempotentCheck : String
deriving DecidableEq, Repr

/-- The `windowsExecPayload` struct, which embeds `hatchet.WindowsExecInput` -/
structure windowsExecPayload where
  WindowsExecInput : hatchet.WindowsExecInput
  TraceID : String
  IdempotentCheck : String
deriving DecidableEq, Repr

/-- The `alohaRunPayload` struct, which embeds `hatchet.AlohaRunInput` -/
structure alohaRunPayload where
  AlohaRunInput : hatchet.AlohaRunInput
  IdempotentCheck : String
deriving DecidableEq, Repr

/-- The values that `buildWorkflowInput` returns as its `any`. -/
inductive workflowInput where
  | windowsExec (payload : windowsExecPayload)
  | alohaRun (payload : alohaRunPayload)
deriving DecidableEq, Repr

/-- The errors that the functions of `jobs.go` return: a `jobsUsageError` around an error, or
any other error value. -/
inductive jobsError where
  /-- `jobsUsageError{err: err}` -/
  | usage (err : GoError)
  /-- an error that is not, and does not wrap, a `jobsUsageError` -/
  | other (err : GoError)
deriving DecidableEq, Repr

/-- `isJobsUsageError` -/
def isJobsUsageError (err : jobsError) : Bool :=
  match err with
  | jobsError.usage _ => true
  | jobsError.other _ => false

/-- The error value below the wrapper, as `errors.Is` and `logx` see it. -/
def jobsError.err (e : jobsError) : GoError :=
  match e with
  | jobsError.usage err => err
  | jobsError.other err => err

/-- `buildWorkflowInput` -/
def buildWorkflowInput (opts : jobEnqueueOptions) : Except jobsError (String × workflowInput) :=
  if opts.jobType = hatchet.JobTypeWindowsExec then
    if strings.TrimSpace opts.cmd = "" then
      Except.error (jobsError.usage (Errorf "--cmd is required for windows.exec"))
    else
      Except.ok (opts.jobType, workflowInput.windowsExec
        { WindowsExecInput := { Command := opts.cmd, Timeout := opts.timeout },
          TraceID := opts.traceID,
          IdempotentCheck := opts.idempotentCheck })
  else if opts.jobType = hatchet.JobTypeAlohaRun then
    if strings.TrimSpace opts.task = "" then
      Except.error (jobsError.usage (Errorf "--task is required for aloha.run"))
    else
      Except.ok (opts.jobType, workflowInput.alohaRun
        { AlohaRunInput :=
            { Task := opts.task,
              SelectedScreen := opts.selectedScreen,
              TraceID := opts.traceID,
              MaxSteps := opts.maxSteps },
          IdempotentCheck := opts.idempotentCheck })
  else
    Except.error (jobsError.other (Errorf ("unknown job type: " ++ opts.jobType)))

/-- `mapRunState` -/
def mapRunState (status : String) : String :=
  if status = V1TaskStatusQUEUED then "queued"
  else if status = V1TaskStatusRUNNING then "running"
  else if status = V1TaskStatusCOMPLETED then "completed"
  else if status = V1TaskStatusFAILED then "failed"
  else if status = V1TaskStatusCANCELLED then "cancelled"
  else "queued"

/-- `isTerminalState` -/
def isTerminalState (state : String) : Bool :=
  if state = "completed" ∨ state = "failed" ∨ state = "cancelled" then true else false

/-- `traceIDFromInput` -/
def traceIDFromInput (input : List (String × JSON)) : String :=
  match mapIndex input "trace_id" with
  | none => ""
  | some (JSON.string traceID) => traceID
  | some _ => ""

/-- The part of `details.Run` that the commands read. -/
structure runDetails where
  Status : String
  Input : List (String × JSON)

/-- The effects of the job commands, in program order. -/
inductive Event where
  /-- `logx.Info("jobs", op, msg, ...)` -/
  | logInfo (op msg : String)
  /-- `logx.Warn("jobs", op, msg, ...)` -/
  | logWarn (op msg : String)
  /-- `logx.Error("jobs", op, msg, err, ...)` -/
  | logError (op msg : String) (err : GoError)
  /-- `client.RunNoWait(ctx, workflowName, input)` -/
  | runNoWait (workflowName : String) (input : workflowInput)
  /-- `client.Runs().Get(ctx, jobID)` -/
  | get (jobID : String)
  /-- the `select` on `watchCtx.Done()` and `ticker.C` in `watchJob` -/
  | wait
  /-- `writeJobOutput(output, jsonOutput)` -/
  | write (output : jobOutput) (jsonOutput : Bool)
deriving DecidableEq, Repr

/-- The queue as the job commands see it. -/
structure Env where
  /-- `client.RunNoWait(ctx, workflowName, input)`: the `RunId` of the run reference -/
  runNoWait : String → workflowInput → Except GoError String
  /-- `client.Runs().Get(ctx, jobID)`, by the number of the call -/
  get : Nat → Except GoError runDetails
  /-- the `select` that follows poll `n` of `watchJob`: `Wake.timer` for `ticker.C`, and
  `Wake.ctxDone` with `watchCtx.Err()` for `watchCtx.Done()` -/
  tick : Nat → Wake

/-- `enqueueJob` -/
def enqueueJob (env : Env) (opts : jobEnqueueOptions) :
    Except jobsError jobOutput × List Event :=
  match buildWorkflowInput opts with
  | Except.error err => (Except.error err, [])
  | Except.ok (workflowName, input) =>
    let evs := [Event.logInfo "enqueue" "dispatching", Event.runNoWait workflowName input]
    match env.runNoWait workflowName input with
    | Except.error err => (Except.error (jobsError.other err), evs)
    | Except.ok runId =>
      (Except.ok { JobID := runId, State := "queued", TraceID := opts.traceID }, evs)

/-- The `for` loop of `watchJob`. It has no exit condition of its own, so the model runs at
most `fuel` polls: the result is `none` while the loop is still running after them. `n` is
the number of polls made before. The zero `jobOutput` goes with every error. -/
def watchLoop (env : Env) (jobID traceID : String) :
    (fuel : Nat) → (n : Nat) → Option (jobOutput × Option GoError) × List Event
  | 0, _ => (none, [])
  | fuel + 1, n =>
    match env.get n with
    | Except.error err =>
      (some ({ JobID := "", State := "", TraceID := "" }, some err), [Event.get jobID])
    | Except.ok details =>
      let state := mapRunState details.Status
      let result : jobOutput := { JobID := jobID, State := state, TraceID := traceID }
      if isTerminalState state = true then (some (result, none), [Event.get jobID])
      else
        match env.tick n with
        | Wake.ctxDone ctxErr =>
          (some ({ JobID := "", State := "", TraceID := "" }, some ctxErr),
            [Event.get jobID, Event.wait])
        | Wake.timer =>
          let rest := watchLoop env jobID traceID fuel (n + 1)
          (rest.1, Event.get jobID :: Event.wait :: rest.2)

/-- `watchJob`, run for at most `fuel` polls. The context `watchCtx` is made from
`context.Background()` with `timeout`; what it does is in `env.get` and `env.tick`. -/
def watchJob (env : Env) (jobID traceID : String) (_timeout : Int) (fuel : Nat) :
    Option (jobOutput × Option GoError) × List Event :=
  watchLoop env jobID traceID fuel 0

/-- The number of status queries among the effects. -/
def polls (evs : List Event) : Nat :=
  (evs.filter (fun e => match e with | Event.get _ => true | _ => false)).length

/-- The number of dispatches to the queue among the effects. -/
def dispatches (evs : List Event) : Nat :=
  (evs.filter (fun e => match e with | Event.runNoWait _ _ => true | _ => false)).length

/-- `cmdJobsEnqueue`, from the parsed flags and the client on; `parsed` is the result of
`parseJobsEnqueueFlags` and `client` the error of `hatchet.NewSDKClient`, if any. -/
def cmdJobsEnqueue (env : Env) (parsed : Except jobsError jobEnqueueOptions)
    (client : Option GoError) : Int × List Event :=
  match parsed with
  | Except.error err => (2, [Event.logError "enqueue" "invalid args" err.err])
  | Except.ok opts =>
    match client with
    | some err => (2, [Event.logError "enqueue" "client init failed" err])
    | none =>
      let out := enqueueJob env opts
      match out.1 with
      | Except.error err =>
        if isJobsUsageError err = true then
          (2, out.2 ++ [Event.logError "enqueue" "invalid args" err.err])
        else
          (1, out.2 ++ [Event.logError "enqueue" "failed" err.err])
      | Except.ok result =>
        (0, out.2 ++ [Event.write result opts.jsonOutput, Event.logInfo "enqueue" "ok"])

/-- `cmdJobsRun`, from the parsed flags and the client on, with at most `fuel` polls of
`watchJob`; the exit code is `none` while `watchJob` is still polling after them. -/
def cmdJobsRun (env : Env) (cfg : config.Config) (parsed : Except jobsError jobEnqueueOptions)
    (client : Option GoError) (fuel : Nat) : Option Int × List Event :=
  match parsed with
  | Except.error err => (some 2, [Event.logError "run" "invalid args" err.err])
  | Except.ok opts =>
    let evs := [Event.logWarn "run" "deprecated"]
    match client with
    | some err => (some 2, evs ++ [Event.logError "run" "client init failed" err])
    | none =>
      let out := enqueueJob env opts
      let evs := evs ++ out.2
      match out.1 with
      | Except.error err =>
        if isJobsUsageError err = true then
          (some 2, evs ++ [Event.logError "run" "invalid args" err.err])
        else
          (some 1, evs ++ [Event.logError "run" "enqueue failed" err.err])
      | Except.ok result =>
        let watched := watchJob env result.JobID result.TraceID cfg.HatchetJobTimeout fuel
        let evs := evs ++ watched.2
        match watched.1 with
        | none => (none, evs)
        | some (_, some err) =>
          if err.isDeadlineExceeded = true then
            (some 4, evs ++ [Event.logError "run" "timeout" err])
          else
            (some 1, evs ++ [Event.logError "run" "watch failed" err])
        | some (final, none) =>
          let evs := evs ++ [Event.write final opts.jsonOutput, Event.logInfo "run" "ok"]
          if final.State = "failed" ∨ final.State = "cancelled" then (some 1, evs)
          else (some 0, evs)

end jobs

/-! ## The HTTP probes of the supervisor -/

namespace strings

/-- `strings.TrimRight(s, cutset)` -/
def TrimRight (s cutset : String) : String :=
  String.mk (s.data.reverse.dropWhile (fun c => cutset.data.contains c)).reverse

end strings

namespace aloha

/-- The `Client` struct; its `http` field is the `c.http.Do` of `Env`. -/
structure Client where
  serverURL : String
  clientURL : String
deriving DecidableEq, Repr

/-- `New` -/
def New (cfg : config.Config) : Client :=
  { serverURL := strings.TrimRight cfg.AlohaServerURL "/",
    clientURL := strings.TrimRight cfg.AlohaClientURL "/" }

/-- `Client.ServerHealth`. `newRequest method url` is `http.NewRequestWithContext(ctx, method,
url, nil)` of the standard library; `resp.Body` stands for what `io.ReadAll` reads from the
body. The deferred `resp.Body.Close()` is the last effect. -/
def ServerHealth (newRequest : String → String → Except GoError Request) (c : Client)
    (env : Env) : (String × Option GoError) × List Event :=
  let out := doRequestWithRetry env (fun _ => newRequest "GET" (c.serverURL ++ "/"))
  match out.1 with
  | Except.error err => (("", some err), out.2)
  | Except.ok resp =>
    let evs := out.2 ++ [Event.closeBody (attempts out.2 - 1)]
    if resp.StatusCode < 200 ∨ resp.StatusCode > 299 then
      ((resp.Body,
        some (Errorf ("aloha server health returned http " ++ toString resp.StatusCode))), evs)
    else ((resp.Body, none), evs)

/-- `Client.ClientRootStatus` -/
def ClientRootStatus (newRequest : String → String → Except GoError Request) (c : Client)
    (env : Env) : (Int × Option GoError) × List Event :=
  let out := doRequestWithRetry env (fun _ => newRequest "GET" (c.clientURL ++ "/"))
  match out.1 with
  | Except.error err => ((0, some err), out.2)
  | Except.ok resp =>
    ((resp.StatusCode, none), out.2 ++ [Event.closeBody (attempts out.2 - 1)])

/-- A `newRequest` that accepts every URL. -/
def anyRequest : String → String → Except GoError Request :=
  fun method url => Except.ok { Method := method, URL := url, Body := none, Header := [] }

/-- An environment whose server answers 500 to every request. -/
def envInternalError : Env :=
  { ctxErr := fun _ => none,
    httpDo := fun _ => Except.ok { StatusCode := 500, Body := "Internal Server Error" },
    wake := fun _ => Wake.timer }

/-- An environment whose server answers 200 with the banner of the Aloha API server. -/
def envRunning : Env :=
  { ctxErr := fun _ => none,
    httpDo := fun _ => Except.ok { StatusCode := 200, Body := "Aloha API server is running" },
    wake := fun _ => Wake.timer }

end aloha

namespace hatchet

/-- The HTTP side of the health endpoints as `Client.checkHealth` sees it: `httpDo n` is the
outcome of the `c.http.Do(req)` of call number `n`. -/
structure Env where
  httpDo : Nat → Except GoError aloha.Response

/-- `Client.checkHealth`, as call number `n`; `newRequest` is as in `aloha.ServerHealth`. -/
def checkHealth (newRequest : String → String → Except GoError aloha.Request) (env : Env)
    (n : Nat) (url : String) : Option GoError × List aloha.Event :=
  match newRequest "GET" url with
  | Except.error err => (some err, [])
  | Except.ok req =>
    match env.httpDo n with
    | Except.error err => (some err, [aloha.Event.httpDo n req])
    | Except.ok resp =>
      let evs := [aloha.Event.httpDo n req, aloha.Event.closeBody n]
      if resp.StatusCode < 200 ∨ resp.StatusCode > 299 then
        (some (Errorf ("hatchet health check " ++ url ++ " returned http " ++
          toString resp.StatusCode ++ ": " ++ strings.TrimSpace resp.Body)), evs)
      else (none, evs)

/-- `Client.HealthLive`, as call number `n` -/
def HealthLive (newRequest : String → String → Except GoError aloha.Request)
    (cfg : config.Config) (env : Env) (n : Nat) : Option GoError × List aloha.Event :=
  checkHealth newRequest env n (cfg.HatchetHealthURL ++ "/live")

/-- `Client.HealthReady`, as call number `n` -/
def HealthReady (newRequest : String → String → Except GoError aloha.Request)
    (cfg : config.Config) (env : Env) (n : Nat) : Option GoError × List aloha.Event :=
  checkHealth newRequest env n (cfg.HatchetHealthURL ++ "/ready")

/-- An environment whose `/live` answers 200 and whose `/ready` answers 503. -/
def envNotReady : Env :=
  { httpDo := fun n =>
      if n = 0 then Except.ok { StatusCode := 200, Body := "ok" }
      else Except.ok { StatusCode := 503, Body := " not ready " } }

end hatchet

namespace supervisor

/-- `supervisorRunner.checkAlohaServer` -/
def checkAlohaServer (newRequest : String → String → Except GoError aloha.Request)
    (c : aloha.Client) (env : aloha.Env) : Option GoError :=
  match (aloha.ServerHealth newRequest c env).1 with
  | (_, some err) => some err
  | (body, none) =>
    if ¬ strings.Contains body "Aloha API server is running" = true then
      some (Errorf ("unexpected server response: " ++ strings.TrimSpace body))
    else none

/-- `supervisorRunner.checkAlohaClient` -/
def checkAlohaClient (newRequest : String → String → Except GoError aloha.Request)
    (c : aloha.Client) (env : aloha.Env) : Option GoError :=
  (aloha.ClientRootStatus newRequest c env).1.2

/-- `supervisorRunner.checkHatchet` -/
def checkHatchet (newRequest : String → String → Except GoError aloha.Request)
    (cfg : config.Config) (env : hatchet.Env) : Option GoError :=
  match (hatchet.HealthLive newRequest cfg env 0).1 with
  | some err => some err
  | none => (hatchet.HealthReady newRequest cfg env 1).1

/-- The response with which `doRequestWithRetry` ends for the request to `url`, if any. -/
def finalResponse (newRequest : String → String → Except GoError aloha.Request)
    (env : aloha.Env) (url : String) : Except GoError aloha.Response :=
  (aloha.doRequestWithRetry env (fun _ => newRequest "GET" url)).1

/-- A status in 200..299. -/
def is2xx (status : Int) : Prop := 200 ≤ status ∧ status ≤ 299

end supervisor

/-! ## Queues for the examples -/

namespace jobs

/-- Options of a `windows.exec` job. -/
def optsEcho : jobEnqueueOptions :=
  { jobType := "windows.exec", cmd := "echo ok", task := "", timeout := 30 * time.Second,
    maxSteps := 10, selectedScreen := 0, traceID := "trace-123", jsonOutput := false,
    idempotentCheck := "" }

/-- Options of an `aloha.run` job. -/
def optsClick : jobEnqueueOptions :=
  { jobType := "aloha.run", cmd := "", task := "click button", timeout := 30 * time.Second,
    maxSteps := 10, selectedScreen := 1, traceID := "trace-456", jsonOutput := true,
    idempotentCheck := "" }

/-- Options of a `windows.exec` job whose command is blank. -/
def optsBlank : jobEnqueueOptions :=
  { optsEcho with cmd := "  " }

/-- A queue that accepts every job as run `run-1` and reports the statuses `QUEUED`,
`RUNNING`, `RUNNING`, `COMPLETED` to the first four status queries. -/
def envCompletes : Env :=
  { runNoWait := fun _ _ => Except.ok "run-1",
    get := fun n =>
      Except.ok
        { Status := match n with
            | 0 => "QUEUED"
            | 1 => "RUNNING"
            | 2 => "RUNNING"
            | _ => "COMPLETED",
          Input := [] },
    tick := fun _ => Wake.timer }

end jobs

/-! ### Properties of the effects of the loop -/

namespace supervisor

/-- Every pass starts no earlier than `bound`, and no earlier than the `openUntil` of an
opening of the circuit before it. -/
def startsAfter (bound : Nat) : List LoopEvent → Prop
  | [] => True
  | LoopEvent.pass _ start _ _ :: rest => bound ≤ start ∧ startsAfter bound rest
  | LoopEvent.opened openUntil :: rest => startsAfter (max bound openUntil) rest
  | _ :: rest => startsAfter bound rest

/-- The circuit is opened right after a failed pass that is the third of a run of failed
passes, with `openUntil` sixty seconds after the end of that pass, and it is opened only after
a run of three or more; `k` is the length of the run of failed passes so far. -/
def opensAtThird (env : LoopEnv) (k : Nat) : List LoopEvent → Prop
  | [] => True
  | LoopEvent.pass turn start _ result :: rest =>
    if result.err.isNone then opensAtThird env 0 rest
    else
      (k + 1 = 3 → ∃ err tail, rest = LoopEvent.logError "run" "pass failed" err ::
        LoopEvent.opened (start + env.passDuration turn + 60000000000) :: tail) ∧
      opensAtThird env (k + 1) rest
  | LoopEvent.opened _ :: rest => 3 ≤ k ∧ opensAtThird env k rest
  | _ :: rest => opensAtThird env k rest

/-- Every pass starts with `consecutiveFailures >= 0`, and with `consecutiveFailures = 0` when
the pass before it succeeded (`afterSuccess`). -/
def countsFrom (afterSuccess : Bool) : List LoopEvent → Prop
  | [] => True
  | LoopEvent.pass _ _ vars result :: rest =>
    0 ≤ vars.consecutiveFailures ∧ (afterSuccess = true → vars.consecutiveFailures = 0) ∧
    countsFrom result.err.isNone rest
  | _ :: rest => countsFrom afterSuccess rest

/-- The passes among the effects: the turn, the instant of the start and the variables at that
instant. -/
def passStarts : List LoopEvent → List (Nat × Nat × circuitVars)
  | [] => []
  | LoopEvent.pass turn start vars _ :: rest => (turn, start, vars) :: passStarts rest
  | _ :: rest => passStarts rest

/-- The openings of the circuit among the effects: the `openUntil` of each. -/
def openings : List LoopEvent → List Nat
  | [] => []
  | LoopEvent.opened openUntil :: rest => openUntil :: openings rest
  | _ :: rest => openings rest

end supervisor

/-! ## `internal/hatchet/client.go`: job requests -/

/-- `fmt.Errorf(prefix + "%w", err)`: the text of `err` after `prefix`, around `err` itself, so
that `errors.Is` and `errors.As` see what they see of `err`. -/
def Wrapf (pre : String) (err : GoError) : GoError :=
  { err with text := pre ++ err.text }

namespace hatchet

/-- The `any` of `JobRequest.Payload`, by what `json.Marshal` makes of the value. -/
inductive Payload where
  /-- a `WindowsExecInput` -/
  | windowsExec (input : WindowsExecInput)
  /-- an `AlohaRunInput` -/
  | alohaRun (input : AlohaRunInput)
  /-- another value that `json.Marshal` encodes, with its encoding -/
  | encodable (encoding : JSON)
  /-- a value that `json.Marshal` rejects (a channel, a function, a NaN, ...), with the
  error -/
  | unencodable (err : GoError)

/-- The `JobRequest` struct -/
structure JobRequest where
  /-- the field `Type` -/
  Type_ : String
  Payload : Payload
  Timeout : Int
  RetryMax : Int
  RetryBackoff : Int
  Idempotent : Bool

/-- `JobRequest.WithDefaults`: the request that `r` points to after the call, which is also
what the returned pointer points to. -/
def JobRequest.WithDefaults (r : JobRequest) (cfg : config.Config) : JobRequest :=
  let r := if r.Timeout = 0 then { r with Timeout := cfg.HatchetJobTimeout } else r
  let r := if r.RetryMax = 0 then { r with RetryMax := cfg.HatchetRetryMax } else r
  let r := if r.RetryBackoff = 0 then { r with RetryBackoff := cfg.HatchetRetryBackoff } else r
  r

/-- The configuration of `TestJobRequest_WithDefaults`; the fields that the test leaves out
are zero. -/
def testConfig : config.Config :=
  { WindowsSSHHost := "", WindowsSSHPort := 0, WindowsSSHUser := "",
    WindowsSSHIdentityFile := "", AlohaServerURL := "", AlohaClientURL := "",
    AlohaServerStartCmd := "", AlohaClientStartCmd := "", PlaywrightHost := "",
    PlaywrightPort := 0, ArtifactOutDir := "", ArtifactRetentionDays := 0, Timeout := 0,
    HatchetHTTPURL := "", HatchetGRPCAddress := "", HatchetHealthURL := "",
    HatchetToken := "", HatchetTLSStrategy := "", HatchetNamespace := "",
    HatchetWorkerName := "", HatchetWorkerConcurrency := 0,
    HatchetJobTimeout := 15 * time.Minute,
    HatchetRetryMax := 5,
    HatchetRetryBackoff := 10 * time.Second }

/-- A request that sets the retry backoff only. -/
def requestWithBackoff : JobRequest :=
  { Type_ := JobTypeWindowsExec,
    Payload := Payload.windowsExec { Command := "echo test", Timeout := 0 },
    Timeout := 0, RetryMax := 0, RetryBackoff := 3 * time.Second, Idempotent := true }

end hatchet

/-! ## `cmd/win-automation/jobs.go`: `jobs cancel` -/

namespace jobs

/-- The effects of `cmdJobsCancel`, in program order. -/
inductive CancelEvent where
  /-- an effect that the other job commands have as well -/
  | job (e : Event)
  /-- `client.Runs().Cancel(ctx, request)` with `request.ExternalIds` -/
  | cancel (externalIds : List String)
deriving DecidableEq, Repr

/-- The world as `cmdJobsCancel` sees it. -/
structure CancelEnv where
  /-- `uuid.Parse(s)`: the UUID in its canonical text form -/
  parseUUID : String → Except GoError String
  /-- the error of `client.Runs().Cancel(ctx, request)`, if any -/
  cancel : List String → Option GoError
  /-- `client.Runs().Get(ctx, jobID)` after the cancel call -/
  get : String → Except GoError runDetails

/-- `cmdJobsCancel`, from the parsed flags on: `parsed` is what `fs.Parse(args)` gives for
`--id` and `--json`, and `client` the error of `hatchet.NewSDKClient`, if any. -/
def cmdJobsCancel (env : CancelEnv) (parsed : Except GoError (String × Bool))
    (client : Option GoError) : Int × List CancelEvent :=
  match parsed with
  | Except.error _ => (2, [])
  | Except.ok (jobID, jsonOutput) =>
    if strings.TrimSpace jobID = "" then
      (2, [CancelEvent.job (Event.logError "cancel" "missing id" (Errorf "--id is required"))])
    else
      match client with
      | some err => (2, [CancelEvent.job (Event.logError "cancel" "client init failed" err)])
      | none =>
        match env.parseUUID jobID with
        | Except.error err => (2, [CancelEvent.job (Event.logError "cancel" "invalid id" err)])
        | Except.ok parsedID =>
          let evs := [CancelEvent.cancel [parsedID]]
          match env.cancel [parsedID] with
          | some err => (1, evs ++ [CancelEvent.job (Event.logError "cancel" "failed" err)])
          | none =>
            let evs := evs ++ [CancelEvent.job (Event.get jobID)]
            match env.get jobID with
            | Except.error err =>
              (1, evs ++ [CancelEvent.job (Event.logError "cancel" "status failed" err)])
            | Except.ok details =>
              let state := mapRunState details.Status
              let traceID := traceIDFromInput details.Input
              (0, evs ++
                [CancelEvent.job
                  (Event.write { JobID := jobID, State := state, TraceID := traceID } jsonOutput),
                 CancelEvent.job (Event.logInfo "cancel" "ok")])

/-- The run id of the examples. -/
def sampleRunID : String := "7d4f3c1e-2b6a-4c8d-9e0f-1a2b3c4d5e6f"

/-- A queue that accepts the cancel call and whose run is still `RUNNING` at the status
query that follows. -/
def envStillRunning : CancelEnv :=
  { parseUUID := fun s => Except.ok s,
    cancel := fun _ => none,
    get := fun _ => Except.ok { Status := "RUNNING", Input := [("trace_id", JSON.string "t-1")] } }

/-- A queue that accepts the cancel call and whose run is `CANCELLED` at the status query
that follows. -/
def envCancelConfirmed : CancelEnv :=
  { parseUUID := fun s => Except.ok s,
    cancel := fun _ => none,
    get := fun _ =>
      Except.ok { Status := "CANCELLED", Input := [("trace_id", JSON.string "t-1")] } }

/-- A queue whose run is reported `CANCELLED` by the second status query of a watch. -/
def envCancelledWhileWatched : Env :=
  { runNoWait := fun _ _ => Except.ok "run-4",
    get := fun n =>
      Except.ok { Status := if n = 0 then "RUNNING" else "CANCELLED", Input := [] },
    tick := fun _ => Wake.timer }

end jobs

/-! ## The circuit-breaker loop under cancellation: an example -/

namespace supervisor

/-- As `envAlwaysDown`, with a context that is cancelled during the wait for the open
circuit. -/
def envCancelledInCooldown : LoopEnv :=
  { envAlwaysDown with
    cooldownWake := fun _ => Wake.ctxDone context.Canceled }

/-- As `envAlwaysDown`, with a context that is cancelled during the interval sleep that
follows the second pass. -/
def envCancelledInInterval : LoopEnv :=
  { envAlwaysDown with
    intervalWake := fun i => if i = 1 then Wake.ctxDone context.Canceled else Wake.timer }

end supervisor

/-! ## `internal/config/config.go`: the environment -/

namespace config

/-- `Config{}`, the zero value -/
def zeroConfig : Config :=
  { WindowsSSHHost := "",
    WindowsSSHPort := 0,
    WindowsSSHUser := "",
    WindowsSSHIdentityFile := "",
    AlohaServerURL := "",
    AlohaClientURL := "",
    AlohaServerStartCmd := "",
    AlohaClientStartCmd := "",
    PlaywrightHost := "",
    PlaywrightPort := 0,
    ArtifactOutDir := "",
    ArtifactRetentionDays := 0,
    Timeout := 0,
    HatchetHTTPURL := "",
    HatchetGRPCAddress := "",
    HatchetHealthURL := "",
    HatchetToken := "",
    HatchetTLSStrategy := "",
    HatchetNamespace := "",
    HatchetWorkerName := "",
    HatchetWorkerConcurrency := 0,
    HatchetJobTimeout := 0,
    HatchetRetryMax := 0,
    HatchetRetryBackoff := 0 }

/-- The process environment and the two parsers of the standard library as
`applyEnvOverrides` uses them. -/
structure Env where
  /-- `os.Getenv` -/
  getenv : String → String
  /-- `strconv.Atoi` -/
  atoi : String → Except GoError Int
  /-- `time.ParseDuration`, in nanoseconds -/
  parseDuration : String → Except GoError Int

/-- A block of `applyEnvOverrides` for a string field:
`if v := os.Getenv(name); v != "" { cfg.Field = v }`. -/
def overrideString (env : Env) (name : String) (set : Config → String → Config)
    (cfg : Config) : Config :=
  let v := env.getenv name
  if v ≠ "" then set cfg v else cfg

/-- A block of `applyEnvOverrides` for an `int` field: the value goes through `strconv.Atoi`,
whose error is returned inside `fmt.Errorf(name + " must be an int: %w", err)`. -/
def overrideInt (env : Env) (name : String) (set : Config → Int → Config)
    (cfg : Config) : Except GoError Config :=
  let v := env.getenv name
  if v ≠ "" then
    match env.atoi v with
    | Except.error err => Except.error (Wrapf (name ++ " must be an int: ") err)
    | Except.ok n => Except.ok (set cfg n)
  else Except.ok cfg

/-- A block of `applyEnvOverrides` for a `time.Duration` field: the value goes through
`time.ParseDuration`, whose error is returned inside
`fmt.Errorf(name + " must be a duration (e.g. " + sample + "): %w", err)`. -/
def overrideDuration (env : Env) (name sample : String) (set : Config → Int → Config)
    (cfg : Config) : Except GoError Config :=
  let v := env.getenv name
  if v ≠ "" then
    match env.parseDuration v with
    | Except.error err =>
      Except.error (Wrapf (name ++ " must be a duration (e.g. " ++ sample ++ "): ") err)
    | Except.ok d => Except.ok (set cfg d)
  else Except.ok cfg

/-- `applyEnvOverrides`, block by block in the order of the source: the configuration that
`cfg` points to after a call that returns `nil`, or the error. Both callers drop the
configuration when an error is returned. -/
def applyEnvOverrides (env : Env) (cfg : Config) : Except GoError Config := do
  let cfg := overrideString env "WIN_AUTOMATION_WINDOWS_SSH_HOST"
    (fun c v => { c with WindowsSSHHost := v }) cfg
  let cfg ← overrideInt env "WIN_AUTOMATION_WINDOWS_SSH_PORT"
    (fun c n => { c with WindowsSSHPort := n }) cfg
  let cfg := overrideString env "WIN_AUTOMATION_WINDOWS_SSH_USER"
    (fun c v => { c with WindowsSSHUser := v }) cfg
  let cfg := overrideString env "WIN_AUTOMATION_WINDOWS_SSH_IDENTITY_FILE"
    (fun c v => { c with WindowsSSHIdentityFile := v }) cfg
  let cfg := overrideString env "WIN_AUTOMATION_ALOHA_SERVER_URL"
    (fun c v => { c with AlohaServerURL := v }) cfg
  let cfg := overrideString env "WIN_AUTOMATION_ALOHA_CLIENT_URL"
    (fun c v => { c with AlohaClientURL := v }) cfg
  let cfg := overrideString env "WIN_AUTOMATION_ALOHA_SERVER_START_CMD"
    (fun c v => { c with AlohaServerStartCmd := v }) cfg
  let cfg := overrideString env "WIN_AUTOMATION_ALOHA_CLIENT_START_CMD"
    (fun c v => { c with AlohaClientStartCmd := v }) cfg
  let cfg ← overrideDuration env "WIN_AUTOMATION_TIMEOUT" "10s"
    (fun c d => { c with Timeout := d }) cfg
  let cfg := overrideString env "WIN_AUTOMATION_HATCHET_HTTP_URL"
    (fun c v => { c with HatchetHTTPURL := v }) cfg
  let cfg := overrideString env "WIN_AUTOMATION_HATCHET_GRPC_ADDRESS"
    (fun c v => { c with HatchetGRPCAddress := v }) cfg
  let cfg := overrideString env "WIN_AUTOMATION_HATCHET_HEALTH_URL"
    (fun c v => { c with HatchetHealthURL := v }) cfg
  let cfg := overrideString env "WIN_AUTOMATION_HATCHET_TOKEN"
    (fun c v => { c with HatchetToken := v }) cfg
  let cfg := overrideString env "WIN_AUTOMATION_HATCHET_TLS_STRATEGY"
    (fun c v => { c with HatchetTLSStrategy := v }) cfg
  let cfg := overrideString env "WIN_AUTOMATION_HATCHET_NAMESPACE"
    (fun c v => { c with HatchetNamespace := v }) cfg
  let cfg := overrideString env "WIN_AUTOMATION_HATCHET_WORKER_NAME"
    (fun c v => { c with HatchetWorkerName := v }) cfg
  let cfg ← overrideInt env "WIN_AUTOMATION_HATCHET_WORKER_CONCURRENCY"
    (fun c n => { c with HatchetWorkerConcurrency := n }) cfg
  let cfg ← overrideDuration env "WIN_AUTOMATION_HATCHET_JOB_TIMEOUT" "10m"
    (fun c d => { c with HatchetJobTimeout := d }) cfg
  let cfg ← overrideInt env "WIN_AUTOMATION_HATCHET_RETRY_MAX"
    (fun c n => { c with HatchetRetryMax := n }) cfg
  let cfg ← overrideDuration env "WIN_AUTOMATION_HATCHET_RETRY_BACKOFF" "5s"
    (fun c d => { c with HatchetRetryBackoff := d }) cfg
  let cfg := overrideString env "WIN_AUTOMATION_PLAYWRIGHT_HOST"
    (fun c v => { c with PlaywrightHost := v }) cfg
  let cfg ← overrideInt env "WIN_AUTOMATION_PLAYWRIGHT_PORT"
    (fun c n => { c with PlaywrightPort := n }) cfg
  let cfg := overrideString env "WIN_AUTOMATION_ARTIFACT_OUT"
    (fun c v => { c with ArtifactOutDir := v }) cfg
  let cfg ← overrideInt env "WIN_AUTOMATION_ARTIFACT_RETENTION_DAYS"
    (fun c n => { c with ArtifactRetentionDays := n }) cfg
  return cfg

/-- The error of a result of `applyEnvOverrides`, if it is one. -/
def errorOf (x : Except GoError Config) : Option GoError :=
  match x with
  | Except.error err => some err
  | Except.ok _ => none

/-- `LoadFromEnv` -/
def LoadFromEnv (env : Env) : Config × Option GoError :=
  match applyEnvOverrides env defaultConfig with
  | Except.error err => (zeroConfig, some err)
  | Except.ok cfg => (cfg, none)

/-! ### The variables, in the words of the specification -/

/-- How the text of a variable becomes the value of its field. -/
inductive Kind where
  /-- the text itself -/
  | text
  /-- an integer, through `strconv.Atoi` -/
  | int
  /-- a duration, through `time.ParseDuration`; `sample` is the example in the error -/
  | duration (sample : String)
deriving DecidableEq, Repr

/-- The variables that `LoadFromEnv` reads, in the order in which it reads them. -/
def envVariables : List (String × Kind) :=
  [("WIN_AUTOMATION_WINDOWS_SSH_HOST", Kind.text),
   ("WIN_AUTOMATION_WINDOWS_SSH_PORT", Kind.int),
   ("WIN_AUTOMATION_WINDOWS_SSH_USER", Kind.text),
   ("WIN_AUTOMATION_WINDOWS_SSH_IDENTITY_FILE", Kind.text),
   ("WIN_AUTOMATION_ALOHA_SERVER_URL", Kind.text),
   ("WIN_AUTOMATION_ALOHA_CLIENT_URL", Kind.text),
   ("WIN_AUTOMATION_ALOHA_SERVER_START_CMD", Kind.text),
   ("WIN_AUTOMATION_ALOHA_CLIENT_START_CMD", Kind.text),
   ("WIN_AUTOMATION_TIMEOUT", Kind.duration "10s"),
   ("WIN_AUTOMATION_HATCHET_HTTP_URL", Kind.text),
   ("WIN_AUTOMATION_HATCHET_GRPC_ADDRESS", Kind.text),
   ("WIN_AUTOMATION_HATCHET_HEALTH_URL", Kind.text),
   ("WIN_AUTOMATION_HATCHET_TOKEN", Kind.text),
   ("WIN_AUTOMATION_HATCHET_TLS_STRATEGY", Kind.text),
   ("WIN_AUTOMATION_HATCHET_NAMESPACE", Kind.text),
   ("WIN_AUTOMATION_HATCHET_WORKER_NAME", Kind.text),
   ("WIN_AUTOMATION_HATCHET_WORKER_CONCURRENCY", Kind.int),
   ("WIN_AUTOMATION_HATCHET_JOB_TIMEOUT", Kind.duration "10m"),
   ("WIN_AUTOMATION_HATCHET_RETRY_MAX", Kind.int),
   ("WIN_AUTOMATION_HATCHET_RETRY_BACKOFF", Kind.duration "5s"),
   ("WIN_AUTOMATION_PLAYWRIGHT_HOST", Kind.text),
   ("WIN_AUTOMATION_PLAYWRIGHT_PORT", Kind.int),
   ("WIN_AUTOMATION_ARTIFACT_OUT", Kind.text),
   ("WIN_AUTOMATION_ARTIFACT_RETENTION_DAYS", Kind.int)]

/-- The error that a variable causes, if any: it is set, and its text does not parse. -/
def malformed (env : Env) (var : String × Kind) : Option GoError :=
  if env.getenv var.1 = "" then none
  else
    match var.2 with
    | Kind.text => none
    | Kind.int =>
      match env.atoi (env.getenv var.1) with
      | Except.error err => some (Wrapf (var.1 ++ " must be an int: ") err)
      | Except.ok _ => none
    | Kind.duration sample =>
      match env.parseDuration (env.getenv var.1) with
      | Except.error err =>
        some (Wrapf (var.1 ++ " must be a duration (e.g. " ++ sample ++ "): ") err)
      | Except.ok _ => none

/-- The error of the first variable, in the order of reading, that is set to a text that
does not parse. -/
def firstMalformed (env : Env) : Option GoError :=
  envVariables.findSome? (malformed env)

/-- The configuration `cfg` with the field that the variable `name` names set from the
text `v` of the variable, or from the number `n` that the text stands for. -/
def withVariable (name v : String) (n : Int) (cfg : Config) : Config :=
  if name = "WIN_AUTOMATION_WINDOWS_SSH_HOST" then { cfg with WindowsSSHHost := v }
  else if name = "WIN_AUTOMATION_WINDOWS_SSH_PORT" then { cfg with WindowsSSHPort := n }
  else if name = "WIN_AUTOMATION_WINDOWS_SSH_USER" then { cfg with WindowsSSHUser := v }
  else if name = "WIN_AUTOMATION_WINDOWS_SSH_IDENTITY_FILE" then
    { cfg with WindowsSSHIdentityFile := v }
  else if name = "WIN_AUTOMATION_ALOHA_SERVER_URL" then { cfg with AlohaServerURL := v }
  else if name = "WIN_AUTOMATION_ALOHA_CLIENT_URL" then { cfg with AlohaClientURL := v }
  else if name = "WIN_AUTOMATION_ALOHA_SERVER_START_CMD" then
    { cfg with AlohaServerStartCmd := v }
  else if name = "WIN_AUTOMATION_ALOHA_CLIENT_START_CMD" then
    { cfg with AlohaClientStartCmd := v }
  else if name = "WIN_AUTOMATION_TIMEOUT" then { cfg with Timeout := n }
  else if name = "WIN_AUTOMATION_HATCHET_HTTP_URL" then { cfg with HatchetHTTPURL := v }
  else if name = "WIN_AUTOMATION_HATCHET_GRPC_ADDRESS" then { cfg with HatchetGRPCAddress := v }
  else if name = "WIN_AUTOMATION_HATCHET_HEALTH_URL" then { cfg with HatchetHealthURL := v }
  else if name = "WIN_AUTOMATION_HATCHET_TOKEN" then { cfg with HatchetToken := v }
  else if name = "WIN_AUTOMATION_HATCHET_TLS_STRATEGY" then { cfg with HatchetTLSStrategy := v }
  else if name = "WIN_AUTOMATION_HATCHET_NAMESPACE" then { cfg with HatchetNamespace := v }
  else if name = "WIN_AUTOMATION_HATCHET_WORKER_NAME" then { cfg with HatchetWorkerName := v }
  else if name = "WIN_AUTOMATION_HATCHET_WORKER_CONCURRENCY" then
    { cfg with HatchetWorkerConcurrency := n }
  else if name = "WIN_AUTOMATION_HATCHET_JOB_TIMEOUT" then { cfg with HatchetJobTimeout := n }
  else if name = "WIN_AUTOMATION_HATCHET_RETRY_MAX" then { cfg with HatchetRetryMax := n }
  else if name = "WIN_AUTOMATION_HATCHET_RETRY_BACKOFF" then
    { cfg with HatchetRetryBackoff := n }
  else if name = "WIN_AUTOMATION_PLAYWRIGHT_HOST" then { cfg with PlaywrightHost := v }
  else if name = "WIN_AUTOMATION_PLAYWRIGHT_PORT" then { cfg with PlaywrightPort := n }
  else if name = "WIN_AUTOMATION_ARTIFACT_OUT" then { cfg with ArtifactOutDir := v }
  else if name = "WIN_AUTOMATION_ARTIFACT_RETENTION_DAYS" then
    { cfg with ArtifactRetentionDays := n }
  else cfg

/-- The number that the text `v` of a variable of kind `kind` stands for, if it parses (and
zero for a variable whose field is a string). -/
def parsed (env : Env) (kind : Kind) (v : String) : Except GoError Int :=
  match kind with
  | Kind.text => Except.ok 0
  | Kind.int => env.atoi v
  | Kind.duration _ => env.parseDuration v

/-! ### Environments for the examples -/

/-- The error of `strconv.Atoi` for a text that is no number. -/
def atoiSyntaxError (quoted : String) : GoError :=
  Errorf ("strconv.Atoi: parsing " ++ quoted ++ ": invalid syntax")

/-- The error of `time.ParseDuration` for a text that is no duration. -/
def invalidDurationError (quoted : String) : GoError :=
  Errorf ("time: invalid duration " ++ quoted)

/-- The two parsers on the texts of the examples: what `strconv.Atoi` and
`time.ParseDuration` return for them. -/
def sampleEnv (getenv : String → String) : Env :=
  { getenv := getenv,
    atoi := fun s =>
      if s = "2222" then Except.ok 2222
      else if s = "7" then Except.ok 7
      else atoiSyntaxError ("\"" ++ s ++ "\"") |> Except.error,
    parseDuration := fun s =>
      if s = "30s" then Except.ok (30 * time.Second)
      else if s = "2m" then Except.ok (2 * time.Minute)
      else invalidDurationError ("\"" ++ s ++ "\"") |> Except.error }

/-- No variable is set. -/
def envEmpty : Env := sampleEnv (fun _ => "")

/-- The timeout is set to a text that is no duration, and the retry maximum to a text that
is no number. -/
def envTwoMalformed : Env :=
  sampleEnv (fun name =>
    if name = "WIN_AUTOMATION_TIMEOUT" then "soon"
    else if name = "WIN_AUTOMATION_HATCHET_RETRY_MAX" then "many"
    else "")

/-- The retry maximum alone is set, to a text that is no number. -/
def envBadRetryMax : Env :=
  sampleEnv (fun name => if name = "WIN_AUTOMATION_HATCHET_RETRY_MAX" then "many" else "")

/-- The job timeout alone is set. -/
def envJobTimeout : Env :=
  sampleEnv (fun name => if name = "WIN_AUTOMATION_HATCHET_JOB_TIMEOUT" then "2m" else "")

end config

/-! ## More of the packages `strings` and `strconv` -/

namespace strings

/-- One step of `strings.EqualFold`: two runes are equal under simple case folding. The
ASCII range is the code of the standard library; `foldEq lo hi` stands for its walk through
the orbit of `unicode.SimpleFold` from the smaller rune `lo`, for a pair whose larger rune
`hi` is outside ASCII. -/
def equalFoldRune (foldEq : Char → Char → Bool) (sr tr : Char) : Bool :=
  if tr = sr then true
  else
    let lo := if tr.toNat < sr.toNat then tr else sr
    let hi := if tr.toNat < sr.toNat then sr else tr
    if hi.toNat < 128 then
      decide (65 ≤ lo.toNat ∧ lo.toNat ≤ 90 ∧ hi.toNat = lo.toNat + 32)
    else foldEq lo hi

/-- `strings.EqualFold` on rune sequences. -/
def equalFoldRunes (foldEq : Char → Char → Bool) : List Char → List Char → Bool
  | [], [] => true
  | sr :: s, tr :: t => equalFoldRune foldEq sr tr && equalFoldRunes foldEq s t
  | _, _ => false

/-- `strings.EqualFold(s, t)` -/
def EqualFold (foldEq : Char → Char → Bool) (s t : String) : Bool :=
  equalFoldRunes foldEq s.data t.data

/-- `strings.Join(elems, sep)` -/
def Join (elems : List String) (sep : String) : String :=
  sep.intercalate elems

/-- `strings.HasSuffix(s, suffix)` -/
def HasSuffix (s suffix : String) : Bool :=
  suffix.data.isSuffixOf s.data

end strings

/-! ## `internal/win/checks.go` -/

namespace win

/-- `PowerShellCommand`; `quote` is `strconv.Quote`. -/
def PowerShellCommand (quote : String → String) (script : String) : String :=
  "powershell -NoProfile -Command " ++ quote script

/-- `DesktopUnlockedCheck` -/
def DesktopUnlockedCheck (quote : String → String) : String :=
  let script := "if (Get-Process -Name LogonUI -ErrorAction SilentlyContinue) " ++
    "\x7b $false \x7d else \x7b $true \x7d"
  PowerShellCommand quote script

end win

/-! ## `internal/aloha/client.go`: `RunTask` -/

namespace aloha

/-- The `RunTaskRequest` struct -/
structure RunTaskRequest where
  Task : String
  SelectedScreen : Int
  TraceID : String
  MaxSteps : Int
  ServerURL : String
deriving DecidableEq, Repr

/-- The `RunTaskResponse` struct -/
structure RunTaskResponse where
  Raw : String
deriving DecidableEq, Repr

/-- `json.Marshal` of a `RunTaskRequest`, by its field tags. -/
def RunTaskRequest.marshal (r : RunTaskRequest) : JSON :=
  JSON.object
    [("task", JSON.string r.Task),
     ("selected_screen", JSON.number r.SelectedScreen),
     ("trace_id", JSON.string r.TraceID),
     ("max_steps", JSON.number r.MaxSteps),
     ("server_url", JSON.string r.ServerURL)]

/-- `Client.RunTask`. `newRequest` is as in `ServerHealth`, and `encode` gives the bytes of a
JSON value; the request gets the encoded `req` as its body and its content type. The branch
for an error of `json.Marshal(req)` is left out: a struct of strings and integers always
encodes. -/
def RunTask (newRequest : String → String → Except GoError Request) (encode : JSON → String)
    (c : Client) (env : Env) (req : RunTaskRequest) :
    (RunTaskResponse × Option GoError) × List Event :=
  if strings.TrimSpace req.Task = "" then
    (({ Raw := "" }, some (Errorf "task is required")), [])
  else
    let req :=
      if strings.TrimSpace req.ServerURL = "" then
        { req with ServerURL := c.serverURL ++ "/generate_action" }
      else req
    let payload := encode req.marshal
    let out := doRequestWithRetry env (fun _ =>
      match newRequest "POST" (c.clientURL ++ "/run_task") with
      | Except.error err => Except.error err
      | Except.ok httpReq =>
        Except.ok { httpReq with
          Body := some payload,
          Header := [("Content-Type", "application/json")] })
    match out.1 with
    | Except.error err => (({ Raw := "" }, some err), out.2)
    | Except.ok resp =>
      let evs := out.2 ++ [Event.closeBody (attempts out.2 - 1)]
      if resp.StatusCode < 200 ∨ resp.StatusCode > 299 then
        (({ Raw := resp.Body },
          some (Errorf ("aloha client returned http " ++ toString resp.StatusCode))), evs)
      else (({ Raw := resp.Body }, none), evs)

end aloha

/-! ## `cmd/win-automation/main.go`: `windows exec` and `aloha run` -/

namespace main

/-- The effects of the two commands, in program order. -/
inductive Event where
  /-- `sshx.Run(ctx, cfg, remoteCommand)`, with the effects of the call -/
  | sshRun (remoteCommand : String) (effects : List sshx.Event)
  /-- `a.RunTask(ctx, req)`, with the effects of the call -/
  | runTask (req : aloha.RunTaskRequest) (effects : List aloha.Event)
  /-- `logx.Info(component, action, msg, ...)` -/
  | logInfo (component action msg : String)
  /-- `logx.Error(component, action, msg, err, ...)` -/
  | logError (component action msg : String) (err : GoError)
  /-- a line on `os.Stderr` -/
  | stderr (line : String)
  /-- text on `os.Stdout` -/
  | stdout (text : String)
deriving DecidableEq, Repr

/-- The world as the two commands see it. -/
structure Env where
  /-- the world as the `sshx.Run` call number `n` of the command sees it -/
  ssh : Nat → sshx.Env
  /-- the world as `a.RunTask` sees it -/
  alohaEnv : aloha.Env
  /-- `strconv.Quote` -/
  quote : String → String
  /-- the general case of `strings.EqualFold`, see `strings.equalFoldRune` -/
  foldEq : Char → Char → Bool
  /-- `http.NewRequestWithContext` without a body -/
  newRequest : String → String → Except GoError aloha.Request
  /-- the bytes that `json.Marshal` writes for a JSON value -/
  encode : JSON → String

/-- `runDesktopUnlockedCheck`, as `sshx.Run` call number `n` of the command: whether the
action is blocked. The fields `stdout` and `stderr` of the log lines are not kept in the
effects. -/
def runDesktopUnlockedCheck (env : Env) (n : Nat) (cfg : config.Config) (logEnabled : Bool)
    (component action : String) : Bool × List Event :=
  let command := win.DesktopUnlockedCheck env.quote
  let out := sshx.Run (env.ssh n) cfg command
  let res := out.1.1
  match out.1.2 with
  | some err =>
    (true, Event.sshRun command out.2 ::
      (if logEnabled = true then [Event.logError component action "desktop check failed" err]
       else []))
  | none =>
    if ¬ strings.EqualFold env.foldEq (strings.TrimSpace res.Stdout) "True" = true then
      (true, Event.sshRun command out.2 ::
        (if logEnabled = true then [Event.logInfo component action "blocked"] else []))
    else (false, [Event.sshRun command out.2])

/-- `runIdempotentCheck`, as `sshx.Run` call number `n` of the command: whether the action is
skipped, and the exit code to skip it with. -/
def runIdempotentCheck (env : Env) (n : Nat) (cfg : config.Config) (logEnabled : Bool)
    (component action script : String) : (Bool × Int) × List Event :=
  let command := win.PowerShellCommand env.quote script
  let out := sshx.Run (env.ssh n) cfg command
  let res := out.1.1
  match out.1.2 with
  | none =>
    ((true, 0), Event.sshRun command out.2 ::
      (if logEnabled = true then [Event.logInfo component action "skipped"] else []))
  | some err =>
    if res.ExitCode > 0 then ((false, 0), [Event.sshRun command out.2])
    else
      ((true, 1), Event.sshRun command out.2 ::
        (if logEnabled = true then [Event.logError component action "idempotent check failed" err]
         else []))

/-- What `fs.Parse(args)` leaves in the flags of `windows exec`, and `fs.Args()`. The error
of `fs.Parse` is dropped by the command. -/
structure windowsExecFlags where
  raw : Bool
  idempotent : Bool
  idempotentCheck : String
  rest : List String
deriving DecidableEq, Repr

/-- The two guards of a command that runs with `--idempotent`, call numbers 0 and 1: the exit
code if the action is not to be run, and the effects. -/
def idempotentGuards (env : Env) (cfg : config.Config) (logEnabled : Bool)
    (component action idempotentCheck : String) : Option Int × List Event :=
  let desktop := runDesktopUnlockedCheck env 0 cfg logEnabled component action
  if desktop.1 = true then (some 1, desktop.2)
  else
    let check := runIdempotentCheck env 1 cfg logEnabled component action idempotentCheck
    if check.1.1 = true then (some check.1.2, desktop.2 ++ check.2)
    else (none, desktop.2 ++ check.2)

/-- `cmdWindowsExec`, from the parsed flags on -/
def cmdWindowsExec (env : Env) (cfg : config.Config) (f : windowsExecFlags) :
    Int × List Event :=
  let logEnabled := !f.raw
  if f.idempotent = true ∧ strings.TrimSpace f.idempotentCheck = "" then
    (2, [Event.stderr
      "windows exec: --idempotent-check is required when --idempotent is set"])
  else if f.rest.length = 0 ∨ f.rest.head? ≠ some "--" then
    (2, [Event.stderr "usage: win-automation windows exec -- <command...>"])
  else if f.rest.length = 1 then
    (2, [Event.stderr "windows exec: command is required"])
  else
    let guards : Option Int × List Event :=
      if f.idempotent = true then
        idempotentGuards env cfg logEnabled "windows" "exec" f.idempotentCheck
      else (none, [])
    match guards.1 with
    | some code => (code, guards.2)
    | none =>
      let calls := if f.idempotent = true then 2 else 0
      let remote := strings.Join (f.rest.drop 1) " "
      let evs := guards.2 ++
        (if logEnabled = true then [Event.logInfo "windows" "exec" "running"] else [])
      let out := sshx.Run (env.ssh calls) cfg remote
      let res := out.1.1
      let evs := evs ++ [Event.sshRun remote out.2]
      match out.1.2 with
      | some err =>
        (1, evs ++
          (if logEnabled = true then [Event.logError "windows" "exec" "failed" err] else []))
      | none =>
        let printed :=
          if strings.TrimSpace res.Stdout ≠ "" then
            Event.stdout res.Stdout ::
              (if ¬ strings.HasSuffix res.Stdout "\n" = true then [Event.stdout "\n"] else [])
          else []
        (0, evs ++ printed ++
          (if logEnabled = true then [Event.logInfo "windows" "exec" "ok"] else []))

/-- What `fs.Parse(args)` leaves in the flags of `aloha run`. The error of `fs.Parse` is
dropped by the command. -/
structure alohaRunFlags where
  task : String
  maxSteps : Int
  selectedScreen : Int
  traceID : String
  idempotent : Bool
  idempotentCheck : String
deriving DecidableEq, Repr

/-- `cmdAlohaRun`, from the parsed flags on -/
def cmdAlohaRun (env : Env) (cfg : config.Config) (a : aloha.Client) (f : alohaRunFlags) :
    Int × List Event :=
  if f.idempotent = true ∧ strings.TrimSpace f.idempotentCheck = "" then
    (2, [Event.logError "aloha" "run" "missing idempotent check"
      (Errorf "--idempotent-check is required when --idempotent is set")])
  else if strings.TrimSpace f.task = "" then
    (2, [Event.logError "aloha" "run" "missing task" (Errorf "--task is required")])
  else
    let guards : Option Int × List Event :=
      if f.idempotent = true then
        idempotentGuards env cfg true "aloha" "run" f.idempotentCheck
      else (none, [])
    match guards.1 with
    | some code => (code, guards.2)
    | none =>
      let req : aloha.RunTaskRequest :=
        { Task := f.task,
          SelectedScreen := f.selectedScreen,
          TraceID := f.traceID,
          MaxSteps := f.maxSteps,
          ServerURL := "" }
      let out := aloha.RunTask env.newRequest env.encode a env.alohaEnv req
      let evs := guards.2 ++ [Event.logInfo "aloha" "run" "requesting", Event.runTask req out.2]
      match out.1.2 with
      | some err => (1, evs ++ [Event.logError "aloha" "run" "failed" err])
      | none => (0, evs ++ [Event.stdout (out.1.1.Raw ++ "\n"), Event.logInfo "aloha" "run" "ok"])

/-- The remote commands that were run, in order. -/
def commands : List Event → List String
  | [] => []
  | Event.sshRun remoteCommand _ :: rest => remoteCommand :: commands rest
  | _ :: rest => commands rest

/-- The task requests that were made, in order. -/
def tasks : List Event → List aloha.RunTaskRequest
  | [] => []
  | Event.runTask req _ :: rest => req :: tasks rest
  | _ :: rest => tasks rest

/-- The desktop probe of a command that runs with `--idempotent`, which is its `sshx.Run` call
number 0, returns without error and its trimmed output is "True" up to case. -/
def desktopUnlocked (env : Env) (cfg : config.Config) : Prop :=
  (sshx.Run (env.ssh 0) cfg (win.DesktopUnlockedCheck env.quote)).1.2 = none ∧
  strings.EqualFold env.foldEq
    (strings.TrimSpace (sshx.Run (env.ssh 0) cfg (win.DesktopUnlockedCheck env.quote)).1.1.Stdout)
    "True" = true

/-- The arguments of `windows exec` pass the three usage checks of the command. -/
def windowsExecFlags.usageOK (f : windowsExecFlags) : Prop :=
  ¬ (f.idempotent = true ∧ strings.TrimSpace f.idempotentCheck = "") ∧
  ¬ (f.rest.length = 0 ∨ f.rest.head? ≠ some "--") ∧
  ¬ f.rest.length = 1

/-- The arguments of `aloha run` pass the two usage checks of the command. -/
def alohaRunFlags.usageOK (f : alohaRunFlags) : Prop :=
  ¬ (f.idempotent = true ∧ strings.TrimSpace f.idempotentCheck = "") ∧
  ¬ strings.TrimSpace f.task = ""

/-! ### Environments for the examples -/

/-- A remote host on which the command of every attempt exits with status zero after writing
`stdout`. -/
def sshAnswers (stdout : String) : sshx.Env :=
  { lookPath := Except.ok "/usr/bin/ssh",
    cmdRun := fun _ => { stdout := stdout, stderr := "", runErr := none },
    wake := fun _ => Wake.timer,
    ctxErr := fun _ => none,
    lowerTable := fun c => c }

/-- A remote host on which the command of every attempt exits with status `code`. -/
def sshExits (code : Int) : sshx.Env :=
  { lookPath := Except.ok "/usr/bin/ssh",
    cmdRun := fun _ => { stdout := "", stderr := "", runErr := some (sshx.exitError code) },
    wake := fun _ => Wake.timer,
    ctxErr := fun _ => none,
    lowerTable := fun c => c }

/-- The rest of the world of the examples: the quoting of a text without quotes or
backslashes, no case folding outside ASCII, and a client that answers 200. -/
def sampleEnv (ssh : Nat → sshx.Env) : Env :=
  { ssh := ssh,
    alohaEnv := aloha.envRunning,
    quote := fun s => "\"" ++ s ++ "\"",
    foldEq := fun _ _ => false,
    newRequest := aloha.anyRequest,
    encode := fun _ => "" }

/-- The desktop is unlocked, the check script exits with status 1 (the work is not yet
done), and the action succeeds. -/
def envProceeds : Env :=
  sampleEnv (fun n =>
    match n with
    | 0 => sshAnswers "True\r\n"
    | 1 => sshExits 1
    | _ => sshAnswers "done\n")

/-- The desktop is locked: the probe answers `False`. -/
def envLocked : Env :=
  sampleEnv (fun n =>
    match n with
    | 0 => sshAnswers "False\r\n"
    | 1 => sshExits 1
    | _ => sshAnswers "done\n")

/-- The desktop is unlocked and the check script exits with status 0 (the work is done). -/
def envAlreadyDone : Env :=
  sampleEnv (fun n =>
    match n with
    | 0 => sshAnswers "true\n"
    | 1 => sshAnswers ""
    | _ => sshAnswers "done\n")

/-- The desktop is unlocked and the check script cannot be run: the connection is refused. -/
def envCheckUnreachable : Env :=
  sampleEnv (fun n =>
    match n with
    | 0 => sshAnswers "True\r\n"
    | 1 => sshx.envRefused
    | _ => sshAnswers "done\n")

/-- Flags of `windows exec --idempotent --idempotent-check "Test-Path C:/done" -- -- mkdir
C:/done`: `fs.Parse` stops at the first `--` and drops it, so `fs.Args()` starts with the
second one. -/
def flagsMkdir : windowsExecFlags :=
  { raw := false, idempotent := true, idempotentCheck := "Test-Path C:/done",
    rest := ["--", "mkdir", "C:/done"] }

/-- Flags of `windows exec --idempotent -- -- mkdir C:/done`, without a check script. -/
def flagsNoCheck : windowsExecFlags :=
  { raw := false, idempotent := true, idempotentCheck := "", rest := ["--", "mkdir", "C:/done"] }

/-- Flags of `aloha run --idempotent --idempotent-check ... --task "open notepad"`. -/
def flagsNotepad : alohaRunFlags :=
  { task := "open notepad", maxSteps := 10, selectedScreen := 0, traceID := "win-automation",
    idempotent := true, idempotentCheck := "Get-Process notepad" }

end main

/-! ## `internal/hatchet/worker.go` -/

namespace hatchet

/-- `JobStatusCompleted` -/
def JobStatusCompleted : String := "completed"

/-- `JobStatusFailed` -/
def JobStatusFailed : String := "failed"

/-- The `WindowsExecOutput` struct -/
structure WindowsExecOutput where
  Stdout : String
  Stderr : String
  ExitCode : Int
deriving DecidableEq, Repr

/-- The `AlohaRunOutput` struct -/
structure AlohaRunOutput where
  Raw : String
deriving DecidableEq, Repr

/-- The values that the two handlers return as their `any`; `nil` is `none` of the option. -/
inductive Output where
  | windowsExec (output : WindowsExecOutput)
  | alohaRun (output : AlohaRunOutput)
deriving DecidableEq, Repr

/-- The `JobResult` struct; `HandleJob` leaves `ID`, `StartedAt` and `EndedAt` at their zero
values, and the two instants are left out. -/
structure JobResult where
  ID : String
  Status : String
  Output : Option Output
  Error : String
deriving DecidableEq, Repr

/-- `json.Marshal(req.Payload)` -/
def Payload.marshal (p : Payload) : Except GoError JSON :=
  match p with
  | Payload.windowsExec input => Except.ok (JSON.object input.members)
  | Payload.alohaRun input => Except.ok (JSON.object input.members)
  | Payload.encodable encoding => Except.ok encoding
  | Payload.unencodable err => Except.error err

/-- The effects of `HandleJob`, in program order. -/
inductive WorkerEvent where
  /-- the call `handler(ctx, payload)` of the handler registered for `jobType` -/
  | handler (jobType : String)
  /-- `sshx.Run(ctx, w.cfg, command)`, with the effects of the call -/
  | sshRun (command : String) (effects : List sshx.Event)
  /-- `client.RunTask(ctx, req)`, with the effects of the call -/
  | runTask (req : aloha.RunTaskRequest) (effects : List aloha.Event)
deriving DecidableEq, Repr

/-- The world as a `Worker` sees it. -/
structure WorkerEnv where
  /-- `json.Unmarshal(payload, &input)` for a `WindowsExecInput` -/
  unmarshalWindowsExec : JSON → Except GoError WindowsExecInput
  /-- `json.Unmarshal(payload, &input)` for an `AlohaRunInput` -/
  unmarshalAlohaRun : JSON → Except GoError AlohaRunInput
  /-- the world as `sshx.Run` sees it -/
  ssh : sshx.Env
  /-- the world as `client.RunTask` sees it -/
  alohaEnv : aloha.Env
  /-- `http.NewRequestWithContext` without a body -/
  newRequest : String → String → Except GoError aloha.Request
  /-- the bytes that `json.Marshal` writes for a JSON value -/
  encode : JSON → String

/-- The type `TaskHandler`: the output, the error and the effects of a call, by payload. -/
abbrev TaskHandler : Type := JSON → (Option Output × Option GoError) × List WorkerEvent

/-- The `Worker` struct -/
structure Worker where
  cfg : config.Config
  /-- the map `handlers`, as the list of its entries -/
  handlers : List (String × TaskHandler)

/-- `Worker.handleWindowsExec` -/
def handleWindowsExec (env : WorkerEnv) (cfg : config.Config) : TaskHandler :=
  fun payload =>
    match env.unmarshalWindowsExec payload with
    | Except.error err => ((none, some (Wrapf "invalid windows.exec payload: " err)), [])
    | Except.ok input =>
      if input.Command = "" then ((none, some (Errorf "command is required")), [])
      else
        let out := sshx.Run env.ssh cfg input.Command
        let result := out.1.1
        let output : WindowsExecOutput :=
          { Stdout := result.Stdout, Stderr := result.Stderr, ExitCode := result.ExitCode }
        ((some (Output.windowsExec output), out.1.2), [WorkerEvent.sshRun input.Command out.2])

/-- `Worker.handleAlohaRun` -/
def handleAlohaRun (env : WorkerEnv) (cfg : config.Config) : TaskHandler :=
  fun payload =>
    match env.unmarshalAlohaRun payload with
    | Except.error err => ((none, some (Wrapf "invalid aloha.run payload: " err)), [])
    | Except.ok input =>
      if input.Task = "" then ((none, some (Errorf "task is required")), [])
      else
        let client := aloha.New cfg
        let req : aloha.RunTaskRequest :=
          { Task := input.Task,
            SelectedScreen := input.SelectedScreen,
            TraceID := input.TraceID,
            MaxSteps := input.MaxSteps,
            ServerURL := "" }
        let req := if req.MaxSteps = 0 then { req with MaxSteps := 10 } else req
        let req := if req.TraceID = "" then { req with TraceID := "win-automation" } else req
        let out := aloha.RunTask env.newRequest env.encode client env.alohaEnv req
        ((some (Output.alohaRun { Raw := out.1.1.Raw }), out.1.2),
          [WorkerEvent.runTask req out.2])

/-- `NewWorker`, with the two entries that `registerDefaultHandlers` puts into the map -/
def NewWorker (env : WorkerEnv) (cfg : config.Config) : Worker :=
  { cfg := cfg,
    handlers :=
      [(JobTypeWindowsExec, handleWindowsExec env cfg),
       (JobTypeAlohaRun, handleAlohaRun env cfg)] }

/-- `Worker.HandleJob`: the `JobResult` that the returned pointer points to, the error, and
the effects. -/
def Worker.HandleJob (w : Worker) (req : JobRequest) :
    (JobResult × Option GoError) × List WorkerEvent :=
  match w.handlers.lookup req.Type_ with
  | none =>
    (({ ID := "", Status := JobStatusFailed, Output := none,
        Error := "unknown job type: " ++ req.Type_ },
      some (Errorf ("unknown job type: " ++ req.Type_))), [])
  | some handler =>
    match req.Payload.marshal with
    | Except.error err =>
      (({ ID := "", Status := JobStatusFailed, Output := none,
          Error := "failed to marshal payload: " ++ err.text },
        some err), [])
    | Except.ok payload =>
      let out := handler payload
      let evs := WorkerEvent.handler req.Type_ :: out.2
      match out.1.2 with
      | some err =>
        (({ ID := "", Status := JobStatusFailed, Output := out.1.1, Error := err.text },
          some err), evs)
      | none =>
        (({ ID := "", Status := JobStatusCompleted, Output := out.1.1, Error := "" }, none), evs)

/-- The number of handler calls among the effects. -/
def handlerCalls (evs : List WorkerEvent) : Nat :=
  (evs.filter (fun e => match e with | WorkerEvent.handler _ => true | _ => false)).length

/-! ### Examples -/

/-- The error of `json.Marshal` for a channel. -/
def unsupportedType : GoError := Errorf "json: unsupported type: chan int"

/-- A request whose payload is a channel. -/
def requestWithChannel : JobRequest :=
  { Type_ := JobTypeWindowsExec, Payload := Payload.unencodable unsupportedType,
    Timeout := 0, RetryMax := 0, RetryBackoff := 0, Idempotent := false }

/-- A request of a type that has no handler. -/
def requestOfUnknownType : JobRequest :=
  { Type_ := "playwright.run", Payload := Payload.encodable JSON.null,
    Timeout := 0, RetryMax := 0, RetryBackoff := 0, Idempotent := false }

/-- A request to run `hostname`. -/
def requestHostname : JobRequest :=
  { Type_ := JobTypeWindowsExec,
    Payload := Payload.windowsExec { Command := "hostname", Timeout := 0 },
    Timeout := 0, RetryMax := 0, RetryBackoff := 0, Idempotent := false }

/-- A world in which the payloads of the examples decode to what they were encoded from, and
the remote command exits with status 127. -/
def envCommandNotFound : WorkerEnv :=
  { unmarshalWindowsExec := fun _ => Except.ok { Command := "hostname", Timeout := 0 },
    unmarshalAlohaRun := fun _ =>
      Except.ok { Task := "open notepad", SelectedScreen := 0, TraceID := "", MaxSteps := 0 },
    ssh := sshx.envExit127,
    alohaEnv := aloha.envRunning,
    newRequest := aloha.anyRequest,
    encode := fun _ => "" }

end hatchet

/-! ## Go strings, byte by byte -/

namespace utf8

/-- `RuneError`, the replacement character U+FFFD -/
def RuneError : Char := '\uFFFD'

/-- What `DecodeRuneInString` finds at a position of a Go string, which is a sequence of
bytes: the valid UTF-8 encoding of a rune, or a byte at which no valid encoding starts (the
result is then `RuneError` with size 1; such a byte is 0x80 or more). -/
inductive Element where
  | rune (c : Char)
  | invalid (b : Nat)
deriving DecidableEq, Repr

end utf8

/-- A Go string as a loop over `DecodeRuneInString` reads it, element by element. The strings
that are valid UTF-8 are the ones made of `rune` elements only: they are the values of
`String`, embedded by `RawString.ofString`. -/
abbrev RawString := List utf8.Element

/-- The Go string that holds the UTF-8 encoding of a text. -/
def RawString.ofString (s : String) : RawString := s.data.map utf8.Element.rune

/-- The rune that is left of an element when a byte that starts no valid encoding is replaced
by U+FFFD. -/
def utf8.Element.coerced (e : utf8.Element) : Char :=
  match e with
  | utf8.Element.rune c => c
  | utf8.Element.invalid _ => utf8.RuneError

/-- The text that is left of a Go string when every byte that starts no valid encoding is
replaced by U+FFFD. -/
def RawString.coerced (s : RawString) : String := String.mk (s.map utf8.Element.coerced)

/-! ## Package `encoding/json`: the text of a value

The encoder side is `appendString` of `encode.go` with `escapeHTML` set, as `json.Marshal`
calls it, and `strconv.AppendInt` in base 10 for the integer kinds; the decoder side is the
scanner of `scanner.go` together with `unquote` and the literal store of `decode.go`, for a
destination of type `interface{}` or `map[string]interface{}`. A text is a list of
characters: the encoder writes valid UTF-8 only. -/

namespace json

/-- `hex[n]`, for `hex = "0123456789abcdef"` and `n` below 16 -/
def hexDigit (n : Nat) : Char := "0123456789abcdef".data.getD n '0'

/-- `htmlSafeSet[c]`, for `c` below `utf8.RuneSelf`: the characters from the space on, except
the double quote, the backslash, the ampersand and the angle brackets. -/
def htmlSafeSet (c : Char) : Bool :=
  decide (0x20 ≤ c.toNat) && !(c == '"') && !(c == '\\') && !(c == '&') && !(c == '<') &&
    !(c == '>')

/-- What `appendString` writes for one element of the string: `c.toNat / 16` and
`c.toNat % 16` are `b>>4` and `b&0xF`. Releases before Go 1.22 have no cases for the
backspace and the form feed and write them as `\u0008` and `\u000c`. -/
def appendElement (e : utf8.Element) : List Char :=
  match e with
  | utf8.Element.rune c =>
    if c.toNat < 0x80 then
      if htmlSafeSet c = true then [c]
      else if c = '\\' ∨ c = '"' then ['\\', c]
      else if c = '\x08' then ['\\', 'b']
      else if c = '\x0c' then ['\\', 'f']
      else if c = '\n' then ['\\', 'n']
      else if c = '\r' then ['\\', 'r']
      else if c = '\t' then ['\\', 't']
      else ['\\', 'u', '0', '0', hexDigit (c.toNat / 16), hexDigit (c.toNat % 16)]
    else if c = '\u2028' ∨ c = '\u2029' then
      ['\\', 'u', '2', '0', '2', hexDigit (c.toNat % 16)]
    else [c]
  | utf8.Element.invalid _ => ['\\', 'u', 'f', 'f', 'f', 'd']

/-- The loop of `appendString` over the elements of the string. -/
def appendElements : RawString → List Char
  | [] => []
  | e :: rest => appendElement e ++ appendElements rest

/-- `appendString(dst, src, true)`: the text appended to `dst`. -/
def appendString (src : RawString) : List Char :=
  '"' :: (appendElements src ++ ['"'])

/-- `strconv.AppendInt(dst, n, 10)`: the text appended to `dst`. -/
def appendInt (n : Int) : List Char :=
  if n < 0 then '-' :: Nat.toDigits 10 n.natAbs else Nat.toDigits 10 n.natAbs

/-- The value of a struct field of one of the kinds that the payloads have. -/
inductive Field where
  /-- a field of kind `string` -/
  | string (s : RawString)
  /-- a field of kind `int` or `int64` (`time.Duration` is an `int64`) -/
  | int (n : Int)
deriving DecidableEq, Repr

/-- Whether the field holds the zero value of its kind, which `omitempty` leaves out. -/
def Field.isZero (v : Field) : Bool :=
  match v with
  | Field.string s => s.isEmpty
  | Field.int n => decide (n = 0)

/-- The field that the struct encoder writes for a field tagged `omitempty`. -/
def omitEmpty (name : String) (v : Field) : List (String × Field) :=
  if v.isZero = true then [] else [(name, v)]

/-- The text that the encoder writes for the value of a field. -/
def appendField (v : Field) : List Char :=
  match v with
  | Field.string s => appendString s
  | Field.int n => appendInt n

/-- The value that the decoder stores into an `interface{}` for the text of a field: the
string with its invalid bytes replaced for a string, the number for an integer. -/
def Field.decoded (v : Field) : JSON :=
  match v with
  | Field.string s => JSON.string s.coerced
  | Field.int n => JSON.number n

/-- The members that the decoder stores for the fields of a struct. -/
def decodedFields (fields : List (String × Field)) : List (String × JSON) :=
  fields.map fun f => (f.1, f.2.decoded)

/-- The text that the struct encoder writes for the fields that are not left out: each is the
quoted name, a colon and the value, with a comma before all but the first. -/
def appendFields : List (String × Field) → List Char
  | [] => []
  | [f] => appendString (RawString.ofString f.1) ++ ':' :: appendField f.2
  | f :: rest =>
    appendString (RawString.ofString f.1) ++ ':' :: appendField f.2 ++ ',' :: appendFields rest

/-- `json.Marshal` of a struct whose fields, after the ones that `omitempty` leaves out and
with embedded structs flattened, are `fields`. -/
def MarshalStruct (fields : List (String × Field)) : List Char :=
  '{' :: (appendFields fields ++ ['}'])

/-- `isSpace` of the scanner -/
def isSpace (c : Char) : Bool := c == ' ' || c == '\t' || c == '\r' || c == '\n'

/-- The text after the white space that the scanner skips. -/
def skipSpace (text : List Char) : List Char := text.dropWhile isSpace

/-- The value of a hexadecimal digit, as `getu4` computes it. -/
def hexValue (c : Char) : Option Nat :=
  if 48 ≤ c.toNat ∧ c.toNat ≤ 57 then some (c.toNat - 48)
  else if 97 ≤ c.toNat ∧ c.toNat ≤ 102 then some (c.toNat - 97 + 10)
  else if 65 ≤ c.toNat ∧ c.toNat ≤ 70 then some (c.toNat - 65 + 10)
  else none

/-- `getu4`, for the four characters after `\u`; `none` stands for `-1`. -/
def getu4 (a b c d : Char) : Option Nat :=
  match hexValue a, hexValue b, hexValue c, hexValue d with
  | some a, some b, some c, some d => some (((a * 16 + b) * 16 + c) * 16 + d)
  | _, _, _, _ => none

/-- A piece of a string literal: a character, written as itself or as a two-character
escape, or the value of a `\u` escape. -/
inductive Token where
  | lit (c : Char)
  | esc (n : Nat)
deriving DecidableEq, Repr

/-- The character of a two-character escape, for the characters that the scanner accepts
after a backslash (`u` apart). -/
def simpleEscape (c : Char) : Option Char :=
  if c = '"' ∨ c = '\\' ∨ c = '/' then some c
  else if c = 'b' then some '\x08'
  else if c = 'f' then some '\x0c'
  else if c = 'n' then some '\n'
  else if c = 'r' then some '\r'
  else if c = 't' then some '\t'
  else none

/-- The pieces of a literal with one more piece in front. -/
def consToken (t : Token) (r : Option (List Token × List Char)) :
    Option (List Token × List Char) :=
  match r with
  | none => none
  | some (tokens, after) => some (t :: tokens, after)

/-- The scanner inside a string literal, from the character after the opening quote: the
pieces up to the closing quote and the text after it. The literal is invalid (`none`) when
the text ends before the closing quote, at a control character, and at a backslash that
starts no escape. -/
def literalTokens : List Char → Option (List Token × List Char)
  | [] => none
  | c :: rest =>
    if c = '"' then some ([], rest)
    else if c = '\\' then
      match rest with
      | [] => none
      | e :: rest1 =>
        if e = 'u' then
          match rest1 with
          | h1 :: h2 :: h3 :: h4 :: rest2 =>
            match getu4 h1 h2 h3 h4 with
            | none => none
            | some n => consToken (Token.esc n) (literalTokens rest2)
          | _ => none
        else
          match simpleEscape e with
          | none => none
          | some ch => consToken (Token.lit ch) (literalTokens rest1)
    else if c.toNat < 0x20 then none
    else consToken (Token.lit c) (literalTokens rest)

/-- `utf16.IsSurrogate` -/
def IsSurrogate (n : Nat) : Bool := decide (0xd800 ≤ n ∧ n < 0xe000)

/-- The rune that `unquote` writes for a `\u` escape that is not consumed as one half of a
surrogate pair: the code point itself, and U+FFFD for a surrogate. -/
def escapeRune (n : Nat) : Char :=
  if IsSurrogate n = true then utf8.RuneError else Char.ofNat n

/-- The runes that `unquote` writes for the pieces of a literal; `pending` is a `\u` escape
that has been read and not yet written. Two `\u` escapes in a row that are a high and a low
surrogate stand for one code point (`utf16.DecodeRune`). -/
def decodeTokens : Option Nat → List Token → List Char
  | none, [] => []
  | some hi, [] => [escapeRune hi]
  | none, Token.lit c :: rest => c :: decodeTokens none rest
  | some hi, Token.lit c :: rest => escapeRune hi :: c :: decodeTokens none rest
  | none, Token.esc n :: rest => decodeTokens (some n) rest
  | some hi, Token.esc lo :: rest =>
    if 0xd800 ≤ hi ∧ hi < 0xdc00 ∧ 0xdc00 ≤ lo ∧ lo < 0xe000 then
      Char.ofNat ((hi - 0xd800) * 0x400 + (lo - 0xdc00) + 0x10000) :: decodeTokens none rest
    else escapeRune hi :: decodeTokens (some lo) rest

/-- A string literal from the character after its opening quote: the string that `unquote`
gives and the text after the closing quote. -/
def stringLiteral (text : List Char) : Option (String × List Char) :=
  match literalTokens text with
  | none => none
  | some (tokens, after) => some (String.mk (decodeTokens none tokens), after)

/-- Whether the character is a decimal digit. -/
def isDigit (c : Char) : Bool := decide (48 ≤ c.toNat ∧ c.toNat ≤ 57)

/-- The number that a run of decimal digits denotes. -/
def digitsValue (digits : List Char) : Nat :=
  digits.foldl (fun acc c => 10 * acc + (c.toNat - 48)) 0

/-- A number literal without fraction and exponent: an optional minus sign and the digits,
of which the first is `0` only when it is the only one. A literal with a fraction or an
exponent, which Go stores as a `float64` that need not be an integer, is beyond this model of
the values and gives `none`, as does a text that starts no number. An integer is kept as it
is written, where Go stores the nearest `float64`. -/
def numberLiteral (text : List Char) : Option (Int × List Char) :=
  let negative := text.head? = some '-'
  let unsigned := if negative then text.tail else text
  let digits := unsigned.takeWhile isDigit
  let after := unsigned.dropWhile isDigit
  if digits = [] then none
  else if digits.head? = some '0' ∧ digits.length ≠ 1 then none
  else if after.head? = some '.' ∨ after.head? = some 'e' ∨ after.head? = some 'E' then none
  else some (if negative then -(digitsValue digits : Int) else (digitsValue digits : Int), after)

/-- A value that is no object and no array, at the start of the text: a string, one of the
names `true`, `false` and `null`, or a number. -/
def scalar (text : List Char) : Option (JSON × List Char) :=
  match text with
  | [] => none
  | c :: rest =>
    if c = '"' then
      match stringLiteral rest with
      | none => none
      | some (s, after) => some (JSON.string s, after)
    else if c = 't' then
      match rest with
      | 'r' :: 'u' :: 'e' :: after => some (JSON.bool true, after)
      | _ => none
    else if c = 'f' then
      match rest with
      | 'a' :: 'l' :: 's' :: 'e' :: after => some (JSON.bool false, after)
      | _ => none
    else if c = 'n' then
      match rest with
      | 'u' :: 'l' :: 'l' :: after => some (JSON.null, after)
      | _ => none
    else
      match numberLiteral text with
      | none => none
      | some (n, after) => some (JSON.number n, after)

mutual

/-- The value at the start of the text (white space skipped by the caller), stored into an
`interface{}`, and the text after it. `fuel` bounds the nesting depth and the number of
members; `UnmarshalMap` passes more than the length of the text. The members of an object are
kept in reverse order of appearance, so that `mapIndex`, which stops at the first match,
finds for a repeated key the member that was stored last, as the index expression on the Go
map does. -/
def value : Nat → List Char → Option (JSON × List Char)
  | 0, _ => none
  | fuel + 1, text =>
    match text with
    | [] => none
    | c :: rest =>
      if c = '{' then
        match skipSpace rest with
        | [] => none
        | d :: after =>
          if d = '}' then some (JSON.object [], after)
          else
            match members fuel (d :: after) [] with
            | none => none
            | some (fields, after) => some (JSON.object fields, after)
      else if c = '[' then
        match skipSpace rest with
        | [] => none
        | d :: after =>
          if d = ']' then some (JSON.array [], after)
          else
            match elements fuel (d :: after) [] with
            | none => none
            | some (items, after) => some (JSON.array items, after)
      else scalar text

/-- The members of an object from the opening quote of a key on, up to the closing brace;
`stored` holds the members read so far, the last one first. -/
def members : Nat → List Char → List (String × JSON) → Option (List (String × JSON) × List Char)
  | 0, _, _ => none
  | fuel + 1, text, stored =>
    match text with
    | [] => none
    | c :: rest =>
      if c = '"' then
        match stringLiteral rest with
        | none => none
        | some (key, after) =>
          match skipSpace after with
          | [] => none
          | colon :: after =>
            if colon = ':' then
              match value fuel (skipSpace after) with
              | none => none
              | some (v, after) =>
                match skipSpace after with
                | [] => none
                | d :: after =>
                  if d = ',' then members fuel (skipSpace after) ((key, v) :: stored)
                  else if d = '}' then some ((key, v) :: stored, after)
                  else none
            else none
      else none

/-- The elements of an array from the first character of an element on, up to the closing
bracket; `stored` holds the elements read so far, the last one first. -/
def elements : Nat → List Char → List JSON → Option (List JSON × List Char)
  | 0, _, _ => none
  | fuel + 1, text, stored =>
    match value fuel text with
    | none => none
    | some (v, after) =>
      match skipSpace after with
      | [] => none
      | d :: after =>
        if d = ',' then elements fuel (skipSpace after) (v :: stored)
        else if d = ']' then some ((v :: stored).reverse, after)
        else none

end

/-- `json.Unmarshal(data, &m)` for a nil `m` of type `map[string]interface{}`: the map when
the text is one JSON object, the nil map when it is `null`, and an error (`none`) when it is
another value or no valid JSON. -/
def UnmarshalMap (data : List Char) : Option (List (String × JSON)) :=
  match value (data.length + 1) (skipSpace data) with
  | some (JSON.object fields, after) => if skipSpace after = [] then some fields else none
  | some (JSON.null, after) => if skipSpace after = [] then some [] else none
  | _ => none

end json

/-! ## `cmd/win-automation/jobs.go`: the payloads as JSON text -/

namespace jobs

/-- The `windowsExecPayload` struct with the embedded struct flattened, its strings byte by
byte. -/
structure windowsExecPayloadRaw where
  Command : RawString
  Timeout : Int
  TraceID : RawString
  IdempotentCheck : RawString
deriving DecidableEq, Repr

/-- The `alohaRunPayload` struct with the embedded struct flattened, its strings byte by
byte. -/
structure alohaRunPayloadRaw where
  Task : RawString
  SelectedScreen : Int
  TraceID : RawString
  MaxSteps : Int
  IdempotentCheck : RawString
deriving DecidableEq, Repr

/-- The values that `buildWorkflowInput` returns as its `any`, their strings byte by byte. -/
inductive workflowInputRaw where
  | windowsExec (payload : windowsExecPayloadRaw)
  | alohaRun (payload : alohaRunPayloadRaw)
deriving DecidableEq, Repr

/-- The bytes of a `windowsExecPayload`. -/
def windowsExecPayload.raw (p : windowsExecPayload) : windowsExecPayloadRaw :=
  { Command := RawString.ofString p.WindowsExecInput.Command,
    Timeout := p.WindowsExecInput.Timeout,
    TraceID := RawString.ofString p.TraceID,
    IdempotentCheck := RawString.ofString p.IdempotentCheck }

/-- The bytes of an `alohaRunPayload`. -/
def alohaRunPayload.raw (p : alohaRunPayload) : alohaRunPayloadRaw :=
  { Task := RawString.ofString p.AlohaRunInput.Task,
    SelectedScreen := p.AlohaRunInput.SelectedScreen,
    TraceID := RawString.ofString p.AlohaRunInput.TraceID,
    MaxSteps := p.AlohaRunInput.MaxSteps,
    IdempotentCheck := RawString.ofString p.IdempotentCheck }

/-- The bytes of a payload. -/
def workflowInput.raw (input : workflowInput) : workflowInputRaw :=
  match input with
  | workflowInput.windowsExec p => workflowInputRaw.windowsExec p.raw
  | workflowInput.alohaRun p => workflowInputRaw.alohaRun p.raw

/-- `buildWorkflowInput` for options whose trace id is the Go string `traceID`, which need
not be valid UTF-8, in place of `opts.traceID`; the other strings of the options are texts.
The trace id is copied into the payload as it is. -/
def buildWorkflowInputRaw (opts : jobEnqueueOptions) (traceID : RawString) :
    Except jobsError (String × workflowInputRaw) :=
  if opts.jobType = hatchet.JobTypeWindowsExec then
    if strings.TrimSpace opts.cmd = "" then
      Except.error (jobsError.usage (Errorf "--cmd is required for windows.exec"))
    else
      Except.ok (opts.jobType, workflowInputRaw.windowsExec
        { Command := RawString.ofString opts.cmd,
          Timeout := opts.timeout,
          TraceID := traceID,
          IdempotentCheck := RawString.ofString opts.idempotentCheck })
  else if opts.jobType = hatchet.JobTypeAlohaRun then
    if strings.TrimSpace opts.task = "" then
      Except.error (jobsError.usage (Errorf "--task is required for aloha.run"))
    else
      Except.ok (opts.jobType, workflowInputRaw.alohaRun
        { Task := RawString.ofString opts.task,
          SelectedScreen := opts.selectedScreen,
          TraceID := traceID,
          MaxSteps := opts.maxSteps,
          IdempotentCheck := RawString.ofString opts.idempotentCheck })
  else
    Except.error (jobsError.other (Errorf ("unknown job type: " ++ opts.jobType)))

/-- The fields that `json.Marshal` writes for a `windowsExecPayload`, by the field tags: the
fields of the embedded `WindowsExecInput` come first and are not nested. -/
def windowsExecPayloadRaw.fields (p : windowsExecPayloadRaw) : List (String × json.Field) :=
  [("command", json.Field.string p.Command)] ++
  json.omitEmpty "timeout" (json.Field.int p.Timeout) ++
  json.omitEmpty "trace_id" (json.Field.string p.TraceID) ++
  json.omitEmpty "idempotent_check" (json.Field.string p.IdempotentCheck)

/-- The fields that `json.Marshal` writes for an `alohaRunPayload`, by the field tags. -/
def alohaRunPayloadRaw.fields (p : alohaRunPayloadRaw) : List (String × json.Field) :=
  [("task", json.Field.string p.Task)] ++
  json.omitEmpty "selected_screen" (json.Field.int p.SelectedScreen) ++
  json.omitEmpty "trace_id" (json.Field.string p.TraceID) ++
  json.omitEmpty "max_steps" (json.Field.int p.MaxSteps) ++
  json.omitEmpty "idempotent_check" (json.Field.string p.IdempotentCheck)

/-- `json.Marshal` of the input that is handed to the queue: the JSON text. -/
def workflowInputRaw.Marshal (input : workflowInputRaw) : List Char :=
  match input with
  | workflowInputRaw.windowsExec p => json.MarshalStruct p.fields
  | workflowInputRaw.alohaRun p => json.MarshalStruct p.fields

/-- A trace id that is not valid UTF-8: the single byte 0xFF. -/
def traceIDInvalid : RawString := [utf8.Element.invalid 0xff]

end jobs

/-! # Lemmas on the retry loops -/

namespace strings

theorem hasInfix_iff (sub l : List Char) : hasInfix sub l = true ↔ sub <:+: l := by
  induction l with
  | nil => simp [hasInfix, List.isEmpty_iff]
  | cons c cs ih =>
    simp only [hasInfix, Bool.or_eq_true, ih, List.infix_cons_iff, List.isPrefixOf_iff_prefix]

theorem hasInfix_map (f : Char → Char) (sub l : List Char) (h : hasInfix sub l = true) :
    hasInfix (sub.map f) (l.map f) = true := by
  rw [hasInfix_iff] at h ⊢
  exact h.map f

theorem hasInfix_append_self (pre sub : List Char) : hasInfix sub (pre ++ sub) = true := by
  rw [hasInfix_iff]
  exact (List.suffix_append pre sub).isInfix

theorem lower_connection (table : Char → Char) :
    ("connection".data).map (lowerRune table) = "connection".data := rfl

theorem lower_timeout (table : Char → Char) :
    ("timeout".data).map (lowerRune table) = "timeout".data := rfl

theorem Contains_ToLower_connection (table : Char → Char) (s : String)
    (h : Contains s "connection" = true) : Contains (ToLower table s) "connection" = true := by
  have key := hasInfix_map (lowerRune table) _ _ h
  rw [lower_connection] at key
  exact key

theorem Contains_ToLower_timeout (table : Char → Char) (s : String)
    (h : Contains s "timeout" = true) : Contains (ToLower table s) "timeout" = true := by
  have key := hasInfix_map (lowerRune table) _ _ h
  rw [lower_timeout] at key
  exact key

theorem Contains_append_self (pre s : String) : Contains (pre ++ s) s = true := by
  unfold Contains
  rw [String.data_append]
  exact hasInfix_append_self _ _

end strings

namespace sshx

theorem ssh_retryable_elim (table : Char → Char) (out : CmdRun) (h : retryable table out = true) :
    ∃ e, out.runErr = some e ∧ e.exitCode = none ∧ shouldRetryConnectionError table e = true := by
  unfold retryable at h
  cases hr : out.runErr with
  | none => simp [hr] at h
  | some e =>
    simp only [hr, Bool.and_eq_true, Option.isNone_iff_eq_none] at h
    exact ⟨e, rfl, h.1, h.2⟩

theorem ssh_retryable_of_failsTransiently (table : Char → Char) (out : CmdRun)
    (h : failsTransiently out = true) : retryable table out = true := by
  unfold failsTransiently at h
  unfold retryable
  cases hr : out.runErr with
  | none => simp [hr] at h
  | some e =>
    simp only [hr, Bool.and_eq_true, Bool.or_eq_true] at h ⊢
    refine ⟨h.1, ?_⟩
    unfold shouldRetryConnectionError
    simp only [Bool.or_eq_true]
    rcases h.2 with h2 | h2
    · exact Or.inl (strings.Contains_ToLower_connection table _ h2)
    · exact Or.inr (strings.Contains_ToLower_timeout table _ h2)

/-- One turn of the loop of `Run` that ends in a completed backoff sleep. -/
theorem runLoop_retry (env : Env) (sshPath : String) (args : List String) (remaining attempt : Nat)
    (hlast : attempt ≠ maxAttempts - 1)
    (hr : retryable env.lowerTable (env.cmdRun attempt) = true)
    (hw : env.wake attempt = Wake.timer) :
    runLoop env sshPath args (remaining + 1) attempt =
      ((runLoop env sshPath args remaining (attempt + 1)).1,
        Event.cmdRun attempt sshPath args :: Event.sleep (backoffDurations.getD attempt 0) ::
          (runLoop env sshPath args remaining (attempt + 1)).2) := by
  obtain ⟨e, h1, h2, h3⟩ := ssh_retryable_elim _ _ hr
  simp [runLoop, h1, h2, h3, hw, hlast, sleepContext]

end sshx

namespace aloha

theorem http_retryable_of_failsTransiently (o : Except GoError Response)
    (h : failsTransiently o = true) : retryable o = true := by
  cases o with
  | error e =>
    simp only [failsTransiently, Bool.and_eq_true, Bool.not_eq_true'] at h
    obtain ⟨⟨h1, h2⟩, h3⟩ := h
    unfold retryable isTransientNetworkError
    cases hn : e.netError with
    | none => simp [hn] at h1
    | some p =>
      obtain ⟨t, tmp⟩ := p
      simp [hn] at h1
      simp [hn, h2, h3, h1]
  | ok resp =>
    simp only [failsTransiently, decide_eq_true_eq] at h
    simp [retryable, isRetryableStatus, h]

/-- One turn of the loop of `doRequestWithRetry` that ends in a completed backoff sleep. -/
theorem requestLoop_retry (env : Env) (buildReq : Unit → Except GoError Request) (req : Request)
    (remaining attempt : Nat) (hb : buildReq () = Except.ok req)
    (hlast : attempt < requestMaxAttempts - 1)
    (hc : env.ctxErr attempt = none)
    (hr : retryable (env.httpDo attempt) = true)
    (hw : env.wake attempt = Wake.timer) :
    (requestLoop env buildReq (remaining + 1) attempt).1 =
        (requestLoop env buildReq remaining (attempt + 1)).1 ∧
    attempts (requestLoop env buildReq (remaining + 1) attempt).2 =
        attempts (requestLoop env buildReq remaining (attempt + 1)).2 + 1 ∧
    sleeps (requestLoop env buildReq (remaining + 1) attempt).2 =
        sleeps (requestLoop env buildReq remaining (attempt + 1)).2 + 1 ∧
    ((requestLoop env buildReq remaining (attempt + 1)).2 ≠ [] →
      (requestLoop env buildReq (remaining + 1) attempt).2.getLast? =
        (requestLoop env buildReq remaining (attempt + 1)).2.getLast?) := by
  have hne : attempt ≠ requestMaxAttempts - 1 := Nat.ne_of_lt hlast
  cases ho : env.httpDo attempt with
  | error e =>
    rw [ho] at hr
    simp only [retryable] at hr
    simp [requestLoop, hb, hc, ho, hr, hw, hne, sleepContext, attempts, sleeps, List.getLast?_cons_cons]
    intro h
    cases hrest : (requestLoop env buildReq remaining (attempt + 1)).2 with
    | nil => exact absurd hrest h
    | cons a l => simp [List.getLast?_cons_cons]
  | ok resp =>
    rw [ho] at hr
    simp only [retryable] at hr
    simp [requestLoop, hb, hc, ho, hr, hw, hlast, sleepContext, attempts, sleeps]
    intro h
    cases hrest : (requestLoop env buildReq remaining (attempt + 1)).2 with
    | nil => exact absurd hrest h
    | cons a l => simp [List.getLast?_cons_cons]

end aloha

/-! # The retry loops: claims C1 to C6 -/

/-- Claim C1, as stated, fails for `doRequestWithRetry`. In `aloha.envClientTimeout` the
context is never cancelled (`ctx.Err()` is nil in every iteration and no sleep is
interrupted) and every attempt fails with the error of an elapsed `http.Client.Timeout`,
which is a network error reporting a timeout, so every attempt fails transiently in the
words of the claim. Yet `http.Do` is called once, not three times, and no backoff sleep is
made: the error wraps `context.DeadlineExceeded`, for which `isTransientNetworkError` answers
false before it looks at the network error. -/
theorem client_timeout_is_attempted_once :
    (∀ i, aloha.envClientTimeout.ctxErr i = none) ∧
    (∀ i, aloha.envClientTimeout.wake i = Wake.timer) ∧
    (∀ i, aloha.envClientTimeout.httpDo i = Except.error aloha.clientTimeout) ∧
    aloha.clientTimeout.netError = some (true, true) ∧
    (∀ i, aloha.transientAsWorded (aloha.envClientTimeout.httpDo i) = true) ∧
    aloha.isTransientNetworkError aloha.clientTimeout = false ∧
    aloha.attempts (aloha.doRequestWithRetry aloha.envClientTimeout aloha.buildHealth).2 = 1 ∧
    aloha.sleeps (aloha.doRequestWithRetry aloha.envClientTimeout aloha.buildHealth).2 = 0 ∧
    (aloha.doRequestWithRetry aloha.envClientTimeout aloha.buildHealth).1 =
      Except.error aloha.clientTimeout :=
  ⟨fun _ => rfl, fun _ => rfl, fun _ => rfl, rfl, fun _ => rfl, by decide, by decide,
    by decide, rfl⟩

/-- Claim C1, amended: for HTTP a transient failure is a network error reporting a timeout or
a temporary condition that neither is nor wraps `context.Canceled` or
`context.DeadlineExceeded` (`aloha.failsTransiently`; the error of an elapsed
`http.Client.Timeout` is thereby no transient failure), or a 502/503/504 response. Both retry
loops (`maxAttempts = 3`): when every attempt fails transiently (shell: a transport error
that is no remote exit and whose text contains "connection" or "timeout"; HTTP: as above) and
the context is never cancelled (`ctx.Err()` stays nil, no backoff sleep is interrupted), the
underlying call is made exactly three times, with the backoffs of 500ms and 1s in between, and what is returned carries the third
attempt's detail: `Run` returns the third attempt's output with exit code `-1` and the error
"ssh command failed: " followed by the third transport error's text; `doRequestWithRetry`
returns exactly the third outcome of `http.Do`, be it the last network error or the last
response with its status. -/
theorem retry_exhausts_three_attempts :
    (∀ (env : sshx.Env) (cfg : config.Config) (remoteCommand sshPath : String),
      env.lookPath = Except.ok sshPath →
      (∀ i, env.ctxErr i = none) → (∀ i, env.wake i = Wake.timer) →
      (∀ i, i < 3 → sshx.failsTransiently (env.cmdRun i) = true) →
      sshx.attempts (sshx.Run env cfg remoteCommand).2 = 3 ∧
      (sshx.Run env cfg remoteCommand).2 =
        [sshx.Event.lookPath,
         sshx.Event.cmdRun 0 sshPath (sshx.sshArgs cfg remoteCommand),
         sshx.Event.sleep (500 * time.Millisecond),
         sshx.Event.cmdRun 1 sshPath (sshx.sshArgs cfg remoteCommand),
         sshx.Event.sleep (1 * time.Second),
         sshx.Event.cmdRun 2 sshPath (sshx.sshArgs cfg remoteCommand)] ∧
      ∃ last err, (env.cmdRun 2).runErr = some last ∧
        (sshx.Run env cfg remoteCommand).1 =
          ({ Stdout := (env.cmdRun 2).stdout, Stderr := (env.cmdRun 2).stderr, ExitCode := -1 },
            some err) ∧
        err = Errorf ("ssh command failed: " ++ last.text) ∧
        strings.Contains err.text last.text = true) ∧
    (∀ (env : aloha.Env) (buildReq : Unit → Except GoError aloha.Request) (req : aloha.Request),
      buildReq () = Except.ok req →
      (∀ i, env.ctxErr i = none) → (∀ i, env.wake i = Wake.timer) →
      (∀ i, i < 3 → aloha.failsTransiently (env.httpDo i) = true) →
      aloha.attempts (aloha.doRequestWithRetry env buildReq).2 = 3 ∧
      aloha.sleeps (aloha.doRequestWithRetry env buildReq).2 = 2 ∧
      (aloha.doRequestWithRetry env buildReq).1 = env.httpDo 2) := by
  constructor
  · intro env cfg remoteCommand sshPath hlp _ hw ht
    have r0 := sshx.ssh_retryable_of_failsTransiently env.lowerTable _ (ht 0 (by decide))
    have r1 := sshx.ssh_retryable_of_failsTransiently env.lowerTable _ (ht 1 (by decide))
    obtain ⟨e2, h2, x2, _⟩ := sshx.ssh_retryable_elim _ _
      (sshx.ssh_retryable_of_failsTransiently env.lowerTable _ (ht 2 (by decide)))
    have hrun : sshx.Run env cfg remoteCommand =
        ((({ Stdout := (env.cmdRun 2).stdout, Stderr := (env.cmdRun 2).stderr,
             ExitCode := -1 } : sshx.Result),
            some (Errorf ("ssh command failed: " ++ e2.text))),
         [sshx.Event.lookPath,
          sshx.Event.cmdRun 0 sshPath (sshx.sshArgs cfg remoteCommand),
          sshx.Event.sleep (500 * time.Millisecond),
          sshx.Event.cmdRun 1 sshPath (sshx.sshArgs cfg remoteCommand),
          sshx.Event.sleep (1 * time.Second),
          sshx.Event.cmdRun 2 sshPath (sshx.sshArgs cfg remoteCommand)]) := by
      simp only [sshx.Run, hlp, sshx.maxAttempts]
      rw [sshx.runLoop_retry env _ _ 2 0 (by decide) r0 (hw 0),
        sshx.runLoop_retry env _ _ 1 1 (by decide) r1 (hw 1)]
      simp [sshx.runLoop, sshx.maxAttempts, h2, x2, sshx.backoffDurations]
    rw [hrun]
    refine ⟨by simp [sshx.attempts], rfl, e2, _, h2, rfl, rfl, ?_⟩
    exact strings.Contains_append_self _ _
  · intro env buildReq req hb hc hw ht
    have r0 := aloha.http_retryable_of_failsTransiently _ (ht 0 (by decide))
    have r1 := aloha.http_retryable_of_failsTransiently _ (ht 1 (by decide))
    have r2 := aloha.http_retryable_of_failsTransiently _ (ht 2 (by decide))
    obtain ⟨a0, b0, c0, -⟩ := aloha.requestLoop_retry env buildReq req 2 0 hb (by decide) (hc 0) r0 (hw 0)
    obtain ⟨a1, b1, c1, -⟩ := aloha.requestLoop_retry env buildReq req 1 1 hb (by decide) (hc 1) r1 (hw 1)
    have last : aloha.requestLoop env buildReq 1 2 = (env.httpDo 2, [aloha.Event.httpDo 2 req]) := by
      cases ho : env.httpDo 2 with
      | error e => simp [aloha.requestLoop, hb, hc, ho, aloha.requestMaxAttempts]
      | ok resp => simp [aloha.requestLoop, hb, hc, ho, aloha.requestMaxAttempts]
    simp only [aloha.doRequestWithRetry, aloha.requestMaxAttempts] at *
    rw [a0, b0, c0, a1, b1, c1, last]
    simp [aloha.attempts, aloha.sleeps]

/-- Claim C1, amended, at `sshx.envRefused` and `aloha.envUnavailable`. -/
theorem retry_exhausts_three_attempts_witness :
    sshx.attempts (sshx.Run sshx.envRefused config.defaultConfig "echo SSH_OK").2 = 3 ∧
    (sshx.Run sshx.envRefused config.defaultConfig "echo SSH_OK").1.2 =
      some (Errorf "ssh command failed: dial: i/o timeout (third)") ∧
    aloha.attempts (aloha.doRequestWithRetry aloha.envUnavailable aloha.buildHealth).2 = 3 ∧
    (aloha.doRequestWithRetry aloha.envUnavailable aloha.buildHealth).1 =
      Except.ok { StatusCode := 504, Body := "gateway timeout" } := by
  have hs := retry_exhausts_three_attempts.1 sshx.envRefused config.defaultConfig "echo SSH_OK"
    "/usr/bin/ssh" rfl (fun _ => rfl) (fun _ => rfl)
    (by intro i hi; interval_cases i <;> decide)
  have ha := retry_exhausts_three_attempts.2 aloha.envUnavailable aloha.buildHealth
    aloha.healthRequest rfl (fun _ => rfl) (fun _ => rfl)
    (by intro i hi; interval_cases i <;> decide)
  refine ⟨hs.1, ?_, ha.1, ha.2.2⟩
  obtain ⟨last, err, h1, h2, h3, -⟩ := hs.2.2
  rw [h2, h3]
  have : last = Errorf "dial: i/o timeout (third)" := by
    have h4 : (sshx.envRefused.cmdRun 2).runErr = some (Errorf "dial: i/o timeout (third)") := rfl
    rw [h4] at h1
    exact (Option.some.inj h1).symm
  rw [this]
  rfl

/-- Claim C2, as stated, fails: the transport error "Connection reset by peer" is no remote
exit and its text contains neither "connection" nor "timeout", yet `Run` lower-cases the text
before matching, classifies the error as transient, and makes three attempts with two backoff
sleeps. -/
theorem capitalised_connection_error_is_retried :
    (sshx.envCapital.cmdRun 0).runErr = some (Errorf "Connection reset by peer") ∧
    (Errorf "Connection reset by peer").exitCode = none ∧
    strings.Contains "Connection reset by peer" "connection" = false ∧
    strings.Contains "Connection reset by peer" "timeout" = false ∧
    sshx.attempts (sshx.Run sshx.envCapital config.defaultConfig "echo SSH_OK").2 = 3 ∧
    sshx.sleeps (sshx.Run sshx.envCapital config.defaultConfig "echo SSH_OK").2 = 2 := by
  decide

/-- Claim C2, amended. A permanent failure on the first attempt ends the retry loop after
exactly one attempt and without a backoff sleep: in `Run` a remote exit, or a transport error
whose lower-cased text contains neither "connection" nor "timeout"; in `doRequestWithRetry`
(with the context not cancelled before the attempt) a non-transient error, or any response
whose status is not 502/503/504, which is returned as it is. -/
theorem permanent_failure_single_attempt :
    (∀ (env : sshx.Env) (cfg : config.Config) (remoteCommand sshPath : String) (e : GoError),
      env.lookPath = Except.ok sshPath →
      (env.cmdRun 0).runErr = some e →
      ((∃ code, e.exitCode = some code) ∨
        (e.exitCode = none ∧
          strings.Contains (strings.ToLower env.lowerTable e.text) "connection" = false ∧
          strings.Contains (strings.ToLower env.lowerTable e.text) "timeout" = false)) →
      (sshx.Run env cfg remoteCommand).2 =
        [sshx.Event.lookPath, sshx.Event.cmdRun 0 sshPath (sshx.sshArgs cfg remoteCommand)] ∧
      sshx.attempts (sshx.Run env cfg remoteCommand).2 = 1 ∧
      sshx.sleeps (sshx.Run env cfg remoteCommand).2 = 0 ∧
      (sshx.Run env cfg remoteCommand).1.2 ≠ none) ∧
    (∀ (env : aloha.Env) (buildReq : Unit → Except GoError aloha.Request) (req : aloha.Request),
      buildReq () = Except.ok req →
      env.ctxErr 0 = none →
      ((∃ e, env.httpDo 0 = Except.error e ∧ aloha.isTransientNetworkError e = false) ∨
        (∃ resp, env.httpDo 0 = Except.ok resp ∧
          resp.StatusCode ≠ 502 ∧ resp.StatusCode ≠ 503 ∧ resp.StatusCode ≠ 504)) →
      (aloha.doRequestWithRetry env buildReq).2 = [aloha.Event.httpDo 0 req] ∧
      aloha.attempts (aloha.doRequestWithRetry env buildReq).2 = 1 ∧
      aloha.sleeps (aloha.doRequestWithRetry env buildReq).2 = 0 ∧
      (aloha.doRequestWithRetry env buildReq).1 = env.httpDo 0) := by
  constructor
  · intro env cfg remoteCommand sshPath e hlp he hperm
    rcases hperm with ⟨code, hc⟩ | ⟨hx, h1, h2⟩
    · simp [sshx.Run, sshx.runLoop, sshx.maxAttempts, hlp, he, hc, sshx.attempts, sshx.sleeps]
    · have hs : sshx.shouldRetryConnectionError env.lowerTable e = false := by
        simp [sshx.shouldRetryConnectionError, h1, h2]
      simp [sshx.Run, sshx.runLoop, sshx.maxAttempts, hlp, he, hx, hs, sshx.attempts, sshx.sleeps]
  · intro env buildReq req hb hc hperm
    rcases hperm with ⟨e, he, ht⟩ | ⟨resp, hr, h1, h2, h3⟩
    · simp [aloha.doRequestWithRetry, aloha.requestLoop, aloha.requestMaxAttempts, hb, hc, he, ht,
        aloha.attempts, aloha.sleeps]
    · simp [aloha.doRequestWithRetry, aloha.requestLoop, aloha.requestMaxAttempts, hb, hc, hr,
        aloha.isRetryableStatus, h1, h2, h3, aloha.attempts, aloha.sleeps]

/-- Claim C2, amended, at `sshx.envPermanent` and `aloha.envBadCertificate`. -/
theorem permanent_failure_single_attempt_witness :
    sshx.attempts (sshx.Run sshx.envPermanent config.defaultConfig "echo SSH_OK").2 = 1 ∧
    sshx.sleeps (sshx.Run sshx.envPermanent config.defaultConfig "echo SSH_OK").2 = 0 ∧
    (aloha.doRequestWithRetry aloha.envBadCertificate aloha.buildHealth).2 =
      [aloha.Event.httpDo 0 aloha.healthRequest] := by
  have hs := permanent_failure_single_attempt.1 sshx.envPermanent config.defaultConfig
    "echo SSH_OK" "/usr/bin/ssh" (Errorf "fork/exec /usr/bin/ssh: permission denied") rfl rfl
    (Or.inr (by decide))
  have ha := permanent_failure_single_attempt.2 aloha.envBadCertificate aloha.buildHealth
    aloha.healthRequest rfl rfl (Or.inl ⟨aloha.badCertificate, rfl, by decide⟩)
  exact ⟨hs.2.1, hs.2.2.1, ha.1⟩

/-- Claim C3 at its failing input. With a context that is cancelled before the first attempt,
`Run` does not look at the context: it calls `cmd.Run()`, which reports the context's error,
and returns exit code `-1` with the fresh error "ssh command failed: context canceled", which
is not the context's own error (`errors.Is(err, context.Canceled)` is false). There is no
backoff sleep. `doRequestWithRetry` in the same situation returns `ctx.Err()` itself without
any call. -/
theorem run_with_cancelled_context_wraps_error :
    sshx.envCancelled.ctxErr 0 = some context.Canceled ∧
    sshx.Run sshx.envCancelled config.defaultConfig "echo SSH_OK" =
      (({ Stdout := "", Stderr := "", ExitCode := -1 },
        some (Errorf "ssh command failed: context canceled")),
       [sshx.Event.lookPath,
        sshx.Event.cmdRun 0 "/usr/bin/ssh" (sshx.sshArgs config.defaultConfig "echo SSH_OK")]) ∧
    Errorf "ssh command failed: context canceled" ≠ context.Canceled ∧
    (Errorf "ssh command failed: context canceled").isCanceled = false ∧
    aloha.doRequestWithRetry aloha.envCancelled aloha.buildHealth =
      (Except.error context.Canceled, []) := by
  refine ⟨rfl, by decide, by decide, rfl, rfl⟩

/-- The HTTP loop and a context that is cancelled before an attempt: when
`doRequestWithRetry` finds `ctx.Err()` non-nil at the top of turn `k`, it returns the context's
own error; the calls and sleeps made are those of the `k` turns before. -/
theorem doRequestWithRetry_cancelled_before_attempt (env : aloha.Env)
    (buildReq : Unit → Except GoError aloha.Request) (req : aloha.Request) (k : Nat)
    (ctxErr : GoError) (hb : buildReq () = Except.ok req) (hk : k < 3)
    (hc : ∀ i, i < k → env.ctxErr i = none)
    (hr : ∀ i, i < k → aloha.retryable (env.httpDo i) = true)
    (hw : ∀ i, i < k → env.wake i = Wake.timer)
    (hcancel : env.ctxErr k = some ctxErr) :
    (aloha.doRequestWithRetry env buildReq).1 = Except.error ctxErr ∧
    aloha.attempts (aloha.doRequestWithRetry env buildReq).2 = k ∧
    aloha.sleeps (aloha.doRequestWithRetry env buildReq).2 = k := by
  have stop : ∀ remaining, aloha.requestLoop env buildReq (remaining + 1) k =
      (Except.error ctxErr, []) := by
    intro remaining
    simp [aloha.requestLoop, hcancel]
  simp only [aloha.doRequestWithRetry, aloha.requestMaxAttempts]
  interval_cases k
  · rw [stop]; simp [aloha.attempts, aloha.sleeps]
  · obtain ⟨a0, b0, c0, -⟩ := aloha.requestLoop_retry env buildReq req 2 0 hb (by decide)
      (hc 0 (by decide)) (hr 0 (by decide)) (hw 0 (by decide))
    rw [a0, b0, c0, stop]; simp [aloha.attempts, aloha.sleeps]
  · obtain ⟨a0, b0, c0, -⟩ := aloha.requestLoop_retry env buildReq req 2 0 hb (by decide)
      (hc 0 (by decide)) (hr 0 (by decide)) (hw 0 (by decide))
    obtain ⟨a1, b1, c1, -⟩ := aloha.requestLoop_retry env buildReq req 1 1 hb (by decide)
      (hc 1 (by decide)) (hr 1 (by decide)) (hw 1 (by decide))
    rw [a0, b0, c0, a1, b1, c1, stop]; simp [aloha.attempts, aloha.sleeps]

/-- Claim C4. In both retry loops, when the context is cancelled during the backoff sleep that
follows the transient failure of attempt `k` (the `select` of `sleepContext` receives from
`ctx.Done()`), the loop returns the context's own error at once: attempt `k` is the last
attempt made and the interrupted sleep is the last effect. `Run` returns it with the output of
attempt `k` and exit code `-1`. -/
theorem cancel_during_backoff_returns_context_error :
    (∀ (env : sshx.Env) (cfg : config.Config) (remoteCommand sshPath : String) (k : Nat)
        (ctxErr : GoError),
      env.lookPath = Except.ok sshPath → k < 2 →
      (∀ i, i ≤ k → sshx.retryable env.lowerTable (env.cmdRun i) = true) →
      (∀ i, i < k → env.wake i = Wake.timer) →
      env.wake k = Wake.ctxDone ctxErr →
      (sshx.Run env cfg remoteCommand).1 =
        ({ Stdout := (env.cmdRun k).stdout, Stderr := (env.cmdRun k).stderr, ExitCode := -1 },
          some ctxErr) ∧
      sshx.attempts (sshx.Run env cfg remoteCommand).2 = k + 1 ∧
      (sshx.Run env cfg remoteCommand).2.getLast? =
        some (sshx.Event.sleep (sshx.backoffDurations.getD k 0))) ∧
    (∀ (env : aloha.Env) (buildReq : Unit → Except GoError aloha.Request) (req : aloha.Request)
        (k : Nat) (ctxErr : GoError),
      buildReq () = Except.ok req → k < 2 →
      (∀ i, i ≤ k → env.ctxErr i = none) →
      (∀ i, i ≤ k → aloha.retryable (env.httpDo i) = true) →
      (∀ i, i < k → env.wake i = Wake.timer) →
      env.wake k = Wake.ctxDone ctxErr →
      (aloha.doRequestWithRetry env buildReq).1 = Except.error ctxErr ∧
      aloha.attempts (aloha.doRequestWithRetry env buildReq).2 = k + 1 ∧
      (aloha.doRequestWithRetry env buildReq).2.getLast? =
        some (aloha.Event.sleep (aloha.requestBackoffDurations.getD k 0))) := by
  constructor
  · intro env cfg remoteCommand sshPath k ctxErr hlp hk hr hw hcancel
    have stop : ∀ remaining, k ≠ sshx.maxAttempts - 1 →
        sshx.runLoop env sshPath (sshx.sshArgs cfg remoteCommand) (remaining + 1) k =
        ((({ Stdout := (env.cmdRun k).stdout, Stderr := (env.cmdRun k).stderr,
             ExitCode := -1 } : sshx.Result), some ctxErr),
          [sshx.Event.cmdRun k sshPath (sshx.sshArgs cfg remoteCommand),
           sshx.Event.sleep (sshx.backoffDurations.getD k 0)]) := by
      intro remaining hne
      obtain ⟨e, h1, h2, h3⟩ := sshx.ssh_retryable_elim _ _ (hr k (Nat.le_refl k))
      simp [sshx.runLoop, h1, h2, h3, hcancel, hne, sshx.sleepContext]
    simp only [sshx.Run, hlp, sshx.maxAttempts]
    interval_cases k
    · rw [stop 2 (by decide)]
      simp [sshx.attempts]
    · rw [sshx.runLoop_retry env _ _ 2 0 (by decide) (hr 0 (by decide)) (hw 0 (by decide)),
        stop 1 (by decide)]
      simp [sshx.attempts]
  · intro env buildReq req k ctxErr hb hk hc hr hw hcancel
    have stop : ∀ remaining, k < aloha.requestMaxAttempts - 1 →
        (aloha.requestLoop env buildReq (remaining + 1) k).1 = Except.error ctxErr ∧
        aloha.attempts (aloha.requestLoop env buildReq (remaining + 1) k).2 = 1 ∧
        (aloha.requestLoop env buildReq (remaining + 1) k).2 ≠ [] ∧
        (aloha.requestLoop env buildReq (remaining + 1) k).2.getLast? =
          some (aloha.Event.sleep (aloha.requestBackoffDurations.getD k 0)) := by
      intro remaining hlt
      have hne : k ≠ aloha.requestMaxAttempts - 1 := Nat.ne_of_lt hlt
      have hrk := hr k (Nat.le_refl k)
      cases ho : env.httpDo k with
      | error e =>
        rw [ho] at hrk
        simp only [aloha.retryable] at hrk
        simp [aloha.requestLoop, hb, hc k (Nat.le_refl k), ho, hrk, hcancel, hne,
          aloha.sleepContext, aloha.attempts]
      | ok resp =>
        rw [ho] at hrk
        simp only [aloha.retryable] at hrk
        simp [aloha.requestLoop, hb, hc k (Nat.le_refl k), ho, hrk, hcancel, hlt,
          aloha.sleepContext, aloha.attempts]
    simp only [aloha.doRequestWithRetry, aloha.requestMaxAttempts]
    interval_cases k
    · obtain ⟨s1, s2, -, s4⟩ := stop 2 (by decide)
      exact ⟨s1, s2, s4⟩
    · obtain ⟨s1, s2, s3, s4⟩ := stop 1 (by decide)
      obtain ⟨a0, b0, -, d0⟩ := aloha.requestLoop_retry env buildReq req 2 0 hb (by decide)
        (hc 0 (by decide)) (hr 0 (by decide)) (hw 0 (by decide))
      rw [a0, b0, d0 s3, s1, s2, s4]
      simp

/-- Claim C4 at `sshx.envCancelledInBackoff` and `aloha.envCancelledInBackoff`. -/
theorem cancel_during_backoff_returns_context_error_witness :
    (sshx.Run sshx.envCancelledInBackoff config.defaultConfig "echo SSH_OK").1 =
      ({ Stdout := "", Stderr := "", ExitCode := -1 }, some context.Canceled) ∧
    sshx.attempts (sshx.Run sshx.envCancelledInBackoff config.defaultConfig "echo SSH_OK").2 = 1 ∧
    (aloha.doRequestWithRetry aloha.envCancelledInBackoff aloha.buildHealth).1 =
      Except.error context.Canceled ∧
    aloha.attempts (aloha.doRequestWithRetry aloha.envCancelledInBackoff aloha.buildHealth).2 = 1 := by
  have hs := cancel_during_backoff_returns_context_error.1 sshx.envCancelledInBackoff
    config.defaultConfig "echo SSH_OK" "/usr/bin/ssh" 0 context.Canceled rfl (by decide)
    (by intro i hi; interval_cases i; decide) (by intro i hi; exact absurd hi (Nat.not_lt_zero i)) rfl
  have ha := cancel_during_backoff_returns_context_error.2 aloha.envCancelledInBackoff
    aloha.buildHealth aloha.healthRequest 0 context.Canceled rfl (by decide)
    (by intro i hi; interval_cases i; rfl) (by intro i hi; interval_cases i; decide)
    (by intro i hi; exact absurd hi (Nat.not_lt_zero i)) rfl
  exact ⟨hs.1, hs.2.1, ha.1, ha.2.1⟩

/-- Claim C5. For every attempt `k` of `Run` that is reached (the attempts before it failed
transiently and their backoffs completed) and in which the remote command exited with a
non-zero code `c`, `Run` returns at once: the result holds the captured stdout and stderr of
that attempt and `ExitCode = c`, the error text is "ssh command failed (exit c)", and
`cmd.Run()` of attempt `k` is the last effect (no retry, no sleep after it). -/
theorem remote_exit_returns_at_once (env : sshx.Env) (cfg : config.Config)
    (remoteCommand sshPath : String) (k : Nat) (e : GoError) (c : Int)
    (hlp : env.lookPath = Except.ok sshPath) (hk : k < 3)
    (hr : ∀ i, i < k → sshx.retryable env.lowerTable (env.cmdRun i) = true)
    (hw : ∀ i, i < k → env.wake i = Wake.timer)
    (he : (env.cmdRun k).runErr = some e) (hc : e.exitCode = some c) (_hne : c ≠ 0) :
    (sshx.Run env cfg remoteCommand).1 =
      ({ Stdout := (env.cmdRun k).stdout, Stderr := (env.cmdRun k).stderr, ExitCode := c },
        some (Errorf ("ssh command failed (exit " ++ toString c ++ ")"))) ∧
    sshx.attempts (sshx.Run env cfg remoteCommand).2 = k + 1 ∧
    sshx.sleeps (sshx.Run env cfg remoteCommand).2 = k ∧
    (sshx.Run env cfg remoteCommand).2.getLast? =
      some (sshx.Event.cmdRun k sshPath (sshx.sshArgs cfg remoteCommand)) := by
  have stop : ∀ remaining,
      sshx.runLoop env sshPath (sshx.sshArgs cfg remoteCommand) (remaining + 1) k =
      ((({ Stdout := (env.cmdRun k).stdout, Stderr := (env.cmdRun k).stderr,
           ExitCode := c } : sshx.Result),
        some (Errorf ("ssh command failed (exit " ++ toString c ++ ")"))),
        [sshx.Event.cmdRun k sshPath (sshx.sshArgs cfg remoteCommand)]) := by
    intro remaining
    simp [sshx.runLoop, he, hc]
  simp only [sshx.Run, hlp, sshx.maxAttempts]
  interval_cases k
  · rw [stop]
    simp [sshx.attempts, sshx.sleeps]
  · rw [sshx.runLoop_retry env _ _ 2 0 (by decide) (hr 0 (by decide)) (hw 0 (by decide)), stop]
    simp [sshx.attempts, sshx.sleeps]
  · rw [sshx.runLoop_retry env _ _ 2 0 (by decide) (hr 0 (by decide)) (hw 0 (by decide)),
      sshx.runLoop_retry env _ _ 1 1 (by decide) (hr 1 (by decide)) (hw 1 (by decide)), stop]
    simp [sshx.attempts, sshx.sleeps]

/-- Claim C5 at `sshx.envExit127`, whose second attempt exits with 127. -/
theorem remote_exit_returns_at_once_witness :
    (sshx.Run sshx.envExit127 config.defaultConfig "frobnicate").1 =
      ({ Stdout := "partial", Stderr := "command not found", ExitCode := 127 },
        some (Errorf "ssh command failed (exit 127)")) ∧
    sshx.attempts (sshx.Run sshx.envExit127 config.defaultConfig "frobnicate").2 = 2 ∧
    sshx.sleeps (sshx.Run sshx.envExit127 config.defaultConfig "frobnicate").2 = 1 := by
  have h := remote_exit_returns_at_once sshx.envExit127 config.defaultConfig "frobnicate"
    "/usr/bin/ssh" 1 (sshx.exitError 127) 127 rfl (by decide)
    (by intro i hi; interval_cases i; decide) (by intro i _; rfl) rfl rfl (by decide)
  exact ⟨h.1, h.2.1, h.2.2.1⟩

/-- Claim C6 at its failing input. When `exec.LookPath("ssh")` fails, `Run` returns the zero
`Result` with the error "ssh not found in PATH": the exit code is `0`, not `-1`, although the
error is non-nil. -/
theorem run_without_ssh_returns_exit_code_zero :
    sshx.Run sshx.envNoSSH config.defaultConfig "echo SSH_OK" =
      (({ Stdout := "", Stderr := "", ExitCode := 0 }, some (Errorf "ssh not found in PATH")),
        [sshx.Event.lookPath]) ∧
    (sshx.Run sshx.envNoSSH config.defaultConfig "echo SSH_OK").1.2 ≠ none ∧
    (sshx.Run sshx.envNoSSH config.defaultConfig "echo SSH_OK").1.1.ExitCode = 0 ∧
    (sshx.Run sshx.envNoSSH config.defaultConfig "echo SSH_OK").1.1.ExitCode ≠ -1 := by
  decide

/-- Exit codes of the loop of `Run`: an error comes with `-1` or with the code of a remote exit. -/
theorem runLoop_error_exit_code (env : sshx.Env) (sshPath : String) (args : List String) :
    ∀ (remaining attempt : Nat), attempt + remaining = 3 → 0 < remaining →
      (sshx.runLoop env sshPath args remaining attempt).1.2 ≠ none →
      (sshx.runLoop env sshPath args remaining attempt).1.1.ExitCode = -1 ∨
      ∃ k e, k < 3 ∧ (env.cmdRun k).runErr = some e ∧
        e.exitCode = some (sshx.runLoop env sshPath args remaining attempt).1.1.ExitCode := by
  intro remaining
  induction remaining with
  | zero => intro attempt _ h; exact absurd h (Nat.lt_irrefl 0)
  | succ n ih =>
    intro attempt hsum _ herr
    cases hr : (env.cmdRun attempt).runErr with
    | none => simp [sshx.runLoop, hr] at herr
    | some e =>
      cases hx : e.exitCode with
      | some code =>
        right
        refine ⟨attempt, e, by omega, hr, ?_⟩
        simp [sshx.runLoop, hr, hx]
      | none =>
        by_cases hlast : attempt = sshx.maxAttempts - 1 ∨
            ¬ sshx.shouldRetryConnectionError env.lowerTable e = true
        · left
          simp only [sshx.runLoop, hr, hx]
          rw [if_pos hlast]
        · cases hw : sshx.sleepContext (env.wake attempt) with
          | some err =>
            left
            simp only [sshx.runLoop, hr, hx]
            rw [if_neg hlast]
            simp only [hw]
          | none =>
            have hstep : (sshx.runLoop env sshPath args (n + 1) attempt).1 =
                (sshx.runLoop env sshPath args n (attempt + 1)).1 := by
              simp only [sshx.runLoop, hr, hx]
              rw [if_neg hlast]
              simp only [hw]
            rw [hstep] at herr ⊢
            have hne : attempt ≠ 2 := fun h => hlast (Or.inl (by simp [sshx.maxAttempts, h]))
            exact ih (attempt + 1) (by omega) (by omega) herr

/-- Exit codes of `Run` on every path but the failed look-up. -/
theorem run_error_exit_code_after_lookPath (env : sshx.Env) (cfg : config.Config)
    (remoteCommand sshPath : String) (hlp : env.lookPath = Except.ok sshPath)
    (herr : (sshx.Run env cfg remoteCommand).1.2 ≠ none) :
    (sshx.Run env cfg remoteCommand).1.1.ExitCode = -1 ∨
    ∃ k e, k < 3 ∧ (env.cmdRun k).runErr = some e ∧
      e.exitCode = some (sshx.Run env cfg remoteCommand).1.1.ExitCode := by
  simp only [sshx.Run, hlp] at herr ⊢
  exact runLoop_error_exit_code env sshPath _ sshx.maxAttempts 0 (by decide) (by decide) herr

/-! # Lemmas on the supervisor pass -/

namespace supervisor

theorem specVerdict_ok_iff (c : checkEntry) :
    specVerdict c = DepState.OK ↔
      (c.check 0 = none ∨ (c.remediate ≠ none ∧ c.check 1 = none)) := by
  unfold specVerdict
  cases h0 : c.check 0 <;> cases hr : c.remediate <;> cases h1 : c.check 1 <;>
    simp [specStep, h0, hr, h1]

theorem specVerdict_cases (c : checkEntry) :
    specVerdict c = DepState.OK ∨ specVerdict c = DepState.FAILED := by
  unfold specVerdict
  cases h0 : c.check 0 <;> cases hr : c.remediate <;> cases h1 : c.check 1 <;>
    simp [specStep, h0, hr, h1]

theorem invocations_append (a b : List Event) :
    invocations (a ++ b) = invocations a ++ invocations b := by
  simp [invocations]

theorem invocations_debugLog (debug : Bool) (op msg : String) :
    invocations (debugLog debug op msg) = [] := by
  cases debug <;> simp [invocations, debugLog]

/-- The result of the loop is the result of the fail-fast protocol. -/
theorem runChecks_result (debug : Bool) (cs : List checkEntry) :
    (runChecks debug cs).1 = specResult cs := by
  induction cs with
  | nil => rfl
  | cons c rest ih =>
    unfold specResult at ih ⊢
    cases h0 : c.check 0 <;> cases hr : c.remediate <;> cases h1 : c.check 1 <;>
      simp [runChecks, specVerdict, specStep, h0, hr, h1, ih, List.find?_cons]

/-- The calls of the loop are the calls of the fail-fast protocol, in the same order. -/
theorem runChecks_invocations (debug : Bool) (cs : List checkEntry) :
    invocations (runChecks debug cs).2 = specPassCalls cs := by
  induction cs with
  | nil => rfl
  | cons c rest ih =>
    cases h0 : c.check 0 <;> cases hr : c.remediate <;> cases h1 : c.check 1 <;>
      cases debug <;>
      simp [runChecks, specPassCalls, specCalls, specVerdict, specStep, h0, hr, h1, ← ih,
        invocations, debugLog] <;>
      (try (split <;> simp))

/-- Dependencies that end `OK` are passed over. -/
theorem runChecks_append_ok (debug : Bool) (pre rest : List checkEntry)
    (hpre : ∀ p, p ∈ pre → specVerdict p = DepState.OK) :
    runChecks debug (pre ++ rest) =
      ((runChecks debug rest).1, (runChecks debug pre).2 ++ (runChecks debug rest).2) := by
  induction pre with
  | nil => simp [runChecks]
  | cons c pre ih =>
    have hc := (specVerdict_ok_iff c).1 (hpre c (List.mem_cons_self c pre))
    have ih := ih (fun p hp => hpre p (List.mem_cons_of_mem c hp))
    cases h0 : c.check 0 with
    | none => simp [runChecks, h0, ih]
    | some e =>
      rcases hc with hc | ⟨hr, h1⟩
      · rw [h0] at hc; cases hc
      · cases hrem : c.remediate with
        | none => exact absurd hrem hr
        | some rem => simp [runChecks, h0, hrem, h1, ih]

theorem specPassCalls_append_ok (pre rest : List checkEntry)
    (hpre : ∀ p, p ∈ pre → specVerdict p = DepState.OK) :
    specPassCalls (pre ++ rest) = specPassCalls pre ++ specPassCalls rest := by
  induction pre with
  | nil => simp [specPassCalls]
  | cons c pre ih =>
    have hc := hpre c (List.mem_cons_self c pre)
    have ih := ih (fun p hp => hpre p (List.mem_cons_of_mem c hp))
    simp [specPassCalls, hc, ih]

/-- Every call of the protocol is a call for one of the listed dependencies. -/
theorem specPassCalls_names (cs : List checkEntry) (ev : Event) (h : ev ∈ specPassCalls cs) :
    ∃ c, c ∈ cs ∧ (ev = Event.check c.name ∨ ev = Event.remediate c.name) := by
  induction cs with
  | nil => simp [specPassCalls] at h
  | cons c rest ih =>
    simp only [specPassCalls, List.mem_append] at h
    rcases h with h | h
    · refine ⟨c, List.mem_cons_self c rest, ?_⟩
      unfold specCalls at h
      split at h <;> simp at h <;> tauto
    · split at h
      · obtain ⟨d, hd, hev⟩ := ih h
        exact ⟨d, List.mem_cons_of_mem c hd, hev⟩
      · simp at h

theorem count_check_specPassCalls_eq_zero (cs : List checkEntry) (n : String)
    (hn : n ∉ cs.map checkEntry.name) :
    (specPassCalls cs).count (Event.check n) = 0 ∧
    (specPassCalls cs).count (Event.remediate n) = 0 := by
  constructor <;>
  · rw [List.count_eq_zero]
    intro hmem
    obtain ⟨c, hc, hev⟩ := specPassCalls_names cs _ hmem
    apply hn
    rcases hev with hev | hev <;> simp at hev
    all_goals exact hev ▸ List.mem_map_of_mem _ hc

theorem count_trace_eq (evs : List Event) (n : String) :
    evs.count (Event.check n) = (invocations evs).count (Event.check n) ∧
    evs.count (Event.remediate n) = (invocations evs).count (Event.remediate n) := by
  constructor <;>
  · unfold invocations
    rw [List.count_filter]
    rfl

/-- The names in the slice `checks` are pairwise distinct. -/
theorem checks_names_split (r : supervisorRunner) (pre post : List checkEntry) (c : checkEntry)
    (h : checks r = pre ++ c :: post) :
    c.name ∉ pre.map checkEntry.name ∧ c.name ∉ post.map checkEntry.name ∧
    (∀ q, q ∈ post → q.name ∉ (pre ++ [c]).map checkEntry.name) := by
  have hn : ((checks r).map checkEntry.name).Nodup := by
    simp [checks]
  rw [h] at hn
  simp only [List.map_append, List.map_cons] at hn
  rw [List.nodup_append] at hn
  obtain ⟨_, h2, h3⟩ := hn
  rw [List.nodup_cons] at h2
  refine ⟨?_, h2.1, ?_⟩
  · intro hmem
    exact h3 hmem (List.mem_cons_self _ _)
  · intro q hq hmem
    simp only [List.map_append, List.map_cons, List.map_nil, List.mem_append,
      List.mem_singleton] at hmem
    rcases hmem with hmem | hmem
    · exact h3 hmem (List.mem_cons_of_mem _ (List.mem_map_of_mem _ hq))
    · exact h2.1 (hmem ▸ List.mem_map_of_mem _ hq)

theorem runOnce_eq_runChecks (getenv : String → String) (r : supervisorRunner)
    (h : getenv supervisorFailpointEnv = "") :
    runOnce getenv r = runChecks r.debug (checks r) := by
  have : strings.TrimSpace "" = "" := rfl
  simp [runOnce, h, this]

theorem count_specCalls (c : checkEntry) (n : String) :
    (specCalls c).count (Event.check n) ≤ 2 ∧
    (specCalls c).count (Event.remediate n) ≤ 1 ∧
    (c.check 0 = none → (specCalls c).count (Event.remediate n) = 0) ∧
    (n ≠ c.name → (specCalls c).count (Event.check n) = 0 ∧
      (specCalls c).count (Event.remediate n) = 0) := by
  unfold specCalls
  refine ⟨?_, ?_, ?_, ?_⟩
  · split <;> simp [List.count_cons] <;> split <;> omega
  · split <;> simp [List.count_cons]
    split <;> omega
  · intro h0
    simp [h0]
  · intro hne
    have hne' : ¬ c.name = n := fun h => hne h.symm
    split <;> simp [List.count_cons, hne']

/-- Per dependency the protocol makes at most two checks and one remediation, and no
remediation after a passing initial check. -/
theorem count_specPassCalls_le (cs : List checkEntry) (hn : (cs.map checkEntry.name).Nodup)
    (n : String) :
    (specPassCalls cs).count (Event.check n) ≤ 2 ∧
    (specPassCalls cs).count (Event.remediate n) ≤ 1 ∧
    (∀ c, c ∈ cs → c.name = n → c.check 0 = none →
      (specPassCalls cs).count (Event.remediate n) = 0) := by
  induction cs with
  | nil => simp [specPassCalls]
  | cons c rest ih =>
    simp only [List.map_cons, List.nodup_cons] at hn
    obtain ⟨ih1, ih2, ih3⟩ := ih hn.2
    obtain ⟨k1, k2, k3, k4⟩ := count_specCalls c n
    by_cases hname : n = c.name
    · have hz := count_check_specPassCalls_eq_zero rest n (hname ▸ hn.1)
      have hrest1 : (if specVerdict c = DepState.OK then specPassCalls rest else []).count
          (Event.check n) = 0 := by split <;> simp [hz.1]
      have hrest2 : (if specVerdict c = DepState.OK then specPassCalls rest else []).count
          (Event.remediate n) = 0 := by split <;> simp [hz.2]
      simp only [specPassCalls, List.count_append, hrest1, hrest2, Nat.add_zero]
      refine ⟨k1, k2, ?_⟩
      intro d hd hdn h0
      rcases List.mem_cons.1 hd with hd | hd
      · subst hd; exact k3 h0
      · exact absurd (List.mem_map_of_mem checkEntry.name hd) (by rw [hdn, hname]; exact hn.1)
    · obtain ⟨z1, z2⟩ := k4 hname
      simp only [specPassCalls, List.count_append, z1, z2, Nat.zero_add]
      refine ⟨?_, ?_, ?_⟩
      · split
        · exact ih1
        · simp
      · split
        · exact ih2
        · simp
      · intro d hd hdn h0
        rcases List.mem_cons.1 hd with hd | hd
        · subst hd; exact absurd hdn.symm hname
        · split
          · exact ih3 d hd hdn h0
          · simp

theorem checks_names_nodup (r : supervisorRunner) :
    ((checks r).map checkEntry.name).Nodup := by
  simp [checks]

theorem specResult_err_none_iff (cs : List checkEntry) :
    (specResult cs).err = none ↔ ∀ c, c ∈ cs → specVerdict c = DepState.OK := by
  unfold specResult
  cases hf : cs.find? (fun c => decide (specVerdict c ≠ DepState.OK)) with
  | none =>
    rw [List.find?_eq_none] at hf
    simp only [true_iff]
    intro c hc
    simpa using hf c hc
  | some d =>
    have hmem := List.mem_of_find?_eq_some hf
    have hbad := List.find?_some hf
    simp only [decide_eq_true_eq] at hbad
    simp only [reduceCtorEq, false_iff]
    intro hall
    exact hbad (hall d hmem)

theorem specResult_ok (cs : List checkEntry)
    (h : ∀ c, c ∈ cs → specVerdict c = DepState.OK) :
    specResult cs = { exitCode := 0, err := none } := by
  unfold specResult
  have hf : cs.find? (fun c => decide (specVerdict c ≠ DepState.OK)) = none := by
    rw [List.find?_eq_none]
    intro c hc
    simp [h c hc]
  rw [hf]

theorem specPassCalls_singleton (c : checkEntry) : specPassCalls [c] = specCalls c := by
  simp [specPassCalls]

theorem mem_invocations (evs : List Event) (n : String) :
    (Event.check n ∈ evs → Event.check n ∈ invocations evs) ∧
    (Event.remediate n ∈ evs → Event.remediate n ∈ invocations evs) := by
  constructor <;> intro h <;> simp [invocations, h]

end supervisor

/-! # The supervisor pass: claims C7 to C10 -/

open supervisor

/-- Claim C7. Within a pass (failpoint unset), for a dependency `c` of the slice `checks` that
is reached (every dependency before it ends `OK`) and has a remediation, the outcomes
check fails, remediation reports an error, recheck passes leave the dependency `OK`: `runOnce`
logs the two errors, does not return on `c`, and goes on to the next dependency, so that its
result is that of the dependencies after `c`, and is success when all of those end `OK`. -/
theorem remediation_error_does_not_override_recheck (getenv : String → String)
    (r : supervisorRunner) (pre post : List checkEntry) (c : checkEntry)
    (rem : Nat → Option GoError) (e1 e2 : GoError)
    (hfp : getenv supervisorFailpointEnv = "")
    (hsplit : checks r = pre ++ c :: post)
    (hpre : ∀ p, p ∈ pre → specVerdict p = DepState.OK)
    (hrem : c.remediate = some rem)
    (h0 : c.check 0 = some e1) (hr : rem 0 = some e2) (h1 : c.check 1 = none) :
    specVerdict c = DepState.OK ∧
    (runOnce getenv r).1 = (runChecks r.debug post).1 ∧
    (runOnce getenv r).2 =
      (runChecks r.debug pre).2 ++
      (debugLog r.debug "check" ("checking " ++ c.name) ++
        [Event.check c.name,
         Event.logError "check" (c.name ++ " failed") e1,
         Event.remediate c.name,
         Event.logError "remediate" (c.name ++ " remediation failed") e2,
         Event.check c.name] ++
        debugLog r.debug "check" (c.name ++ " ok after remediation")) ++
      (runChecks r.debug post).2 ∧
    ((∀ q, q ∈ post → specVerdict q = DepState.OK) →
      (runOnce getenv r).1 = { exitCode := 0, err := none }) := by
  have hv : specVerdict c = DepState.OK :=
    (specVerdict_ok_iff c).2 (Or.inr ⟨by simp [hrem], h1⟩)
  have hrun : runOnce getenv r =
      ((runChecks r.debug post).1,
        (runChecks r.debug pre).2 ++
        (debugLog r.debug "check" ("checking " ++ c.name) ++
          [Event.check c.name,
           Event.logError "check" (c.name ++ " failed") e1,
           Event.remediate c.name,
           Event.logError "remediate" (c.name ++ " remediation failed") e2,
           Event.check c.name] ++
          debugLog r.debug "check" (c.name ++ " ok after remediation")) ++
        (runChecks r.debug post).2) := by
    rw [runOnce_eq_runChecks getenv r hfp, hsplit, runChecks_append_ok r.debug pre _ hpre]
    simp [runChecks, h0, hrem, hr, h1]
  refine ⟨hv, by rw [hrun], by rw [hrun], ?_⟩
  intro hpost
  rw [hrun]
  have hres := runChecks_result r.debug post
  have hnone : post.find? (fun c => decide (specVerdict c ≠ DepState.OK)) = none := by
    rw [List.find?_eq_none]
    intro q hq
    simp [hpost q hq]
  simp only [hres, specResult, hnone]

/-- Claim C7 at `runnerRecovered`. -/
theorem remediation_error_does_not_override_recheck_witness :
    (runOnce noEnv runnerRecovered).1 = { exitCode := 0, err := none } :=
  (remediation_error_does_not_override_recheck noEnv runnerRecovered
    [{ name := "ssh", exitCode := supervisorExitFailure,
       check := runnerRecovered.checkSSH, remediate := none }]
    ((checks runnerRecovered).drop 2)
    { name := "aloha_server", exitCode := supervisorExitDependency,
      check := runnerRecovered.checkAlohaServer,
      remediate := some runnerRecovered.remediateAlohaServer }
    runnerRecovered.remediateAlohaServer
    (Errorf "connection refused") (Errorf "ssh command failed (exit 1)")
    rfl rfl (by intro p hp; simp at hp; subst hp; rfl) rfl rfl rfl rfl).2.2.2
    (by
      intro q hq
      simp [checks] at hq
      rcases hq with hq | hq | hq <;> subst hq <;> rfl)

/-- Claim C8. Within a pass (failpoint unset), for a dependency `c` of the slice `checks`
that is reached and has no remediation registered (these are ssh, with exit code 1, and
hatchet, with exit code 3), a failing initial check makes `runOnce` return at once: the result
is the error "<name> check failed" with the exit code of `c`, the logged failure of the check
is the last effect, the check of `c` was called once and no remediation was called. -/
theorem unremediated_failure_fails_at_once (getenv : String → String)
    (r : supervisorRunner) (pre post : List checkEntry) (c : checkEntry) (e : GoError)
    (hfp : getenv supervisorFailpointEnv = "")
    (hsplit : checks r = pre ++ c :: post)
    (hpre : ∀ p, p ∈ pre → specVerdict p = DepState.OK)
    (hrem : c.remediate = none)
    (h0 : c.check 0 = some e) :
    ((c.name = "ssh" ∧ c.exitCode = 1) ∨ (c.name = "hatchet" ∧ c.exitCode = 3)) ∧
    (runOnce getenv r).1 =
      { exitCode := c.exitCode, err := some (Errorf (c.name ++ " check failed")) } ∧
    (runOnce getenv r).2 =
      (runChecks r.debug pre).2 ++
      (debugLog r.debug "check" ("checking " ++ c.name) ++
        [Event.check c.name, Event.logError "check" (c.name ++ " failed") e]) ∧
    (runOnce getenv r).2.count (Event.check c.name) = 1 ∧
    (runOnce getenv r).2.count (Event.remediate c.name) = 0 := by
  have hrun : runOnce getenv r =
      (({ exitCode := c.exitCode, err := some (Errorf (c.name ++ " check failed")) } :
          supervisorResult),
        (runChecks r.debug pre).2 ++
        (debugLog r.debug "check" ("checking " ++ c.name) ++
          [Event.check c.name, Event.logError "check" (c.name ++ " failed") e])) := by
    rw [runOnce_eq_runChecks getenv r hfp, hsplit, runChecks_append_ok r.debug pre _ hpre]
    simp [runChecks, h0, hrem]
  obtain ⟨hnpre, -, -⟩ := checks_names_split r pre post c hsplit
  have hzero := count_check_specPassCalls_eq_zero pre c.name hnpre
  refine ⟨?_, by rw [hrun], by rw [hrun], ?_, ?_⟩
  · have hmem : c ∈ checks r := by rw [hsplit]; simp
    simp only [checks, List.mem_cons, List.mem_singleton, List.not_mem_nil, or_false] at hmem
    rcases hmem with h | h | h | h | h <;> subst h <;>
      simp [supervisorExitFailure, supervisorExitDependency] at hrem ⊢
  · rw [(count_trace_eq _ c.name).1, hrun]
    simp only [invocations_append, invocations_debugLog, runChecks_invocations,
      List.count_append, hzero.1]
    simp [invocations]
  · rw [(count_trace_eq _ c.name).2, hrun]
    simp only [invocations_append, invocations_debugLog, runChecks_invocations,
      List.count_append, hzero.2]
    simp [invocations]

/-- Claim C8 at `runnerHatchetDown`. -/
theorem unremediated_failure_fails_at_once_witness :
    (runOnce noEnv runnerHatchetDown).1 =
      { exitCode := 3, err := some (Errorf "hatchet check failed") } ∧
    (runOnce noEnv runnerHatchetDown).2.count (Event.check "hatchet") = 1 := by
  have h := unremediated_failure_fails_at_once noEnv runnerHatchetDown
    ((checks runnerHatchetDown).take 3) ((checks runnerHatchetDown).drop 4)
    { name := "hatchet", exitCode := supervisorExitDependency,
      check := runnerHatchetDown.checkHatchet, remediate := none }
    (Errorf "hatchet health /live returned http 503")
    rfl rfl
    (by
      intro p hp
      simp [checks] at hp
      rcases hp with hp | hp | hp <;> subst hp <;> rfl)
    rfl rfl
  exact ⟨h.2.1, h.2.2.2.1⟩

/-- Claim C9. Within a pass (failpoint unset): for a dependency `c` that is reached, has a
remediation registered and whose initial check fails, the remediation is called exactly once,
whatever it returns, between the initial check and exactly one recheck; a failing recheck
ends the pass with the failure of `c`, the logged recheck failure being the last effect.
For every dependency of the slice, the check is called at most twice and the remediation at
most once in the pass, and the remediation is not called when the initial check passes. -/
theorem remediation_once_then_one_recheck (getenv : String → String) (r : supervisorRunner)
    (hfp : getenv supervisorFailpointEnv = "") :
    (∀ (pre post : List checkEntry) (c : checkEntry) (rem : Nat → Option GoError) (e : GoError),
      checks r = pre ++ c :: post →
      (∀ p, p ∈ pre → specVerdict p = DepState.OK) →
      c.remediate = some rem → c.check 0 = some e →
      (runOnce getenv r).2.count (Event.remediate c.name) = 1 ∧
      (runOnce getenv r).2.count (Event.check c.name) = 2 ∧
      invocations (runOnce getenv r).2 =
        specPassCalls pre ++
        [Event.check c.name, Event.remediate c.name, Event.check c.name] ++
        (if c.check 1 = none then specPassCalls post else []) ∧
      (∀ e2, c.check 1 = some e2 →
        (runOnce getenv r).1 =
          { exitCode := c.exitCode, err := some (Errorf (c.name ++ " check failed")) } ∧
        (runOnce getenv r).2.getLast? =
          some (Event.logError "check" (c.name ++ " recheck failed") e2))) ∧
    (∀ c, c ∈ checks r →
      (runOnce getenv r).2.count (Event.check c.name) ≤ 2 ∧
      (runOnce getenv r).2.count (Event.remediate c.name) ≤ 1 ∧
      (c.check 0 = none → (runOnce getenv r).2.count (Event.remediate c.name) = 0)) := by
  constructor
  · intro pre post c rem e hsplit hpre hrem h0
    obtain ⟨hnpre, hnpost, -⟩ := checks_names_split r pre post c hsplit
    have zpre := count_check_specPassCalls_eq_zero pre c.name hnpre
    have zpost := count_check_specPassCalls_eq_zero post c.name hnpost
    have hinv : invocations (runOnce getenv r).2 =
        specPassCalls pre ++
        [Event.check c.name, Event.remediate c.name, Event.check c.name] ++
        (if c.check 1 = none then specPassCalls post else []) := by
      rw [runOnce_eq_runChecks getenv r hfp, runChecks_invocations, hsplit,
        specPassCalls_append_ok pre _ hpre]
      have hv : (specVerdict c = DepState.OK) ↔ c.check 1 = none := by
        rw [specVerdict_ok_iff]
        simp [h0, hrem]
      simp [specPassCalls, specCalls, h0, hrem, hv]
    refine ⟨?_, ?_, hinv, ?_⟩
    · rw [(count_trace_eq _ c.name).2, hinv]
      simp only [List.count_append, zpre.2]
      split <;> simp [zpost.2]
    · rw [(count_trace_eq _ c.name).1, hinv]
      simp only [List.count_append, zpre.1]
      split <;> simp [zpost.1]
    · intro e2 h1
      rw [runOnce_eq_runChecks getenv r hfp, hsplit, runChecks_append_ok r.debug pre _ hpre]
      cases hr : rem 0 <;> simp [runChecks, h0, hrem, h1, hr]
  · intro c hc
    obtain ⟨b1, b2, b3⟩ := count_specPassCalls_le (checks r) (checks_names_nodup r) c.name
    rw [(count_trace_eq _ c.name).1, (count_trace_eq _ c.name).2,
      runOnce_eq_runChecks getenv r hfp, runChecks_invocations]
    exact ⟨b1, b2, fun h0 => b3 c hc rfl h0⟩

/-- Claim C9 at `runnerPlaywrightDown`. -/
theorem remediation_once_then_one_recheck_witness :
    (runOnce noEnv runnerPlaywrightDown).2.count (Event.remediate "playwright") = 1 ∧
    (runOnce noEnv runnerPlaywrightDown).2.count (Event.check "playwright") = 2 ∧
    (runOnce noEnv runnerPlaywrightDown).2.count (Event.remediate "aloha_server") = 0 := by
  have h := remediation_once_then_one_recheck noEnv runnerPlaywrightDown rfl
  have h1 := h.1 ((checks runnerPlaywrightDown).take 4) []
    { name := "playwright", exitCode := supervisorExitDependency,
      check := runnerPlaywrightDown.checkPlaywright,
      remediate := some runnerPlaywrightDown.remediatePlaywright }
    runnerPlaywrightDown.remediatePlaywright (Errorf "playwright port is not listening")
    rfl
    (by
      intro p hp
      simp [checks] at hp
      rcases hp with hp | hp | hp | hp <;> subst hp <;> rfl)
    rfl rfl
  have h2 := h.2
    { name := "aloha_server", exitCode := supervisorExitDependency,
      check := runnerPlaywrightDown.checkAlohaServer,
      remediate := some runnerPlaywrightDown.remediateAlohaServer }
    (by simp [checks])
  exact ⟨h1.1, h1.2.1, h2.2.2 rfl⟩

/-- Claim C10. With the failpoint unset, for every assignment of outcomes to the probes and
remediations of the runner: the slice `checks` lists ssh, aloha_server, aloha_client, hatchet,
playwright with exit codes 1, 3, 3, 3, 3; the probes and remediations called by `runOnce` are
those of the fail-fast protocol, in this order; `runOnce` returns success exactly when every
dependency ends `OK`; and otherwise, for the first dependency `c` in this order that ends
`FAILED`, it returns "<name of c> check failed" with the exit code of `c`, having called the
probes and remediations of the dependencies before `c` and of `c` only, none of a later one. -/
theorem pass_is_fail_fast_in_declared_order (getenv : String → String) (r : supervisorRunner)
    (hfp : getenv supervisorFailpointEnv = "") :
    (checks r).map (fun c => (c.name, c.exitCode)) =
      [("ssh", 1), ("aloha_server", 3), ("aloha_client", 3), ("hatchet", 3),
       ("playwright", 3)] ∧
    invocations (runOnce getenv r).2 = specPassCalls (checks r) ∧
    ((runOnce getenv r).1.err = none ↔ ∀ c, c ∈ checks r → specVerdict c = DepState.OK) ∧
    ((∀ c, c ∈ checks r → specVerdict c = DepState.OK) →
      (runOnce getenv r).1 = { exitCode := 0, err := none }) ∧
    (∀ (pre post : List checkEntry) (c : checkEntry),
      checks r = pre ++ c :: post →
      (∀ p, p ∈ pre → specVerdict p = DepState.OK) →
      specVerdict c = DepState.FAILED →
      (runOnce getenv r).1 =
        { exitCode := c.exitCode, err := some (Errorf (c.name ++ " check failed")) } ∧
      invocations (runOnce getenv r).2 = specPassCalls pre ++ specCalls c ∧
      ∀ q, q ∈ post →
        Event.check q.name ∉ (runOnce getenv r).2 ∧
        Event.remediate q.name ∉ (runOnce getenv r).2) := by
  rw [runOnce_eq_runChecks getenv r hfp]
  refine ⟨by simp [checks, supervisorExitFailure, supervisorExitDependency],
    runChecks_invocations _ _, ?_, ?_, ?_⟩
  · rw [runChecks_result]
    exact specResult_err_none_iff _
  · intro hall
    rw [runChecks_result]
    exact specResult_ok _ hall
  · intro pre post c hsplit hpre hfail
    have hnot : specVerdict c ≠ DepState.OK := by rw [hfail]; decide
    have hinv : invocations (runChecks r.debug (checks r)).2 = specPassCalls pre ++ specCalls c := by
      rw [runChecks_invocations, hsplit, specPassCalls_append_ok pre _ hpre]
      simp [specPassCalls, hnot]
    refine ⟨?_, hinv, ?_⟩
    · rw [hsplit, runChecks_append_ok r.debug pre _ hpre]
      simp only [runChecks_result, specResult, List.find?_cons, hnot, ne_eq, not_false_eq_true,
        decide_True]
    · intro q hq
      obtain ⟨-, -, hnames⟩ := checks_names_split r pre post c hsplit
      have hcalls : invocations (runChecks r.debug (checks r)).2 = specPassCalls (pre ++ [c]) := by
        rw [hinv, specPassCalls_append_ok pre _ hpre, specPassCalls_singleton]
      have key : ∀ ev, (ev = Event.check q.name ∨ ev = Event.remediate q.name) →
          ev ∉ invocations (runChecks r.debug (checks r)).2 := by
        intro ev hev hmem
        rw [hcalls] at hmem
        obtain ⟨d, hd, hname⟩ := specPassCalls_names _ _ hmem
        apply hnames q hq
        have : q.name = d.name := by
          rcases hev with hev | hev <;> rcases hname with hname | hname <;>
            subst hev <;> simp at hname <;> exact hname
        rw [this]
        exact List.mem_map_of_mem _ hd
      constructor
      · intro hmem
        exact key _ (Or.inl rfl) ((mem_invocations _ _).1 hmem)
      · intro hmem
        exact key _ (Or.inr rfl) ((mem_invocations _ _).2 hmem)

/-- Claim C10 at `runnerHealthy` and at `runnerSSHDown`. -/
theorem pass_is_fail_fast_in_declared_order_witness :
    (runOnce noEnv runnerHealthy).1 = { exitCode := 0, err := none } ∧
    (runOnce noEnv runnerSSHDown).1 =
      { exitCode := 1, err := some (Errorf "ssh check failed") } ∧
    Event.check "aloha_server" ∉ (runOnce noEnv runnerSSHDown).2 := by
  have h1 := (pass_is_fail_fast_in_declared_order noEnv runnerHealthy rfl).2.2.2.1
    (by
      intro c hc
      simp [checks] at hc
      rcases hc with hc | hc | hc | hc | hc <;> subst hc <;> rfl)
  have h2 := (pass_is_fail_fast_in_declared_order noEnv runnerSSHDown rfl).2.2.2.2
    [] ((checks runnerSSHDown).drop 1)
    { name := "ssh", exitCode := supervisorExitFailure,
      check := runnerSSHDown.checkSSH, remediate := none }
    rfl (by intro p hp; simp at hp) rfl
  refine ⟨h1, h2.1, ?_⟩
  exact (h2.2.2
    { name := "aloha_server", exitCode := supervisorExitDependency,
      check := runnerSSHDown.checkAlohaServer,
      remediate := some runnerSSHDown.remediateAlohaServer }
    (by simp [checks])).1

/-! # Lemmas on the circuit-breaker loop and on the job commands -/

namespace supervisor

/-- The open duration of the circuit, in nanoseconds. -/
theorem openDuration_toNat : supervisorCircuitOpenDuration.toNat = 60000000000 := by decide

/-- The outcomes of the wait for an open circuit. -/
theorem cooldown_cases (env : LoopEnv) (i now : Nat) (v : circuitVars) :
    (v.circuitOpenUntil ≤ now ∧ cooldown env i now v = (Except.ok (now, v), [])) ∨
    (now < v.circuitOpenUntil ∧ ∃ wait : Int, wait = (v.circuitOpenUntil : Int) - (now : Int) ∧
      ((∃ ctxErr, env.cooldownWake i = Wake.ctxDone ctxErr ∧
          cooldown env i now v = (Except.error supervisorExitFailure,
            [LoopEvent.logWarn "circuit" "open", LoopEvent.sleep wait])) ∨
        (env.cooldownWake i = Wake.timer ∧ ∃ start, v.circuitOpenUntil ≤ start ∧
          cooldown env i now v = (Except.ok (start,
              { consecutiveFailures := 0, circuitOpenUntil := 0 }),
            [LoopEvent.logWarn "circuit" "open", LoopEvent.sleep wait])))) := by
  by_cases h : v.circuitOpenUntil ≤ now
  · left
    refine ⟨h, ?_⟩
    have hw : ¬ ((v.circuitOpenUntil : Int) - (now : Int) > 0) := by omega
    simp [cooldown, hw]
  · right
    refine ⟨by omega, _, rfl, ?_⟩
    have hw : (v.circuitOpenUntil : Int) - (now : Int) > 0 := by omega
    have hw' : ¬ ((v.circuitOpenUntil : Int) - (now : Int) ≤ 0) := by omega
    cases hk : env.cooldownWake i with
    | ctxDone ctxErr =>
      left
      exact ⟨ctxErr, rfl, by simp [cooldown, hw, sleepContext, hw', hk]⟩
    | timer =>
      right
      refine ⟨rfl, now + ((v.circuitOpenUntil : Int) - (now : Int)).toNat + env.cooldownLag i,
        by omega, by simp [cooldown, hw, sleepContext, hw', hk]⟩

/-- What follows a pass in loop mode. -/
theorem afterPass_loop (debug : Bool) (now : Nat) (v : circuitVars) (result : supervisorResult) :
    (result.err = none ∧ afterPass false debug now v result =
      (Except.ok { v with consecutiveFailures := 0 },
        loopDebugLog debug "run" "pass completed")) ∨
    (∃ err, result.err = some err ∧ v.consecutiveFailures + 1 < 3 ∧
      afterPass false debug now v result =
        (Except.ok { v with consecutiveFailures := v.consecutiveFailures + 1 },
          [LoopEvent.logError "run" "pass failed" err])) ∨
    (∃ err, result.err = some err ∧ 3 ≤ v.consecutiveFailures + 1 ∧
      afterPass false debug now v result =
        (Except.ok (circuitVars.mk (v.consecutiveFailures + 1) (now + 60000000000)),
          [LoopEvent.logError "run" "pass failed" err,
           LoopEvent.opened (now + 60000000000),
           LoopEvent.logWarn "circuit" "opened"])) := by
  cases he : result.err with
  | none =>
    left
    exact ⟨rfl, by simp [afterPass, he]⟩
  | some err =>
    right
    by_cases ht : 3 ≤ v.consecutiveFailures + 1
    · right
      refine ⟨err, rfl, ht, ?_⟩
      simp [afterPass, he, supervisorCircuitThreshold, ht, openDuration_toNat]
    · left
      refine ⟨err, rfl, by omega, ?_⟩
      simp [afterPass, he, supervisorCircuitThreshold, ht]

theorem opensAtThird_debugLog (env : LoopEnv) (k : Nat) (debug : Bool) (op msg : String)
    (l : List LoopEvent) :
    opensAtThird env k (loopDebugLog debug op msg ++ l) ↔ opensAtThird env k l := by
  cases debug <;> simp [loopDebugLog, opensAtThird]

/-- The loop opens the circuit at the third failed pass of a run and not before; `k` is the
length of the run of failed passes before the turn. -/
theorem superviseLoop_opensAtThird (env : LoopEnv) (debug : Bool) :
    ∀ (fuel turn now : Nat) (v : circuitVars) (k : Nat),
      v.consecutiveFailures ≤ k →
      (k < 3 → v.consecutiveFailures = k ∧ v.circuitOpenUntil ≤ now) →
      opensAtThird env k (superviseLoop env false debug fuel turn now v).2 := by
  intro fuel
  induction fuel with
  | zero => intro turn now v k _ _; simp [superviseLoop, opensAtThird]
  | succ fuel ih =>
    intro turn now v k hle hlow
    rw [superviseLoop]
    cases hc : env.ctxErr turn with
    | some e => simp [opensAtThird]
    | none =>
      simp only []
      rcases cooldown_cases env turn now v with ⟨hlt, hcool⟩ | ⟨hlt, wait, -, hcool⟩
      · -- no wait
        rw [hcool]
        simp only []
        rcases afterPass_loop debug (now + env.passDuration turn) v (passResult env debug turn)
          with ⟨he, ha⟩ | ⟨err, he, hthr, ha⟩ | ⟨err, he, hthr, ha⟩
        · rw [ha]
          simp only []
          cases hw : sleepContext supervisorLoopInterval (env.intervalWake turn) with
          | some e =>
            simp [opensAtThird, he, opensAtThird_debugLog]
          | none =>
            simp only [List.append_eq, List.nil_append, List.append_assoc, List.singleton_append, opensAtThird, he,
              Option.isNone_none, if_true, opensAtThird_debugLog]
            apply ih _ _ _ 0
            · simp
            · intro _; exact ⟨by simp, by simp; omega⟩
        · rw [ha]
          simp only []
          have hk2 : k + 1 ≠ 3 := by
            intro h3
            have := (hlow (by omega)).1
            omega
          cases hw : sleepContext supervisorLoopInterval (env.intervalWake turn) with
          | some e =>
            simp [opensAtThird, he, hk2]
          | none =>
            simp only [List.append_eq, List.nil_append, List.append_assoc, List.singleton_append, List.cons_append,
              opensAtThird, he, Option.isNone_some, Bool.false_eq_true, if_false]
            refine ⟨fun h => absurd h hk2, ?_⟩
            exact ih _ _ _ (k + 1) (by simp; omega)
              (by
                intro hk
                have := hlow (by omega)
                exact ⟨by simp; omega, by simp; omega⟩)
        · rw [ha]
          simp only []
          have hk3 : 3 ≤ k + 1 := by omega
          cases hw : sleepContext supervisorLoopInterval (env.intervalWake turn) with
          | some e =>
            simp [opensAtThird, he, hk3]
          | none =>
            simp only [List.append_eq, List.nil_append, List.append_assoc, List.singleton_append, List.cons_append,
              opensAtThird, he, Option.isNone_some, Bool.false_eq_true, if_false]
            refine ⟨fun _ => ⟨_, _, rfl⟩, hk3, ?_⟩
            exact ih _ _ _ (k + 1) (by simp; omega) (by intro hk; omega)
      · -- the circuit is open
        have hk3 : 3 ≤ k := by
          by_contra hn
          have := (hlow (by omega)).2
          omega
        rcases hcool with ⟨ctxErr, -, hcool⟩ | ⟨-, start, hstart, hcool⟩
        · rw [hcool]
          simp [opensAtThird]
        · rw [hcool]
          simp only []
          rcases afterPass_loop debug (start + env.passDuration turn)
            { consecutiveFailures := 0, circuitOpenUntil := 0 } (passResult env debug turn)
            with ⟨he, ha⟩ | ⟨err, he, hthr, ha⟩ | ⟨err, he, hthr, ha⟩
          · rw [ha]
            simp only []
            cases hw : sleepContext supervisorLoopInterval (env.intervalWake turn) with
            | some e =>
              simp [opensAtThird, he, opensAtThird_debugLog]
            | none =>
              simp only [List.append_eq, List.nil_append, List.append_assoc, List.singleton_append,
                List.cons_append, opensAtThird, he,
                Option.isNone_none, if_true, opensAtThird_debugLog]
              apply ih _ _ _ 0
              · simp
              · intro _; exact ⟨by simp, by simp⟩
          · rw [ha]
            simp only []
            have hk2 : k + 1 ≠ 3 := by omega
            cases hw : sleepContext supervisorLoopInterval (env.intervalWake turn) with
            | some e =>
              simp [opensAtThird, he, hk2]
            | none =>
              simp only [List.append_eq, List.nil_append, List.append_assoc, List.singleton_append,
                List.cons_append, opensAtThird, he, Option.isNone_some, Bool.false_eq_true, if_false]
              refine ⟨fun h => absurd h hk2, ?_⟩
              exact ih _ _ _ (k + 1) (by simp) (by intro hk; omega)
          · simp at hthr

/-- What follows the pass of a `--once` run. -/
theorem afterPass_once (debug : Bool) (now : Nat) (v : circuitVars) (result : supervisorResult) :
    (result.err = none ∧ afterPass true debug now v result =
      (Except.error 0, loopDebugLog debug "run" "pass completed")) ∨
    (∃ err, result.err = some err ∧ afterPass true debug now v result =
      (Except.error result.exitCode, [LoopEvent.logError "run" "pass failed" err])) := by
  cases he : result.err with
  | none => left; exact ⟨rfl, by simp [afterPass, he]⟩
  | some err => right; exact ⟨err, rfl, by simp [afterPass, he]⟩

theorem startsAfter_debugLog (b : Nat) (debug : Bool) (op msg : String) (l : List LoopEvent) :
    startsAfter b (loopDebugLog debug op msg ++ l) ↔ startsAfter b l := by
  cases debug <;> simp [loopDebugLog, startsAfter]

theorem countsFrom_debugLog (b : Bool) (debug : Bool) (op msg : String) (l : List LoopEvent) :
    countsFrom b (loopDebugLog debug op msg ++ l) ↔ countsFrom b l := by
  cases debug <;> simp [loopDebugLog, countsFrom]

/-- In loop mode no pass starts before the `openUntil` of an earlier opening of the circuit,
nor before `bound` when `bound` is not after both the instant of the turn and the `openUntil`
of the variables. -/
theorem superviseLoop_startsAfter (env : LoopEnv) (debug : Bool) :
    ∀ (fuel turn now : Nat) (v : circuitVars) (bound : Nat),
      bound ≤ max now v.circuitOpenUntil →
      startsAfter bound (superviseLoop env false debug fuel turn now v).2 := by
  intro fuel
  induction fuel with
  | zero => intro turn now v bound _; simp [superviseLoop, startsAfter]
  | succ fuel ih =>
    intro turn now v bound hb
    rw [superviseLoop]
    cases hc : env.ctxErr turn with
    | some e => simp [startsAfter]
    | none =>
      simp only []
      have key : ∀ (start : Nat) (v1 : circuitVars), bound ≤ start →
          v1.circuitOpenUntil ≤ start →
          startsAfter bound
            ((match afterPass false debug (start + env.passDuration turn) v1
                (passResult env debug turn) with
              | (Except.error code, evs2) =>
                ((some code, [LoopEvent.pass turn start v1 (passResult env debug turn)] ++ evs2) :
                  Option Int × List LoopEvent)
              | (Except.ok v2, evs2) =>
                match sleepContext supervisorLoopInterval (env.intervalWake turn) with
                | some _ =>
                  (some 0, [LoopEvent.pass turn start v1 (passResult env debug turn)] ++ evs2 ++
                    [LoopEvent.sleep supervisorLoopInterval])
                | none =>
                  ((superviseLoop env false debug fuel (turn + 1)
                      (start + env.passDuration turn + supervisorLoopInterval.toNat +
                        env.intervalLag turn) v2).1,
                    [LoopEvent.pass turn start v1 (passResult env debug turn)] ++ evs2 ++
                      [LoopEvent.sleep supervisorLoopInterval] ++
                      (superviseLoop env false debug fuel (turn + 1)
                        (start + env.passDuration turn + supervisorLoopInterval.toNat +
                          env.intervalLag turn) v2).2)).2) := by
        intro start v1 hbs hv1
        rcases afterPass_loop debug (start + env.passDuration turn) v1 (passResult env debug turn)
          with ⟨he, ha⟩ | ⟨err, he, hthr, ha⟩ | ⟨err, he, hthr, ha⟩
        · rw [ha]
          simp only []
          cases hw : sleepContext supervisorLoopInterval (env.intervalWake turn) with
          | some e =>
            simp [startsAfter, hbs, startsAfter_debugLog]
          | none =>
            simp only [List.append_eq, List.nil_append, List.append_assoc, List.singleton_append,
              List.cons_append, startsAfter, startsAfter_debugLog]
            exact ⟨hbs, ih _ _ _ _ (by simp only []; omega)⟩
        · rw [ha]
          simp only []
          cases hw : sleepContext supervisorLoopInterval (env.intervalWake turn) with
          | some e =>
            simp [startsAfter, hbs]
          | none =>
            simp only [List.append_eq, List.nil_append, List.append_assoc, List.singleton_append,
              List.cons_append, startsAfter]
            exact ⟨hbs, ih _ _ _ _ (by simp only []; omega)⟩
        · rw [ha]
          simp only []
          cases hw : sleepContext supervisorLoopInterval (env.intervalWake turn) with
          | some e =>
            simp [startsAfter, hbs]
          | none =>
            simp only [List.append_eq, List.nil_append, List.append_assoc, List.singleton_append,
              List.cons_append, startsAfter]
            exact ⟨hbs, ih _ _ _ _ (by simp only []; omega)⟩
      rcases cooldown_cases env turn now v with ⟨hlt, hcool⟩ | ⟨hlt, wait, -, hcool⟩
      · rw [hcool]
        simp only [List.nil_append]
        exact key now v (by omega) hlt
      · rcases hcool with ⟨ctxErr, -, hcool⟩ | ⟨-, start, hstart, hcool⟩
        · rw [hcool]
          simp [startsAfter]
        · rw [hcool]
          simp only []
          have := key start { consecutiveFailures := 0, circuitOpenUntil := 0 } (by omega)
            (by simp)
          revert this
          cases afterPass false debug (start + env.passDuration turn)
            { consecutiveFailures := 0, circuitOpenUntil := 0 } (passResult env debug turn) with
          | mk r evs2 =>
            cases r with
            | error code => simp [startsAfter]
            | ok v2 =>
              simp only []
              cases sleepContext supervisorLoopInterval (env.intervalWake turn) with
              | some e => simp [startsAfter]
              | none => simp [startsAfter]

/-- In loop mode every pass starts with a counter that is not negative, and with a counter of
zero when the pass before it succeeded. -/
theorem superviseLoop_countsFrom (env : LoopEnv) (debug : Bool) :
    ∀ (fuel turn now : Nat) (v : circuitVars) (afterSuccess : Bool),
      0 ≤ v.consecutiveFailures →
      (afterSuccess = true → v.consecutiveFailures = 0) →
      countsFrom afterSuccess (superviseLoop env false debug fuel turn now v).2 := by
  intro fuel
  induction fuel with
  | zero => intro turn now v b _ _; simp [superviseLoop, countsFrom]
  | succ fuel ih =>
    intro turn now v b h0 hb
    rw [superviseLoop]
    cases hc : env.ctxErr turn with
    | some e => simp [countsFrom]
    | none =>
      simp only []
      have key : ∀ (start : Nat) (v1 : circuitVars), 0 ≤ v1.consecutiveFailures →
          (b = true → v1.consecutiveFailures = 0) →
          countsFrom b
            ((match afterPass false debug (start + env.passDuration turn) v1
                (passResult env debug turn) with
              | (Except.error code, evs2) =>
                ((some code, [LoopEvent.pass turn start v1 (passResult env debug turn)] ++ evs2) :
                  Option Int × List LoopEvent)
              | (Except.ok v2, evs2) =>
                match sleepContext supervisorLoopInterval (env.intervalWake turn) with
                | some _ =>
                  (some 0, [LoopEvent.pass turn start v1 (passResult env debug turn)] ++ evs2 ++
                    [LoopEvent.sleep supervisorLoopInterval])
                | none =>
                  ((superviseLoop env false debug fuel (turn + 1)
                      (start + env.passDuration turn + supervisorLoopInterval.toNat +
                        env.intervalLag turn) v2).1,
                    [LoopEvent.pass turn start v1 (passResult env debug turn)] ++ evs2 ++
                      [LoopEvent.sleep supervisorLoopInterval] ++
                      (superviseLoop env false debug fuel (turn + 1)
                        (start + env.passDuration turn + supervisorLoopInterval.toNat +
                          env.intervalLag turn) v2).2)).2) := by
        intro start v1 h1 hb1
        rcases afterPass_loop debug (start + env.passDuration turn) v1 (passResult env debug turn)
          with ⟨he, ha⟩ | ⟨err, he, hthr, ha⟩ | ⟨err, he, hthr, ha⟩
        · rw [ha]
          simp only []
          cases hw : sleepContext supervisorLoopInterval (env.intervalWake turn) with
          | some e =>
            simp [countsFrom, h1, countsFrom_debugLog]
            exact hb1
          | none =>
            simp only [List.append_eq, List.nil_append, List.append_assoc, List.singleton_append,
              List.cons_append, countsFrom, countsFrom_debugLog, he, Option.isNone_none]
            exact ⟨h1, hb1, ih _ _ _ _ (by simp) (by intro _; rfl)⟩
        · rw [ha]
          simp only []
          cases hw : sleepContext supervisorLoopInterval (env.intervalWake turn) with
          | some e =>
            simp [countsFrom, h1]
            exact hb1
          | none =>
            simp only [List.append_eq, List.nil_append, List.append_assoc, List.singleton_append,
              List.cons_append, countsFrom, he, Option.isNone_some]
            exact ⟨h1, hb1, ih _ _ _ _ (by simp only []; omega) (by intro h; cases h)⟩
        · rw [ha]
          simp only []
          cases hw : sleepContext supervisorLoopInterval (env.intervalWake turn) with
          | some e =>
            simp [countsFrom, h1]
            exact hb1
          | none =>
            simp only [List.append_eq, List.nil_append, List.append_assoc, List.singleton_append,
              List.cons_append, countsFrom, he, Option.isNone_some]
            exact ⟨h1, hb1, ih _ _ _ _ (by simp only []; omega) (by intro h; cases h)⟩
      rcases cooldown_cases env turn now v with ⟨hlt, hcool⟩ | ⟨hlt, wait, -, hcool⟩
      · rw [hcool]
        simp only [List.nil_append]
        exact key now v h0 hb
      · rcases hcool with ⟨ctxErr, -, hcool⟩ | ⟨-, start, hstart, hcool⟩
        · rw [hcool]
          simp [countsFrom]
        · rw [hcool]
          simp only []
          have := key start { consecutiveFailures := 0, circuitOpenUntil := 0 } (by simp)
            (by simp)
          revert this
          cases afterPass false debug (start + env.passDuration turn)
            { consecutiveFailures := 0, circuitOpenUntil := 0 } (passResult env debug turn) with
          | mk r evs2 =>
            cases r with
            | error code => simp [countsFrom]
            | ok v2 =>
              simp only []
              cases sleepContext supervisorLoopInterval (env.intervalWake turn) with
              | some e => simp [countsFrom]
              | none => simp [countsFrom]

/-- A `--once` run from closed circuit: one pass and what follows it, whatever the fuel. -/
theorem superviseLoop_once (env : LoopEnv) (debug : Bool) (fuel turn now : Nat)
    (h : env.ctxErr turn = none) :
    superviseLoop env true debug (fuel + 1) turn now
        { consecutiveFailures := 0, circuitOpenUntil := 0 } =
      (some (if (passResult env debug turn).err.isNone then 0
          else (passResult env debug turn).exitCode),
        LoopEvent.pass turn now { consecutiveFailures := 0, circuitOpenUntil := 0 }
            (passResult env debug turn) ::
          (afterPass true debug (now + env.passDuration turn)
            { consecutiveFailures := 0, circuitOpenUntil := 0 } (passResult env debug turn)).2) := by
  rw [superviseLoop, h]
  simp only []
  rcases cooldown_cases env turn now { consecutiveFailures := 0, circuitOpenUntil := 0 }
    with ⟨hlt, hcool⟩ | ⟨hlt, -⟩
  · rw [hcool]
    simp only []
    rcases afterPass_once debug (now + env.passDuration turn)
      { consecutiveFailures := 0, circuitOpenUntil := 0 } (passResult env debug turn)
      with ⟨he, ha⟩ | ⟨err, he, ha⟩
    · rw [ha]; simp [he]
    · rw [ha]; simp [he]
  · simp at hlt

theorem streakFrom_cons (k : Nat) (e : LoopEvent) (l : List LoopEvent) :
    streakFrom k (e :: l) =
      streakFrom (match e with
        | LoopEvent.pass _ _ _ result => if result.err.isNone then 0 else k + 1
        | _ => k) l := by
  cases e <;> rfl

theorem streakFrom_append (k : Nat) (l1 l2 : List LoopEvent) :
    streakFrom k (l1 ++ l2) = streakFrom (streakFrom k l1) l2 := by
  simp [streakFrom]

/-- The property `opensAtThird` of a list of effects holds of each of its tails, from the
length of the run of failed passes before that tail. -/
theorem opensAtThird_split (env : LoopEnv) : ∀ (l1 : List LoopEvent) (k : Nat)
    (l2 : List LoopEvent), opensAtThird env k (l1 ++ l2) →
      opensAtThird env (streakFrom k l1) l2 := by
  intro l1
  induction l1 with
  | nil => intro k l2 h; simpa [streakFrom] using h
  | cons e l ih =>
    intro k l2 h
    rw [streakFrom_cons]
    cases e with
    | pass turn start vars result =>
      simp only [List.cons_append, opensAtThird] at h
      by_cases hr : result.err.isNone = true
      · simp only [hr, if_true] at h ⊢
        exact ih _ _ h
      · simp only [hr, if_false] at h ⊢
        exact ih _ _ h.2
    | opened u =>
      simp only [List.cons_append, opensAtThird] at h
      exact ih _ _ h.2
    | logInfo op msg => simp only [List.cons_append, opensAtThird] at h; exact ih _ _ h
    | logWarn op msg => simp only [List.cons_append, opensAtThird] at h; exact ih _ _ h
    | logError op msg err => simp only [List.cons_append, opensAtThird] at h; exact ih _ _ h
    | sleep d => simp only [List.cons_append, opensAtThird] at h; exact ih _ _ h

/-- The property `startsAfter` of a list of effects holds of each of its tails, for a bound
that is not smaller. -/
theorem startsAfter_split : ∀ (l1 : List LoopEvent) (bound : Nat) (l2 : List LoopEvent),
    startsAfter bound (l1 ++ l2) → ∃ b, bound ≤ b ∧ startsAfter b l2 := by
  intro l1
  induction l1 with
  | nil => intro bound l2 h; exact ⟨bound, le_refl _, by simpa using h⟩
  | cons e l ih =>
    intro bound l2 h
    cases e with
    | pass turn start vars result =>
      simp only [List.cons_append, startsAfter] at h
      exact ih _ _ h.2
    | opened u =>
      simp only [List.cons_append, startsAfter] at h
      obtain ⟨b, hb, hs⟩ := ih _ _ h
      exact ⟨b, by omega, hs⟩
    | logInfo op msg => simp only [List.cons_append, startsAfter] at h; exact ih _ _ h
    | logWarn op msg => simp only [List.cons_append, startsAfter] at h; exact ih _ _ h
    | logError op msg err => simp only [List.cons_append, startsAfter] at h; exact ih _ _ h
    | sleep d => simp only [List.cons_append, startsAfter] at h; exact ih _ _ h

/-- The property `countsFrom` of a list of effects holds of each of its tails. -/
theorem countsFrom_split : ∀ (l1 : List LoopEvent) (b : Bool) (l2 : List LoopEvent),
    countsFrom b (l1 ++ l2) → ∃ c, countsFrom c l2 := by
  intro l1
  induction l1 with
  | nil => intro b l2 h; exact ⟨b, by simpa using h⟩
  | cons e l ih =>
    intro b l2 h
    cases e with
    | pass turn start vars result =>
      simp only [List.cons_append, countsFrom] at h
      exact ih _ _ h.2.2
    | opened u => simp only [List.cons_append, countsFrom] at h; exact ih _ _ h
    | logInfo op msg => simp only [List.cons_append, countsFrom] at h; exact ih _ _ h
    | logWarn op msg => simp only [List.cons_append, countsFrom] at h; exact ih _ _ h
    | logError op msg err => simp only [List.cons_append, countsFrom] at h; exact ih _ _ h
    | sleep d => simp only [List.cons_append, countsFrom] at h; exact ih _ _ h

/-- Effects without a pass leave the property `countsFrom` as it is. -/
theorem countsFrom_skip : ∀ (l1 : List LoopEvent) (b : Bool) (l2 : List LoopEvent),
    passCount l1 = 0 → countsFrom b (l1 ++ l2) → countsFrom b l2 := by
  intro l1
  induction l1 with
  | nil => intro b l2 _ h; simpa using h
  | cons e l ih =>
    intro b l2 hp h
    cases e with
    | pass turn start vars result => simp [passCount] at hp
    | opened u =>
      simp only [List.cons_append, countsFrom] at h
      exact ih _ _ (by simpa [passCount] using hp) h
    | logInfo op msg =>
      simp only [List.cons_append, countsFrom] at h
      exact ih _ _ (by simpa [passCount] using hp) h
    | logWarn op msg =>
      simp only [List.cons_append, countsFrom] at h
      exact ih _ _ (by simpa [passCount] using hp) h
    | logError op msg err =>
      simp only [List.cons_append, countsFrom] at h
      exact ih _ _ (by simpa [passCount] using hp) h
    | sleep d =>
      simp only [List.cons_append, countsFrom] at h
      exact ih _ _ (by simpa [passCount] using hp) h

/-- The counter is never negative at the start of a pass and is zero at the start of a pass
that follows a successful one, whatever the flags. -/
theorem cmdSupervisorRun_countsFrom (env : LoopEnv) (flags : Except GoError (Bool × Bool))
    (start fuel : Nat) : countsFrom false (cmdSupervisorRun env flags start fuel).2 := by
  cases flags with
  | error e => simp [cmdSupervisorRun, countsFrom]
  | ok f =>
    obtain ⟨once, debug⟩ := f
    cases once with
    | false =>
      simp only [cmdSupervisorRun, countsFrom]
      exact superviseLoop_countsFrom env debug fuel 0 start _ false (by simp) (by simp)
    | true =>
      cases fuel with
      | zero => simp [cmdSupervisorRun, superviseLoop, countsFrom]
      | succ fuel =>
        cases hc : env.ctxErr 0 with
        | some e => simp [cmdSupervisorRun, superviseLoop, hc, countsFrom]
        | none =>
          simp only [cmdSupervisorRun, superviseLoop_once env debug fuel 0 start hc, countsFrom]
          refine ⟨by simp, by simp, ?_⟩
          rcases afterPass_once debug (start + env.passDuration 0)
            { consecutiveFailures := 0, circuitOpenUntil := 0 } (passResult env debug 0)
            with ⟨he, ha⟩ | ⟨err, he, ha⟩
          · rw [ha]
            have := countsFrom_debugLog (passResult env debug 0).err.isNone debug "run"
              "pass completed" []
            simpa [countsFrom] using this
          · rw [ha]; simp [countsFrom]

end supervisor

namespace jobs

/-- The loop of `watchJob` from poll `n` on, when the first terminal status is `k` polls
away. -/
theorem watchLoop_first_terminal (env : Env) (jobID traceID : String) :
    ∀ (k n fuel : Nat) (d : runDetails),
      (∀ i, i < k → ∃ di, env.get (n + i) = Except.ok di ∧
        isTerminalState (mapRunState di.Status) = false ∧ env.tick (n + i) = Wake.timer) →
      env.get (n + k) = Except.ok d →
      isTerminalState (mapRunState d.Status) = true →
      k < fuel →
      (watchLoop env jobID traceID fuel n).1 =
        some ({ JobID := jobID, State := mapRunState d.Status, TraceID := traceID }, none) ∧
      polls (watchLoop env jobID traceID fuel n).2 = k + 1 ∧
      (watchLoop env jobID traceID fuel n).2.getLast? = some (Event.get jobID) := by
  intro k
  induction k with
  | zero =>
    intro n fuel d _ hk hterm hfuel
    obtain ⟨f, rfl⟩ : ∃ f, fuel = f + 1 := ⟨fuel - 1, by omega⟩
    simp only [Nat.add_zero] at hk
    simp [watchLoop, hk, hterm, polls]
  | succ k ih =>
    intro n fuel d hbefore hk hterm hfuel
    obtain ⟨f, rfl⟩ : ∃ f, fuel = f + 1 := ⟨fuel - 1, by omega⟩
    obtain ⟨d0, hg0, hn0, ht0⟩ := hbefore 0 (by omega)
    simp only [Nat.add_zero] at hg0 ht0
    have hrest := ih (n + 1) f d
      (by
        intro i hi
        have := hbefore (i + 1) (by omega)
        rwa [show n + (i + 1) = n + 1 + i by omega] at this)
      (by rwa [show n + (k + 1) = n + 1 + k by omega] at hk)
      hterm (by omega)
    obtain ⟨r1, r2, r3⟩ := hrest
    have hne : (watchLoop env jobID traceID f (n + 1)).2 ≠ [] := by
      intro h
      rw [h] at r3
      simp at r3
    refine ⟨?_, ?_, ?_⟩
    · simp [watchLoop, hg0, hn0, ht0, r1]
    · simp only [watchLoop, hg0, hn0, ht0]
      simp only [polls] at r2 ⊢
      simp [r2]
    · simp only [watchLoop, hg0, hn0, ht0]
      simp only [Bool.false_eq_true, if_false]
      cases hl : (watchLoop env jobID traceID f (n + 1)).2 with
      | nil => exact absurd hl hne
      | cons a l =>
        rw [hl] at r3
        rw [List.getLast?_cons_cons, List.getLast?_cons_cons]
        exact r3

/-- `buildWorkflowInput` succeeds for the two job types when the payload field is not blank. -/
theorem buildWorkflowInput_ok (opts : jobEnqueueOptions)
    (htype : opts.jobType = hatchet.JobTypeWindowsExec ∨ opts.jobType = hatchet.JobTypeAlohaRun)
    (hfield : strings.TrimSpace
      (if opts.jobType = hatchet.JobTypeWindowsExec then opts.cmd else opts.task) ≠ "") :
    ∃ input, buildWorkflowInput opts = Except.ok (opts.jobType, input) := by
  have hne : hatchet.JobTypeAlohaRun ≠ hatchet.JobTypeWindowsExec := by decide
  rcases htype with ht | ht
  · simp only [ht, if_true] at hfield
    exact ⟨_, by simp only [buildWorkflowInput, ht, hfield, if_true, if_false]; rfl⟩
  · simp only [ht, hne, if_false] at hfield
    exact ⟨_, by simp only [buildWorkflowInput, ht, hne, hfield, if_true, if_false]; rfl⟩

/-- `buildWorkflowInput` returns a usage error for the two job types when the payload field is
blank. -/
theorem buildWorkflowInput_blank (opts : jobEnqueueOptions)
    (htype : opts.jobType = hatchet.JobTypeWindowsExec ∨ opts.jobType = hatchet.JobTypeAlohaRun)
    (hfield : strings.TrimSpace
      (if opts.jobType = hatchet.JobTypeWindowsExec then opts.cmd else opts.task) = "") :
    ∃ err, buildWorkflowInput opts = Except.error (jobsError.usage err) := by
  have hne : hatchet.JobTypeAlohaRun ≠ hatchet.JobTypeWindowsExec := by decide
  rcases htype with ht | ht
  · simp only [ht, if_true] at hfield
    exact ⟨_, by simp only [buildWorkflowInput, ht, hfield, if_true]; rfl⟩
  · simp only [ht, hne, if_false] at hfield
    exact ⟨_, by simp only [buildWorkflowInput, ht, hne, hfield, if_true, if_false]; rfl⟩

end jobs

/-! # Lemmas: the JSON text of a payload, read back -/


namespace json

/-- The decoder reads a hexadecimal digit of the encoder back as its value. -/
theorem hexValue_hexDigit (k : Nat) (h : k < 16) : hexValue (hexDigit k) = some k := by
  interval_cases k <;> rfl

/-- The decoder reads the escape that the encoder writes for a byte back as the byte. -/
theorem getu4_low (n : Nat) (h : n < 256) :
    getu4 '0' '0' (hexDigit (n / 16)) (hexDigit (n % 16)) = some n := by
  have h1 : hexValue '0' = some 0 := rfl
  simp only [getu4, h1, hexValue_hexDigit (n / 16) (by omega),
    hexValue_hexDigit (n % 16) (by omega)]
  congr 1
  omega

/-- A pending escape that is no high surrogate is written as its own rune. -/
theorem decodeTokens_pending (n : Nat) (h : ¬ (0xd800 ≤ n ∧ n < 0xdc00)) (tokens : List Token) :
    decodeTokens (some n) tokens = escapeRune n :: decodeTokens none tokens := by
  cases tokens with
  | nil => rfl
  | cons t rest =>
    cases t with
    | lit c => rfl
    | esc lo =>
      have h2 : ¬ (0xd800 ≤ n ∧ n < 0xdc00 ∧ 0xdc00 ≤ lo ∧ lo < 0xe000) := fun hh => h ⟨hh.1, hh.2.1⟩
      simp only [decodeTokens, if_neg h2]

/-- The scanner on a character that stands for itself. -/
theorem literalTokens_plain (c : Char) (rest : List Char) (h1 : c ≠ '"') (h2 : c ≠ '\\')
    (h3 : ¬ c.toNat < 0x20) :
    literalTokens (c :: rest) =
      consToken (Token.lit c) (literalTokens rest) := by
  rw [literalTokens.eq_def]
  simp only [if_neg h1, if_neg h2, if_neg h3]

/-- The scanner on a two-character escape. -/
theorem literalTokens_simple (e ch : Char) (rest : List Char) (h1 : e ≠ 'u')
    (h2 : simpleEscape e = some ch) :
    literalTokens ('\\' :: e :: rest) =
      consToken (Token.lit ch) (literalTokens rest) := by
  rw [literalTokens.eq_def]
  simp only [if_neg h1, h2, if_neg (show ¬ ('\\' = '"') by decide), if_true]

/-- The scanner on an escape with four hexadecimal digits. -/
theorem literalTokens_u (h1 h2 h3 h4 : Char) (n : Nat) (rest : List Char)
    (h : getu4 h1 h2 h3 h4 = some n) :
    literalTokens ('\\' :: 'u' :: h1 :: h2 :: h3 :: h4 :: rest) =
      consToken (Token.esc n) (literalTokens rest) := by
  rw [literalTokens.eq_def]
  simp only [h, if_neg (show ¬ ('\\' = '"') by decide), if_true]


/-- The rune of an escape that holds the code point of a character is that character. -/
theorem escapeRune_toNat (c : Char) : escapeRune c.toNat = c := by
  have hv := c.valid
  have hs : IsSurrogate c.toNat = false := by
    simp only [IsSurrogate, decide_eq_false_iff_not, not_and, not_lt]
    intro h
    rcases hv with h1 | h1
    · have : c.toNat < 0xd800 := h1
      omega
    · have : 0xdfff < c.toNat := h1.1
      omega
  simp only [escapeRune, hs, Bool.false_eq_true, if_false, Char.ofNat_toNat]

/-- The scanner reads what `appendString` writes for one element as one piece, and `unquote`
turns that piece into the rune of the element, with U+FFFD for an invalid byte. -/
theorem literalTokens_appendElement (e : utf8.Element) :
    ∃ t : Token,
      (∀ rest, literalTokens (appendElement e ++ rest) = consToken t (literalTokens rest)) ∧
      (∀ tokens, decodeTokens none (t :: tokens) = e.coerced :: decodeTokens none tokens) := by
  cases e with
  | invalid b =>
    refine ⟨Token.esc 0xfffd, fun rest => ?_, fun tokens => ?_⟩
    · exact literalTokens_u 'f' 'f' 'f' 'd' 0xfffd rest rfl
    · show decodeTokens (some 0xfffd) tokens = _
      rw [decodeTokens_pending 0xfffd (by decide)]
      rfl
  | rune c =>
    by_cases hlow : c.toNat < 0x80
    · by_cases hsafe : htmlSafeSet c = true
      · refine ⟨Token.lit c, fun rest => ?_, fun tokens => rfl⟩
        simp only [htmlSafeSet, Bool.and_eq_true, decide_eq_true_eq, Bool.not_eq_true',
          beq_eq_false_iff_ne, ne_eq] at hsafe
        have := literalTokens_plain c rest hsafe.1.1.1.1.2 hsafe.1.1.1.2 (by omega)
        simpa [appendElement, hlow, htmlSafeSet, hsafe] using this
      · by_cases h1 : c = '\\' ∨ c = '"'
        · refine ⟨Token.lit c, fun rest => ?_, fun tokens => rfl⟩
          have := literalTokens_simple c c rest
            (by rcases h1 with h | h <;> subst h <;> decide)
            (by rcases h1 with h | h <;> subst h <;> rfl)
          simpa [appendElement, hlow, hsafe, h1] using this
        · by_cases h2 : c = '\x08'
          · subst h2
            exact ⟨Token.lit '\x08',
              fun rest => literalTokens_simple 'b' '\x08' rest (by decide) rfl, fun _ => rfl⟩
          · by_cases h3 : c = '\x0c'
            · subst h3
              exact ⟨Token.lit '\x0c',
                fun rest => literalTokens_simple 'f' '\x0c' rest (by decide) rfl, fun _ => rfl⟩
            · by_cases h4 : c = '\n'
              · subst h4
                exact ⟨Token.lit '\n',
                  fun rest => literalTokens_simple 'n' '\n' rest (by decide) rfl, fun _ => rfl⟩
              · by_cases h5 : c = '\r'
                · subst h5
                  exact ⟨Token.lit '\r',
                    fun rest => literalTokens_simple 'r' '\r' rest (by decide) rfl, fun _ => rfl⟩
                · by_cases h6 : c = '\t'
                  · subst h6
                    exact ⟨Token.lit '\t',
                      fun rest => literalTokens_simple 't' '\t' rest (by decide) rfl,
                      fun _ => rfl⟩
                  · refine ⟨Token.esc c.toNat, fun rest => ?_, fun tokens => ?_⟩
                    · have := literalTokens_u '0' '0' (hexDigit (c.toNat / 16))
                        (hexDigit (c.toNat % 16)) c.toNat rest (getu4_low _ (by omega))
                      simpa [appendElement, hlow, hsafe, h1, h2, h3, h4, h5, h6] using this
                    · show decodeTokens (some c.toNat) tokens = _
                      rw [decodeTokens_pending c.toNat (by omega), escapeRune_toNat]
                      rfl
    · by_cases h1 : c = '\u2028' ∨ c = '\u2029'
      · rcases h1 with h | h
        · subst h
          refine ⟨Token.esc 0x2028,
            fun rest => literalTokens_u '2' '0' '2' '8' 0x2028 rest rfl, fun tokens => ?_⟩
          show decodeTokens (some 0x2028) tokens = _
          rw [decodeTokens_pending 0x2028 (by decide)]
          rfl
        · subst h
          refine ⟨Token.esc 0x2029,
            fun rest => literalTokens_u '2' '0' '2' '9' 0x2029 rest rfl, fun tokens => ?_⟩
          show decodeTokens (some 0x2029) tokens = _
          rw [decodeTokens_pending 0x2029 (by decide)]
          rfl
      · refine ⟨Token.lit c, fun rest => ?_, fun tokens => rfl⟩
        have := literalTokens_plain c rest
          (fun h => hlow (by subst h; decide)) (fun h => hlow (by subst h; decide)) (by omega)
        simpa [appendElement, hlow, h1] using this

/-- The scanner at the closing quote. -/
theorem literalTokens_quote (rest : List Char) :
    literalTokens ('"' :: rest) = some ([], rest) := by
  rw [literalTokens.eq_def]
  simp only [if_true]

/-- The scanner reads the body that `appendString` writes up to the closing quote, and the
pieces decode to the runes of the string, with U+FFFD for every invalid byte. -/
theorem literalTokens_appendElements (s : RawString) (rest : List Char) :
    ∃ tokens, literalTokens (appendElements s ++ '"' :: rest) = some (tokens, rest) ∧
      decodeTokens none tokens = s.map utf8.Element.coerced := by
  induction s with
  | nil => exact ⟨[], literalTokens_quote rest, rfl⟩
  | cons e s ih =>
    obtain ⟨tokens, h1, h2⟩ := ih
    obtain ⟨t, h3, h4⟩ := literalTokens_appendElement e
    refine ⟨t :: tokens, ?_, ?_⟩
    · simp only [appendElements, List.append_assoc]
      rw [h3, h1]
      rfl
    · rw [h4, h2]
      rfl

/-- The text that `appendString` writes is a string literal, and the decoder reads it back as
the string with every invalid byte replaced by U+FFFD. -/
theorem stringLiteral_appendString (s : RawString) (rest : List Char) :
    ∃ tail, appendString s ++ rest = '"' :: tail ∧ stringLiteral tail = some (s.coerced, rest) := by
  obtain ⟨tokens, h1, h2⟩ := literalTokens_appendElements s rest
  refine ⟨appendElements s ++ '"' :: rest, by simp [appendString], ?_⟩
  simp only [stringLiteral, h1, h2, RawString.coerced]

/-- A text has no invalid bytes: nothing is replaced in it. -/
theorem coerced_ofString (t : String) : (RawString.ofString t).coerced = t := by
  simp only [RawString.coerced, RawString.ofString, List.map_map]
  have : (utf8.Element.coerced ∘ utf8.Element.rune) = id := rfl
  rw [this, List.map_id]


/-- A decimal digit of the encoder is a digit for the decoder, with the same value. -/
theorem digitChar_isDigit (k : Nat) (h : k < 10) :
    isDigit (Nat.digitChar k) = true ∧ (Nat.digitChar k).toNat - 48 = k := by
  interval_cases k <;> exact ⟨rfl, rfl⟩

/-- The number of a run of digits with one more digit at the end. -/
theorem digitsValue_append (ds : List Char) (d : Char) :
    digitsValue (ds ++ [d]) = 10 * digitsValue ds + (d.toNat - 48) := by
  simp [digitsValue, List.foldl_append]

/-- The digits that `Nat.toDigitsCore` puts in front of its accumulator: a non-empty run of
digits that denotes the number and has no leading zero. -/
theorem toDigitsCore_spec (fuel : Nat) : ∀ (n : Nat) (acc : List Char), n < fuel →
    ∃ ds, Nat.toDigitsCore 10 fuel n acc = ds ++ acc ∧ ds ≠ [] ∧
      (∀ c ∈ ds, isDigit c = true) ∧ digitsValue ds = n ∧
      (ds.head? = some '0' → ds.length = 1) := by
  induction fuel with
  | zero => intro n acc h; omega
  | succ fuel ih =>
    intro n acc h
    obtain ⟨hd1, hd2⟩ := digitChar_isDigit (n % 10) (Nat.mod_lt _ (by decide))
    by_cases h0 : n / 10 = 0
    · refine ⟨[Nat.digitChar (n % 10)], ?_, by simp, ?_, ?_, fun _ => rfl⟩
      · simp [Nat.toDigitsCore, h0]
      · intro c hc
        simp only [List.mem_singleton] at hc
        rw [hc]; exact hd1
      · simp only [digitsValue, List.foldl_cons, List.foldl_nil, hd2]
        omega
    · obtain ⟨ds, e1, e2, e3, e4, e5⟩ := ih (n / 10) (Nat.digitChar (n % 10) :: acc) (by omega)
      refine ⟨ds ++ [Nat.digitChar (n % 10)], ?_, by simp, ?_, ?_, ?_⟩
      · simp [Nat.toDigitsCore, h0, e1]
      · intro c hc
        rcases List.mem_append.1 hc with hc | hc
        · exact e3 c hc
        · simp only [List.mem_singleton] at hc
          rw [hc]; exact hd1
      · rw [digitsValue_append, e4, hd2]
        omega
      · intro hh
        exfalso
        cases ds with
        | nil => exact e2 rfl
        | cons x xs =>
          simp only [List.cons_append, List.head?_cons, Option.some.injEq] at hh
          have hl := e5 (by simp [hh])
          simp only [List.length_cons, Nat.add_left_eq_self, List.length_eq_zero] at hl
          subst hl hh
          apply h0
          rw [← e4]
          rfl

/-- The decimal digits of a number: a non-empty run of digits that denotes the number and has
no leading zero. -/
theorem toDigits_spec (n : Nat) :
    Nat.toDigits 10 n ≠ [] ∧ (∀ c ∈ Nat.toDigits 10 n, isDigit c = true) ∧
      digitsValue (Nat.toDigits 10 n) = n ∧
      ((Nat.toDigits 10 n).head? = some '0' → (Nat.toDigits 10 n).length = 1) := by
  obtain ⟨ds, e1, e2, e3, e4, e5⟩ := toDigitsCore_spec (n + 1) n [] (by omega)
  have : Nat.toDigits 10 n = ds := by simp [Nat.toDigits, e1]
  rw [this]
  exact ⟨e2, e3, e4, e5⟩

/-- A run of digits without leading zero, and the same after a minus sign, is read as a
number literal up to the comma or closing brace that follows. -/
theorem numberLiteral_digits (ds : List Char) (c : Char) (tail : List Char) (h1 : ds ≠ [])
    (h2 : ∀ c ∈ ds, isDigit c = true) (h3 : ds.head? = some '0' → ds.length = 1)
    (hc : c = ',' ∨ c = '}') :
    numberLiteral (ds ++ c :: tail) = some ((digitsValue ds : Int), c :: tail) ∧
    numberLiteral ('-' :: (ds ++ c :: tail)) = some (-(digitsValue ds : Int), c :: tail) := by
  have hcd : isDigit c = false := by rcases hc with h | h <;> subst h <;> rfl
  have htake : (ds ++ c :: tail).takeWhile isDigit = ds := by
    rw [List.takeWhile_append_of_pos h2]
    simp [List.takeWhile, hcd]
  have hdrop : (ds ++ c :: tail).dropWhile isDigit = c :: tail := by
    rw [List.dropWhile_append_of_pos h2]
    simp [List.dropWhile, hcd]
  have hlead : ¬ (ds.head? = some '0' ∧ ds.length ≠ 1) := fun hh => hh.2 (h3 hh.1)
  have hafter : ¬ (some c = some '.' ∨ some c = some 'e' ∨ some c = some 'E') := by
    rcases hc with h | h <;> subst h <;> decide
  have hhead : (ds ++ c :: tail).head? ≠ some '-' := by
    cases ds with
    | nil => exact absurd rfl h1
    | cons x xs =>
      intro hh
      simp only [List.cons_append, List.head?_cons, Option.some.injEq] at hh
      have := h2 x (by simp)
      rw [hh] at this
      exact absurd this (by decide)
  constructor
  · simp only [numberLiteral, hhead, if_false, htake, hdrop, h1, hlead, List.head?_cons, hafter]
  · simp only [numberLiteral, List.head?_cons, List.tail_cons, if_true, htake, hdrop, h1,
      hlead, hafter, if_false]

/-- The text that `strconv.AppendInt` writes is read back as the same integer, up to the comma
or closing brace that follows. -/
theorem numberLiteral_appendInt (n : Int) (c : Char) (tail : List Char)
    (hc : c = ',' ∨ c = '}') :
    numberLiteral (appendInt n ++ c :: tail) = some (n, c :: tail) := by
  obtain ⟨e2, e3, e4, e5⟩ := toDigits_spec n.natAbs
  obtain ⟨p1, p2⟩ := numberLiteral_digits _ c tail e2 e3 e5 hc
  rw [e4] at p1 p2
  by_cases hn : n < 0
  · simp only [appendInt, hn, if_true, List.cons_append, p2]
    congr 2
    omega
  · simp only [appendInt, hn, if_false, p1]
    congr 2
    omega


/-- No white space is skipped in front of a character that is none. -/
theorem skipSpace_cons (c : Char) (rest : List Char) (h : isSpace c = false) :
    skipSpace (c :: rest) = c :: rest := by
  simp [skipSpace, List.dropWhile, h]

/-- The text of an integer starts with a minus sign or a digit. -/
theorem appendInt_head (n : Int) :
    ∃ x xs, appendInt n = x :: xs ∧ (x = '-' ∨ isDigit x = true) := by
  obtain ⟨e2, e3, -, -⟩ := toDigits_spec n.natAbs
  by_cases hn : n < 0
  · exact ⟨'-', Nat.toDigits 10 n.natAbs, by simp only [appendInt, hn, if_true], Or.inl rfl⟩
  · cases hd : Nat.toDigits 10 n.natAbs with
    | nil => exact absurd hd e2
    | cons x xs =>
      refine ⟨x, xs, by simp only [appendInt, hn, if_false, hd], Or.inr (e3 x ?_)⟩
      rw [hd]; simp

/-- A minus sign or a digit starts no string, object, array or name, and is no white space. -/
theorem numberStart_ne (x : Char) (h : x = '-' ∨ isDigit x = true) :
    x ≠ '"' ∧ x ≠ '{' ∧ x ≠ '[' ∧ x ≠ 't' ∧ x ≠ 'f' ∧ x ≠ 'n' ∧ isSpace x = false := by
  rcases h with h | h
  · subst h; decide
  · simp only [isDigit, decide_eq_true_eq] at h
    refine ⟨?_, ?_, ?_, ?_, ?_, ?_, ?_⟩
    · rintro rfl; revert h; decide
    · rintro rfl; revert h; decide
    · rintro rfl; revert h; decide
    · rintro rfl; revert h; decide
    · rintro rfl; revert h; decide
    · rintro rfl; revert h; decide
    · simp only [isSpace, Bool.or_eq_false_iff, beq_eq_false_iff_ne, ne_eq]
      refine ⟨⟨⟨?_, ?_⟩, ?_⟩, ?_⟩ <;> (rintro rfl; revert h; decide)

/-- The text of a field, followed by a comma or a closing brace, is read back as the decoded
value of the field; it starts neither an object nor an array, nor with white space. -/
theorem scalar_appendField (v : Field) (c : Char) (tail : List Char)
    (hc : c = ',' ∨ c = '}') :
    ∃ x xs, appendField v ++ c :: tail = x :: xs ∧ x ≠ '{' ∧ x ≠ '[' ∧ isSpace x = false ∧
      scalar (x :: xs) = some (v.decoded, c :: tail) := by
  cases v with
  | string s =>
    obtain ⟨t, h1, h2⟩ := stringLiteral_appendString s (c :: tail)
    refine ⟨'"', t, h1, by decide, by decide, rfl, ?_⟩
    simp only [scalar, if_true, h2, Field.decoded]
  | int n =>
    obtain ⟨x, xs, h1, h2⟩ := appendInt_head n
    obtain ⟨n1, n2, n3, n4, n5, n6, n7⟩ := numberStart_ne x h2
    have h3 := numberLiteral_appendInt n c tail hc
    rw [h1] at h3
    refine ⟨x, xs ++ c :: tail, by simp only [appendField, h1, List.cons_append], n2, n3, n7, ?_⟩
    simp only [scalar, if_neg n1, if_neg n4, if_neg n5, if_neg n6]
    rw [← List.cons_append, h3]
    rfl

/-- With fuel left, a text that starts neither an object nor an array is read as a scalar. -/
theorem value_scalar (fuel : Nat) (x : Char) (xs : List Char) (h1 : x ≠ '{') (h2 : x ≠ '[') :
    value (fuel + 1) (x :: xs) = scalar (x :: xs) := by
  rw [value]
  simp only [if_neg h1, if_neg h2]


/-- One turn of the member loop on the text of a field: after a comma the loop goes on with the
member stored, after a closing brace it ends. -/
theorem members_field (fuel : Nat) (key : String) (v : Field) (c : Char) (tail : List Char)
    (stored : List (String × JSON)) (hc : c = ',' ∨ c = '}') :
    members (fuel + 2)
        (appendString (RawString.ofString key) ++ ':' :: (appendField v ++ c :: tail)) stored =
      if c = ',' then members (fuel + 1) (skipSpace tail) ((key, v.decoded) :: stored)
      else some ((key, v.decoded) :: stored, tail) := by
  obtain ⟨t, h1, h2⟩ := stringLiteral_appendString (RawString.ofString key)
    (':' :: (appendField v ++ c :: tail))
  obtain ⟨x, xs, h3, h4, h5, h6, h7⟩ := scalar_appendField v c tail hc
  rw [coerced_ofString] at h2
  rw [h1, members]
  simp only [if_true, h2, skipSpace_cons ':' _ rfl, h3, skipSpace_cons x xs h6,
    value_scalar fuel x xs h4 h5, h7]
  rcases hc with h | h
  · subst h
    simp only [skipSpace_cons ',' _ rfl, if_true]
  · subst h
    simp only [skipSpace_cons '}' _ rfl, if_true, if_neg (show ¬ ('}' = ',') by decide)]

/-- The text of a non-empty list of fields followed by the closing brace: the first field, then
a comma and the other fields, or the closing brace when there are none. -/
theorem appendFields_cons (f : String × Field) (fs : List (String × Field)) (rest : List Char) :
    ∃ c tail, (c = ',' ∨ c = '}') ∧
      appendFields (f :: fs) ++ '}' :: rest =
        appendString (RawString.ofString f.1) ++ ':' :: (appendField f.2 ++ c :: tail) ∧
      (c = ',' → fs ≠ [] ∧ tail = appendFields fs ++ '}' :: rest) ∧
      (c = '}' → fs = [] ∧ tail = rest) := by
  cases fs with
  | nil =>
    exact ⟨'}', rest, Or.inr rfl, by simp [appendFields], fun h => absurd h (by decide),
      fun _ => ⟨rfl, rfl⟩⟩
  | cons g gs =>
    exact ⟨',', appendFields (g :: gs) ++ '}' :: rest, Or.inl rfl, by simp [appendFields],
      fun _ => ⟨by simp, rfl⟩, fun h => absurd h (by decide)⟩

/-- The text of a non-empty list of fields starts with the quote of the first name. -/
theorem appendFields_quote (f : String × Field) (fs : List (String × Field)) :
    ∃ tail, appendFields (f :: fs) = '"' :: tail := by
  cases fs with
  | nil => exact ⟨_, by simp only [appendFields, appendString, List.cons_append]; rfl⟩
  | cons g gs => exact ⟨_, by simp only [appendFields, appendString, List.cons_append]; rfl⟩

/-- With more fuel than there are fields, the member loop reads the text of the fields back as
their decoded values, the last one first. -/
theorem members_appendFields (fs : List (String × Field)) :
    ∀ (fuel : Nat) (stored : List (String × JSON)) (rest : List Char),
      fs ≠ [] → fs.length < fuel →
      members fuel (appendFields fs ++ '}' :: rest) stored =
        some ((decodedFields fs).reverse ++ stored, rest) := by
  induction fs with
  | nil => intro _ _ _ h; exact absurd rfl h
  | cons f fs ih =>
    intro fuel stored rest _ hfuel
    obtain ⟨k, rfl⟩ : ∃ k, fuel = k + 2 := ⟨fuel - 2, by simp at hfuel; omega⟩
    obtain ⟨c, tail, hc, h1, h2, h3⟩ := appendFields_cons f fs rest
    rw [h1, members_field k f.1 f.2 c tail stored hc]
    rcases hc with h | h
    · obtain ⟨hne, ht⟩ := h2 h
      subst h
      simp only [if_true, ht]
      cases fs with
      | nil => exact absurd rfl hne
      | cons g gs =>
        obtain ⟨q, hq⟩ := appendFields_quote g gs
        have hs : skipSpace (appendFields (g :: gs) ++ '}' :: rest) =
            appendFields (g :: gs) ++ '}' :: rest := by
          rw [hq]; exact skipSpace_cons _ _ rfl
        rw [hs, ih (k + 1) _ rest hne (by simp at hfuel ⊢; omega)]
        simp [decodedFields]
    · obtain ⟨hnil, ht⟩ := h3 h
      subst h hnil ht
      simp [decodedFields]

/-- The text of the fields has at least as many characters as there are fields, less one. -/
theorem length_appendFields (fs : List (String × Field)) :
    fs.length ≤ (appendFields fs).length + 1 := by
  induction fs with
  | nil => simp
  | cons f fs ih =>
    cases fs with
    | nil => simp
    | cons g gs =>
      simp only [appendFields, List.length_cons, List.length_append] at ih ⊢
      omega

/-- The fuel that `UnmarshalMap` passes is enough for the text of a struct of strings and
integers: the text that `json.Marshal` writes for the struct decodes, without error, to the
map that holds the decoded value of every field that was written. -/
theorem UnmarshalMap_MarshalStruct (fs : List (String × Field)) :
    UnmarshalMap (MarshalStruct fs) = some (decodedFields fs).reverse := by
  have hlen := length_appendFields fs
  cases fs with
  | nil => rfl
  | cons f fs =>
    obtain ⟨q, hq⟩ := appendFields_quote f fs
    have hm := members_appendFields (f :: fs)
      (('{' :: (appendFields (f :: fs) ++ ['}'])).length) [] [] (by simp)
      (by simp only [List.length_cons, List.length_append, List.length_nil] at hlen ⊢; omega)
    simp only [UnmarshalMap, MarshalStruct, skipSpace_cons '{' _ rfl]
    rw [value]
    simp only [if_true]
    rw [hq, List.cons_append, skipSpace_cons '"' _ rfl]
    simp only [if_neg (show ¬ ('"' = '}') by decide)]
    rw [← List.cons_append, ← hq, hm]
    simp [skipSpace]

end json

namespace jobs

/-- In the decoded fields of a `windowsExecPayload` with a non-empty trace id, `trace_id` is the
trace id with its invalid bytes replaced. -/
theorem windowsExec_trace (p : windowsExecPayloadRaw) (h : p.TraceID ≠ []) :
    mapIndex (json.decodedFields p.fields).reverse "trace_id" =
      some (JSON.string p.TraceID.coerced) := by
  by_cases h0 : p.Timeout = 0 <;> by_cases h1 : p.IdempotentCheck = [] <;>
    simp [windowsExecPayloadRaw.fields, json.omitEmpty, json.Field.isZero, json.decodedFields,
      json.Field.decoded, mapIndex, List.lookup, h, h0, h1]

/-- In the decoded fields of an `alohaRunPayload` with a non-empty trace id, `trace_id` is the
trace id with its invalid bytes replaced. -/
theorem alohaRun_trace (p : alohaRunPayloadRaw) (h : p.TraceID ≠ []) :
    mapIndex (json.decodedFields p.fields).reverse "trace_id" =
      some (JSON.string p.TraceID.coerced) := by
  by_cases h0 : p.SelectedScreen = 0 <;> by_cases h1 : p.IdempotentCheck = [] <;>
    by_cases h2 : p.MaxSteps = 0 <;>
    simp [alohaRunPayloadRaw.fields, json.omitEmpty, json.Field.isZero, json.decodedFields,
      json.Field.decoded, mapIndex, List.lookup, h, h0, h1, h2]

/-- The JSON text of a payload with a non-empty trace id decodes to a map from which
`traceIDFromInput` returns the trace id with its invalid bytes replaced. -/
theorem Marshal_trace (input : workflowInputRaw) (traceID : RawString)
    (h : traceID ≠ [])
    (hid : (∃ p, input = workflowInputRaw.windowsExec p ∧ p.TraceID = traceID) ∨
      (∃ p, input = workflowInputRaw.alohaRun p ∧ p.TraceID = traceID)) :
    ∃ fields, json.UnmarshalMap input.Marshal = some fields ∧
      mapIndex fields "trace_id" = some (JSON.string traceID.coerced) ∧
      traceIDFromInput fields = traceID.coerced := by
  rcases hid with ⟨p, rfl, rfl⟩ | ⟨p, rfl, rfl⟩
  · refine ⟨_, json.UnmarshalMap_MarshalStruct p.fields, windowsExec_trace p h, ?_⟩
    simp only [traceIDFromInput, windowsExec_trace p h]
  · refine ⟨_, json.UnmarshalMap_MarshalStruct p.fields, alohaRun_trace p h, ?_⟩
    simp only [traceIDFromInput, alohaRun_trace p h]

/-- For the two job types and a payload field that is not blank, `buildWorkflowInputRaw`
returns a payload that holds the trace id as it was given. -/
theorem buildWorkflowInputRaw_ok (opts : jobEnqueueOptions) (traceID : RawString)
    (htype : opts.jobType = hatchet.JobTypeWindowsExec ∨ opts.jobType = hatchet.JobTypeAlohaRun)
    (hfield : strings.TrimSpace
      (if opts.jobType = hatchet.JobTypeWindowsExec then opts.cmd else opts.task) ≠ "") :
    ∃ input, buildWorkflowInputRaw opts traceID = Except.ok (opts.jobType, input) ∧
      ((∃ p, input = workflowInputRaw.windowsExec p ∧ p.TraceID = traceID) ∨
        (∃ p, input = workflowInputRaw.alohaRun p ∧ p.TraceID = traceID)) := by
  have hne : hatchet.JobTypeAlohaRun ≠ hatchet.JobTypeWindowsExec := by decide
  rcases htype with ht | ht
  · simp only [ht, if_true] at hfield
    exact ⟨_, by simp only [buildWorkflowInputRaw, ht, hfield, if_true, if_false]; rfl,
      Or.inl ⟨_, rfl, rfl⟩⟩
  · simp only [ht, hne, if_false] at hfield
    exact ⟨_, by simp only [buildWorkflowInputRaw, ht, hne, hfield, if_true, if_false]; rfl,
      Or.inr ⟨_, rfl, rfl⟩⟩

/-- On a trace id that is a text, `buildWorkflowInputRaw` gives the bytes of the payload of
`buildWorkflowInput`. -/
theorem buildWorkflowInputRaw_ofString (opts : jobEnqueueOptions) :
    buildWorkflowInputRaw opts (RawString.ofString opts.traceID) =
      match buildWorkflowInput opts with
      | Except.ok (workflowName, input) => Except.ok (workflowName, input.raw)
      | Except.error err => Except.error err := by
  unfold buildWorkflowInputRaw buildWorkflowInput
  split
  · split <;> rfl
  · split
    · split <;> rfl
    · rfl

/-- The Go string of a non-empty text is not empty. -/
theorem ofString_ne_nil (t : String) (h : t ≠ "") : RawString.ofString t ≠ [] := by
  intro hh
  apply h
  have : t.data = [] := by simpa [RawString.ofString] using hh
  cases t
  simp_all

end jobs

/-! # The circuit-breaker loop, the probes and the job commands: claims C11 to C20 -/

/-- Claim C11. In loop mode of `cmdSupervisorRun`, whatever the environment and the number of
turns run: (1) a failed pass that is the third of a run of consecutive failed passes is
followed at once by the log of the failure and the opening of the circuit, with `openUntil`
sixty seconds after the instant at which that pass ended; (2) a pass that comes after an
opening of the circuit starts no earlier than the `openUntil` of that opening; (3) the circuit
is opened only when the run of consecutive failed passes before the opening has length three
or more. -/
theorem circuit_opens_after_third_consecutive_failure (env : supervisor.LoopEnv) (debug : Bool)
    (start fuel : Nat) :
    (∀ l1 turn t vars result l2,
      (supervisor.cmdSupervisorRun env (Except.ok (false, debug)) start fuel).2 =
        l1 ++ supervisor.LoopEvent.pass turn t vars result :: l2 →
      result.err ≠ none →
      supervisor.streak (l1 ++ [supervisor.LoopEvent.pass turn t vars result]) = 3 →
      ∃ err tail, l2 = supervisor.LoopEvent.logError "run" "pass failed" err ::
        supervisor.LoopEvent.opened (t + env.passDuration turn +
          supervisor.supervisorCircuitOpenDuration.toNat) :: tail) ∧
    (∀ l1 openUntil l2 turn t vars result l3,
      (supervisor.cmdSupervisorRun env (Except.ok (false, debug)) start fuel).2 =
        l1 ++ supervisor.LoopEvent.opened openUntil :: l2 ++
          supervisor.LoopEvent.pass turn t vars result :: l3 →
      openUntil ≤ t) ∧
    (∀ l1 openUntil l2,
      (supervisor.cmdSupervisorRun env (Except.ok (false, debug)) start fuel).2 =
        l1 ++ supervisor.LoopEvent.opened openUntil :: l2 →
      3 ≤ supervisor.streak l1) := by
  have hO : supervisor.opensAtThird env 0
      (supervisor.cmdSupervisorRun env (Except.ok (false, debug)) start fuel).2 := by
    simp only [supervisor.cmdSupervisorRun, supervisor.opensAtThird]
    exact supervisor.superviseLoop_opensAtThird env debug fuel 0 start _ 0 (by simp)
      (by intro _; exact ⟨by simp, by simp⟩)
  have hS : supervisor.startsAfter 0
      (supervisor.cmdSupervisorRun env (Except.ok (false, debug)) start fuel).2 := by
    simp only [supervisor.cmdSupervisorRun, supervisor.startsAfter]
    exact supervisor.superviseLoop_startsAfter env debug fuel 0 start _ 0 (by simp)
  refine ⟨?_, ?_, ?_⟩
  · intro l1 turn t vars result l2 htr hfail hstreak
    rw [htr] at hO
    have h := supervisor.opensAtThird_split env l1 0 _ hO
    have hn : result.err.isNone ≠ true := by
      cases hr : result.err with
      | none => exact absurd hr hfail
      | some e => simp
    simp only [supervisor.opensAtThird, hn, if_false] at h
    have hk : supervisor.streakFrom 0 l1 + 1 = 3 := by
      have := hstreak
      simp only [supervisor.streak, supervisor.streakFrom_append] at this
      rw [supervisor.streakFrom_cons] at this
      simpa [hn, supervisor.streakFrom] using this
    rw [supervisor.openDuration_toNat]
    exact h.1 hk
  · intro l1 openUntil l2 turn t vars result l3 htr
    rw [htr, List.append_assoc] at hS
    obtain ⟨b, -, hb⟩ := supervisor.startsAfter_split l1 0 _ hS
    simp only [List.cons_append, supervisor.startsAfter] at hb
    obtain ⟨b2, hb2, hb3⟩ := supervisor.startsAfter_split l2 _ _ hb
    simp only [supervisor.startsAfter] at hb3
    have := hb3.1
    omega
  · intro l1 openUntil l2 htr
    rw [htr] at hO
    have h := supervisor.opensAtThird_split env l1 0 _ hO
    simp only [supervisor.opensAtThird] at h
    exact h.1

/-- Claim C11 at an environment whose ssh probe is always down, run for three turns from
2026-11-01T00:00:00Z: the third pass starts 24 s in and takes 2 s, and what follows it begins
with the log of the failure and the opening of the circuit until 86 s in. -/
theorem circuit_opens_after_third_consecutive_failure_witness :
    ∃ err tail,
      ((supervisor.cmdSupervisorRun supervisor.envAlwaysDown (Except.ok (false, false))
          supervisor.someInstant 3).2.drop 8) =
        supervisor.LoopEvent.logError "run" "pass failed" err ::
          supervisor.LoopEvent.opened (supervisor.someInstant + 24000000000 +
            supervisor.envAlwaysDown.passDuration 2 +
            supervisor.supervisorCircuitOpenDuration.toNat) :: tail :=
  (circuit_opens_after_third_consecutive_failure supervisor.envAlwaysDown false
      supervisor.someInstant 3).1
    ((supervisor.cmdSupervisorRun supervisor.envAlwaysDown (Except.ok (false, false))
      supervisor.someInstant 3).2.take 7)
    2 (supervisor.someInstant + 24000000000)
    { consecutiveFailures := 2, circuitOpenUntil := 0 }
    (supervisor.passResult supervisor.envAlwaysDown false 2)
    ((supervisor.cmdSupervisorRun supervisor.envAlwaysDown (Except.ok (false, false))
      supervisor.someInstant 3).2.drop 8)
    (by decide) (by decide) (by decide)

/-- Claim C12, a run in which the code departs from it. The ssh probe is always down and the
interval timer that follows the third pass fires a minute late. The circuit is opened after
the third pass until 86 s in; the loop next inspects `circuitOpenUntil` 96 s in, when the
cooldown has elapsed, so the body of `if wait > 0` is skipped: the fourth pass starts with
`consecutiveFailures = 3` and the old `circuitOpenUntil`, and its failure alone opens the
circuit again. -/
theorem late_wakeup_skips_counter_reset :
    supervisor.passStarts (supervisor.cmdSupervisorRun supervisor.envStalled
        (Except.ok (false, false)) supervisor.someInstant 4).2 =
      [(0, supervisor.someInstant, { consecutiveFailures := 0, circuitOpenUntil := 0 }),
       (1, supervisor.someInstant + 12000000000,
          { consecutiveFailures := 1, circuitOpenUntil := 0 }),
       (2, supervisor.someInstant + 24000000000,
          { consecutiveFailures := 2, circuitOpenUntil := 0 }),
       (3, supervisor.someInstant + 96000000000,
          { consecutiveFailures := 3,
            circuitOpenUntil := supervisor.someInstant + 86000000000 })] ∧
    supervisor.openings (supervisor.cmdSupervisorRun supervisor.envStalled
        (Except.ok (false, false)) supervisor.someInstant 4).2 =
      [supervisor.someInstant + 86000000000, supervisor.someInstant + 158000000000] := by
  decide

/-- Claim C13. In `cmdSupervisorRun`: (1) what follows a successful pass in loop mode sets
`consecutiveFailures` to zero whatever its value before the pass, and leaves the other
variable as it is; (2) whatever the flags, the environment and the number of turns run,
`consecutiveFailures` is not negative at the start of any pass; (3) and it is zero at the
start of the pass that follows a successful pass. -/
theorem successful_pass_resets_failure_counter (env : supervisor.LoopEnv)
    (flags : Except GoError (Bool × Bool)) (start fuel : Nat) :
    (∀ debug now (v : supervisor.circuitVars) (result : supervisor.supervisorResult),
      result.err = none →
      (supervisor.afterPass false debug now v result).1 =
        Except.ok { v with consecutiveFailures := 0 }) ∧
    (∀ l1 turn t vars result l2,
      (supervisor.cmdSupervisorRun env flags start fuel).2 =
        l1 ++ supervisor.LoopEvent.pass turn t vars result :: l2 →
      0 ≤ vars.consecutiveFailures) ∧
    (∀ l1 turn1 t1 vars1 result1 l2 turn2 t2 vars2 result2 l3,
      (supervisor.cmdSupervisorRun env flags start fuel).2 =
        l1 ++ supervisor.LoopEvent.pass turn1 t1 vars1 result1 :: l2 ++
          supervisor.LoopEvent.pass turn2 t2 vars2 result2 :: l3 →
      supervisor.passCount l2 = 0 →
      result1.err = none →
      vars2.consecutiveFailures = 0) := by
  have hC := supervisor.cmdSupervisorRun_countsFrom env flags start fuel
  refine ⟨?_, ?_, ?_⟩
  · intro debug now v result he
    simp [supervisor.afterPass, he]
  · intro l1 turn t vars result l2 htr
    rw [htr] at hC
    obtain ⟨c, hc⟩ := supervisor.countsFrom_split l1 false _ hC
    simp only [supervisor.countsFrom] at hc
    exact hc.1
  · intro l1 turn1 t1 vars1 result1 l2 turn2 t2 vars2 result2 l3 htr hp he
    rw [htr, List.append_assoc] at hC
    obtain ⟨c, hc⟩ := supervisor.countsFrom_split l1 false _ hC
    simp only [List.cons_append, supervisor.countsFrom, he, Option.isNone_none] at hc
    have h2 := supervisor.countsFrom_skip l2 true _ hp hc.2.2
    simp only [supervisor.countsFrom] at h2
    exact h2.2.1 trivial

/-- Claim C13 at an environment whose first two passes fail and whose third pass succeeds,
run for four turns: the fourth pass starts with `consecutiveFailures = 0`. -/
theorem successful_pass_resets_failure_counter_witness :
    ∃ vars result, (supervisor.cmdSupervisorRun supervisor.envRecovers
        (Except.ok (false, false)) supervisor.someInstant 4).2.get? 9 =
      some (supervisor.LoopEvent.pass 3 (supervisor.someInstant + 36000000000) vars result) ∧
      vars.consecutiveFailures = 0 :=
  ⟨{ consecutiveFailures := 0, circuitOpenUntil := 0 },
    supervisor.passResult supervisor.envRecovers false 3, by decide,
    (successful_pass_resets_failure_counter supervisor.envRecovers (Except.ok (false, false))
      supervisor.someInstant 4).2.2
      ((supervisor.cmdSupervisorRun supervisor.envRecovers (Except.ok (false, false))
        supervisor.someInstant 4).2.take 7)
      2 (supervisor.someInstant + 24000000000)
      { consecutiveFailures := 2, circuitOpenUntil := 0 }
      (supervisor.passResult supervisor.envRecovers false 2)
      [supervisor.LoopEvent.sleep supervisor.supervisorLoopInterval]
      3 (supervisor.someInstant + 36000000000)
      { consecutiveFailures := 0, circuitOpenUntil := 0 }
      (supervisor.passResult supervisor.envRecovers false 3)
      [supervisor.LoopEvent.sleep supervisor.supervisorLoopInterval]
      (by decide) (by decide) (by decide)⟩

/-- Claim C14, as stated, fails: with `--once` and a context that is already cancelled when
`cmdSupervisorRun` is called, the guard at the top of the loop returns 0 before any pass is
run, although a pass in that environment fails with exit code 1. -/
theorem once_run_with_cancelled_context_runs_no_pass :
    supervisor.cmdSupervisorRun supervisor.envCancelledAtEntry (Except.ok (true, false))
        supervisor.someInstant 1 =
      (some 0, [supervisor.LoopEvent.logInfo "run" "starting",
        supervisor.LoopEvent.logInfo "run" "stopped"]) ∧
    supervisor.passCount (supervisor.cmdSupervisorRun supervisor.envCancelledAtEntry
      (Except.ok (true, false)) supervisor.someInstant 1).2 = 0 ∧
    (supervisor.passResult supervisor.envCancelledAtEntry false 0).err ≠ none ∧
    (supervisor.passResult supervisor.envCancelledAtEntry false 0).exitCode = 1 := by
  decide

/-- Claim C14, amended. With `--once` set and a context that is not cancelled when
`cmdSupervisorRun` is called, the command returns after one turn of the loop, whatever the
number of turns allowed: it returns 0 when the pass succeeded and the exit code of the pass
otherwise, it runs exactly one pass, which starts at the instant of the call with both
variables at their initial values, it never sleeps and it never opens the circuit. -/
theorem once_runs_exactly_one_pass (env : supervisor.LoopEnv) (debug : Bool) (start fuel : Nat)
    (h : env.ctxErr 0 = none) :
    (supervisor.cmdSupervisorRun env (Except.ok (true, debug)) start (fuel + 1)).1 =
      some (if (supervisor.passResult env debug 0).err.isNone then 0
        else (supervisor.passResult env debug 0).exitCode) ∧
    supervisor.passStarts
        (supervisor.cmdSupervisorRun env (Except.ok (true, debug)) start (fuel + 1)).2 =
      [(0, start, { consecutiveFailures := 0, circuitOpenUntil := 0 })] ∧
    supervisor.passCount
      (supervisor.cmdSupervisorRun env (Except.ok (true, debug)) start (fuel + 1)).2 = 1 ∧
    supervisor.sleepCount
      (supervisor.cmdSupervisorRun env (Except.ok (true, debug)) start (fuel + 1)).2 = 0 ∧
    supervisor.openedCount
      (supervisor.cmdSupervisorRun env (Except.ok (true, debug)) start (fuel + 1)).2 = 0 := by
  simp only [supervisor.cmdSupervisorRun, supervisor.superviseLoop_once env debug fuel 0 start h]
  rcases supervisor.afterPass_once debug (start + env.passDuration 0)
    { consecutiveFailures := 0, circuitOpenUntil := 0 } (supervisor.passResult env debug 0)
    with ⟨he, ha⟩ | ⟨err, he, ha⟩
  · rw [ha]
    cases debug <;>
      simp [supervisor.loopDebugLog, supervisor.passStarts, supervisor.passCount,
        supervisor.sleepCount, supervisor.openedCount]
  · rw [ha]
    simp [supervisor.passStarts, supervisor.passCount,
      supervisor.sleepCount, supervisor.openedCount]

/-- Claim C14, amended, at an environment whose ssh probe is down: the one pass fails and the
command returns its exit code, 1. -/
theorem once_runs_exactly_one_pass_witness :
    supervisor.envAlwaysDown.ctxErr 0 = none ∧
    (supervisor.cmdSupervisorRun supervisor.envAlwaysDown (Except.ok (true, false))
        supervisor.someInstant 5).1 = some 1 ∧
    supervisor.passCount (supervisor.cmdSupervisorRun supervisor.envAlwaysDown
      (Except.ok (true, false)) supervisor.someInstant 5).2 = 1 :=
  ⟨rfl,
    (once_runs_exactly_one_pass supervisor.envAlwaysDown false supervisor.someInstant 4 rfl).1,
    (once_runs_exactly_one_pass supervisor.envAlwaysDown false supervisor.someInstant 4
      rfl).2.2.1⟩

/-- Claim C15, as stated, fails for the aloha_client probe: when the client root answers
HTTP 500, which the retry loop returns as it is, `checkAlohaClient` succeeds, although 500 is
not a status in 200..299. -/
theorem aloha_client_probe_passes_on_http_500 :
    finalResponse aloha.anyRequest aloha.envInternalError
        ((aloha.New config.defaultConfig).clientURL ++ "/") =
      Except.ok { StatusCode := 500, Body := "Internal Server Error" } ∧
    ¬ is2xx 500 ∧
    checkAlohaClient aloha.anyRequest (aloha.New config.defaultConfig) aloha.envInternalError =
      none := by
  refine ⟨rfl, ?_, rfl⟩
  unfold is2xx
  decide

/-- Claim C15, amended. The aloha_server health probe succeeds only if the response finally
obtained has a status in 200..299, and fails for a response with any other status; the hatchet
probe succeeds only if both `/live` and `/ready` answer with a status in 200..299, and fails
when either answers with another status; the aloha_client reachability probe succeeds exactly
when a response is finally obtained, whatever its status. -/
theorem http_probes_and_status :
    (∀ (newRequest : String → String → Except GoError aloha.Request) (c : aloha.Client)
        (env : aloha.Env),
      (checkAlohaServer newRequest c env = none →
        ∃ resp, finalResponse newRequest env (c.serverURL ++ "/") = Except.ok resp ∧
          is2xx resp.StatusCode) ∧
      (∀ resp, finalResponse newRequest env (c.serverURL ++ "/") = Except.ok resp →
        ¬ is2xx resp.StatusCode → checkAlohaServer newRequest c env ≠ none)) ∧
    (∀ (newRequest : String → String → Except GoError aloha.Request) (cfg : config.Config)
        (env : hatchet.Env),
      (checkHatchet newRequest cfg env = none →
        ∃ live ready, env.httpDo 0 = Except.ok live ∧ is2xx live.StatusCode ∧
          env.httpDo 1 = Except.ok ready ∧ is2xx ready.StatusCode) ∧
      (∀ live, env.httpDo 0 = Except.ok live → ¬ is2xx live.StatusCode →
        checkHatchet newRequest cfg env ≠ none) ∧
      (∀ live ready, env.httpDo 0 = Except.ok live → is2xx live.StatusCode →
        env.httpDo 1 = Except.ok ready → ¬ is2xx ready.StatusCode →
        checkHatchet newRequest cfg env ≠ none)) ∧
    (∀ (newRequest : String → String → Except GoError aloha.Request) (c : aloha.Client)
        (env : aloha.Env),
      checkAlohaClient newRequest c env = none ↔
        ∃ resp, finalResponse newRequest env (c.clientURL ++ "/") = Except.ok resp) := by
  refine ⟨?_, ?_, ?_⟩
  · intro newRequest c env
    constructor
    · intro h
      unfold checkAlohaServer aloha.ServerHealth at h
      unfold finalResponse
      cases hr : (aloha.doRequestWithRetry env fun _ => newRequest "GET" (c.serverURL ++ "/")).1 with
      | error err => simp [hr] at h
      | ok resp =>
        refine ⟨resp, rfl, ?_⟩
        simp only [hr] at h
        by_cases hs : resp.StatusCode < 200 ∨ resp.StatusCode > 299
        · simp [hs] at h
        · unfold is2xx
          omega
    · intro resp hr hs
      unfold finalResponse at hr
      unfold is2xx at hs
      have hs' : resp.StatusCode < 200 ∨ resp.StatusCode > 299 := by omega
      simp [checkAlohaServer, aloha.ServerHealth, hr, hs']
  · intro newRequest cfg env
    have hlive : ∀ url n, (hatchet.checkHealth newRequest env n url).1 = none →
        ∃ resp, env.httpDo n = Except.ok resp ∧ is2xx resp.StatusCode := by
      intro url n h
      unfold hatchet.checkHealth at h
      cases hq : newRequest "GET" url with
      | error err => simp [hq] at h
      | ok req =>
        cases hd : env.httpDo n with
        | error err => simp [hq, hd] at h
        | ok resp =>
          refine ⟨resp, rfl, ?_⟩
          simp only [hq, hd] at h
          by_cases hs : resp.StatusCode < 200 ∨ resp.StatusCode > 299
          · simp [hs] at h
          · unfold is2xx
            omega
    have hbad : ∀ url n resp, env.httpDo n = Except.ok resp → ¬ is2xx resp.StatusCode →
        (hatchet.checkHealth newRequest env n url).1 ≠ none := by
      intro url n resp hd hs
      unfold is2xx at hs
      have hs' : resp.StatusCode < 200 ∨ resp.StatusCode > 299 := by omega
      unfold hatchet.checkHealth
      cases hq : newRequest "GET" url with
      | error err => simp
      | ok req => simp [hd, hs']
    refine ⟨?_, ?_, ?_⟩
    · intro h
      unfold checkHatchet at h
      cases hl : (hatchet.HealthLive newRequest cfg env 0).1 with
      | some err => simp [hl] at h
      | none =>
        simp only [hl] at h
        obtain ⟨live, h1, h2⟩ := hlive _ 0 hl
        obtain ⟨ready, h3, h4⟩ := hlive _ 1 h
        exact ⟨live, ready, h1, h2, h3, h4⟩
    · intro live hd hs h
      unfold checkHatchet at h
      cases hl : (hatchet.HealthLive newRequest cfg env 0).1 with
      | some err => simp [hl] at h
      | none => exact hbad _ 0 live hd hs hl
    · intro live ready hd0 _ hd1 hs1 h
      unfold checkHatchet at h
      cases hl : (hatchet.HealthLive newRequest cfg env 0).1 with
      | some err => simp [hl] at h
      | none =>
        simp only [hl] at h
        exact hbad _ 1 ready hd1 hs1 h
  · intro newRequest c env
    unfold checkAlohaClient aloha.ClientRootStatus finalResponse
    cases hr : (aloha.doRequestWithRetry env fun _ => newRequest "GET" (c.clientURL ++ "/")).1 with
    | error err => simp [hr]
    | ok resp => simp [hr]

/-- Claim C15, amended, at `aloha.envInternalError` and `hatchet.envNotReady`. -/
theorem http_probes_and_status_witness :
    checkAlohaServer aloha.anyRequest (aloha.New config.defaultConfig) aloha.envInternalError ≠
      none ∧
    checkHatchet aloha.anyRequest config.defaultConfig hatchet.envNotReady ≠ none ∧
    (∃ resp, finalResponse aloha.anyRequest aloha.envRunning
        ((aloha.New config.defaultConfig).serverURL ++ "/") = Except.ok resp ∧
      is2xx resp.StatusCode) := by
  have h := http_probes_and_status
  refine ⟨?_, ?_, ?_⟩
  · exact (h.1 aloha.anyRequest (aloha.New config.defaultConfig) aloha.envInternalError).2
      { StatusCode := 500, Body := "Internal Server Error" } rfl (by unfold is2xx; decide)
  · exact (h.2.1 aloha.anyRequest config.defaultConfig hatchet.envNotReady).2.2
      { StatusCode := 200, Body := "ok" } { StatusCode := 503, Body := " not ready " }
      rfl (by unfold is2xx; decide) rfl (by unfold is2xx; decide)
  · exact (h.1 aloha.anyRequest (aloha.New config.defaultConfig) aloha.envRunning).1
      (by decide)

section

open jobs

/-- Claim C16. `mapRunState` is a total function whose value is one of the five states:
QUEUED, RUNNING, COMPLETED, FAILED and CANCELLED map to "queued", "running", "completed",
"failed" and "cancelled", every other status maps to "queued", and so the state of an
unrecognised status is not terminal. -/
theorem mapRunState_defaults_to_queued :
    mapRunState V1TaskStatusQUEUED = "queued" ∧
    mapRunState V1TaskStatusRUNNING = "running" ∧
    mapRunState V1TaskStatusCOMPLETED = "completed" ∧
    mapRunState V1TaskStatusFAILED = "failed" ∧
    mapRunState V1TaskStatusCANCELLED = "cancelled" ∧
    (∀ status : String,
      status ≠ V1TaskStatusQUEUED → status ≠ V1TaskStatusRUNNING →
      status ≠ V1TaskStatusCOMPLETED → status ≠ V1TaskStatusFAILED →
      status ≠ V1TaskStatusCANCELLED →
      mapRunState status = "queued" ∧ isTerminalState (mapRunState status) = false) ∧
    (∀ status : String,
      mapRunState status = "queued" ∨ mapRunState status = "running" ∨
      mapRunState status = "completed" ∨ mapRunState status = "failed" ∨
      mapRunState status = "cancelled") := by
  refine ⟨by decide, by decide, by decide, by decide, by decide, ?_, ?_⟩
  · intro status h1 h2 h3 h4 h5
    have h : mapRunState status = "queued" := by
      simp [mapRunState, h1, h2, h3, h4, h5]
    rw [h]
    exact ⟨rfl, by decide⟩
  · intro status
    unfold mapRunState
    split
    · exact Or.inl rfl
    · split
      · exact Or.inr (Or.inl rfl)
      · split
        · exact Or.inr (Or.inr (Or.inl rfl))
        · split
          · exact Or.inr (Or.inr (Or.inr (Or.inl rfl)))
          · split
            · exact Or.inr (Or.inr (Or.inr (Or.inr rfl)))
            · exact Or.inl rfl

/-- Claim C16 at the status `"PAUSED"`. -/
theorem mapRunState_defaults_to_queued_witness :
    mapRunState "PAUSED" = "queued" ∧ isTerminalState (mapRunState "PAUSED") = false :=
  mapRunState_defaults_to_queued.2.2.2.2.2.1 "PAUSED" (by decide) (by decide) (by decide)
    (by decide) (by decide)


/-- Claim C17. When the polls numbered `0` to `k - 1` return a non-terminal status without a
query error and the wait after each ends with the tick, and poll number `k` returns a terminal
status, `watchJob` returns (given more than `k` turns of its loop) that terminal state with the
given job id and trace id and no error, after exactly `k + 1` status queries, that is one per
status up to and including the first terminal one, the last of them being its last effect. -/
theorem watch_returns_first_terminal_state (env : Env) (jobID traceID : String)
    (timeout : Int) (k fuel : Nat) (d : runDetails)
    (hbefore : ∀ i, i < k → ∃ di, env.get i = Except.ok di ∧
      isTerminalState (mapRunState di.Status) = false ∧ env.tick i = Wake.timer)
    (hk : env.get k = Except.ok d)
    (hterm : isTerminalState (mapRunState d.Status) = true)
    (hfuel : k < fuel) :
    (watchJob env jobID traceID timeout fuel).1 =
      some ({ JobID := jobID, State := mapRunState d.Status, TraceID := traceID }, none) ∧
    polls (watchJob env jobID traceID timeout fuel).2 = k + 1 ∧
    (watchJob env jobID traceID timeout fuel).2.getLast? = some (jobs.Event.get jobID) := by
  unfold watchJob
  exact jobs.watchLoop_first_terminal env jobID traceID k 0 fuel d
    (by simpa using hbefore) (by simpa using hk) hterm hfuel

/-- Claim C17 at the statuses queued, running, running, completed. -/
theorem watch_returns_first_terminal_state_witness :
    (watchJob envCompletes "run-1" "trace-123" (30 * time.Second) 100).1 =
      some ({ JobID := "run-1", State := "completed", TraceID := "trace-123" }, none) ∧
    polls (watchJob envCompletes "run-1" "trace-123" (30 * time.Second) 100).2 = 4 :=
  have h := watch_returns_first_terminal_state envCompletes "run-1" "trace-123"
    (30 * time.Second) 3 100 { Status := "COMPLETED", Input := [] }
    (by
      intro i hi
      interval_cases i
      · exact ⟨_, rfl, by decide, rfl⟩
      · exact ⟨_, rfl, by decide, rfl⟩
      · exact ⟨_, rfl, by decide, rfl⟩)
    rfl (by decide) (by decide)
  ⟨h.1, h.2.1⟩

/-- Claim C19. For the two job types: (1) `enqueueJob` calls the queue, once, exactly when the
payload field of the job type (`cmd` for windows.exec, `task` for aloha.run) is not blank after
trimming; (2) when it is blank, `enqueueJob` returns a usage error without any effect and
`cmdJobsEnqueue` returns exit code 2 without calling the queue; (3) when the dispatch succeeds,
`enqueueJob` returns state "queued", the run id given by the queue as job id and the submitted
trace id, its only effects being the log line and the dispatch: it queries no status. -/
theorem enqueue_dispatches_iff_payload_present (env : Env) (opts : jobEnqueueOptions)
    (htype : opts.jobType = hatchet.JobTypeWindowsExec ∨ opts.jobType = hatchet.JobTypeAlohaRun) :
    (dispatches (enqueueJob env opts).2 = 1 ↔
      strings.TrimSpace
        (if opts.jobType = hatchet.JobTypeWindowsExec then opts.cmd else opts.task) ≠ "") ∧
    (strings.TrimSpace
        (if opts.jobType = hatchet.JobTypeWindowsExec then opts.cmd else opts.task) = "" →
      (∃ err, (enqueueJob env opts).1 = Except.error (jobsError.usage err)) ∧
      (enqueueJob env opts).2 = [] ∧
      (cmdJobsEnqueue env (Except.ok opts) none).1 = 2 ∧
      dispatches (cmdJobsEnqueue env (Except.ok opts) none).2 = 0) ∧
    (∀ (workflowName : String) (input : workflowInput) (runId : String),
      buildWorkflowInput opts = Except.ok (workflowName, input) →
      env.runNoWait workflowName input = Except.ok runId →
      (enqueueJob env opts).1 =
        Except.ok { JobID := runId, State := "queued", TraceID := opts.traceID } ∧
      (enqueueJob env opts).2 =
        [jobs.Event.logInfo "enqueue" "dispatching",
          jobs.Event.runNoWait workflowName input] ∧
      polls (enqueueJob env opts).2 = 0) := by
  have hblank : strings.TrimSpace
        (if opts.jobType = hatchet.JobTypeWindowsExec then opts.cmd else opts.task) = "" →
      (∃ err, (enqueueJob env opts).1 = Except.error (jobsError.usage err)) ∧
      (enqueueJob env opts).2 = [] ∧
      (cmdJobsEnqueue env (Except.ok opts) none).1 = 2 ∧
      dispatches (cmdJobsEnqueue env (Except.ok opts) none).2 = 0 := by
    intro hfield
    obtain ⟨err, hbuild⟩ := jobs.buildWorkflowInput_blank opts htype hfield
    simp [enqueueJob, cmdJobsEnqueue, hbuild, isJobsUsageError, dispatches]
  refine ⟨?_, hblank, ?_⟩
  · constructor
    · intro hd hfield
      rw [(hblank hfield).2.1] at hd
      simp [dispatches] at hd
    · intro hfield
      obtain ⟨input, hbuild⟩ := jobs.buildWorkflowInput_ok opts htype hfield
      cases hr : env.runNoWait opts.jobType input <;>
        simp [enqueueJob, hbuild, hr, dispatches]
  · intro workflowName input runId hbuild hrun
    simp [enqueueJob, hbuild, hrun, polls]

/-- Claim C19 at `optsBlank` and `optsEcho`. -/
theorem enqueue_dispatches_iff_payload_present_witness :
    (cmdJobsEnqueue envCompletes (Except.ok optsBlank) none).1 = 2 ∧
    (enqueueJob envCompletes optsEcho).1 =
      Except.ok { JobID := "run-1", State := "queued", TraceID := "trace-123" } ∧
    dispatches (enqueueJob envCompletes optsEcho).2 = 1 := by
  have h1 := (enqueue_dispatches_iff_payload_present envCompletes optsBlank (Or.inl rfl)).2.1
    (by decide)
  have h2 := enqueue_dispatches_iff_payload_present envCompletes optsEcho (Or.inl rfl)
  have h3 := h2.2.2 "windows.exec" _ "run-1" rfl rfl
  exact ⟨h1.2.2.1, h3.1, h2.1.2 (by decide)⟩

/-- Claim C20, as stated, fails for a trace id that is not valid UTF-8. A Go string is a
sequence of bytes, and the value of the flag `--trace-id` is passed on as it is when it is
not blank. Take a `windows.exec` job whose trace id is the single byte 0xFF, which is not
empty. `buildWorkflowInput` copies the trace id into the payload, `json.Marshal` writes the
escape `\ufffd` for the byte, and from the decoded map `traceIDFromInput` returns the
character U+FFFD (the three bytes 0xEF 0xBF 0xBD), which is not the trace id that was
given. -/
theorem invalid_utf8_trace_id_is_not_recovered :
    traceIDInvalid ≠ [] ∧
    ∃ input fields,
      buildWorkflowInputRaw optsEcho traceIDInvalid = Except.ok ("windows.exec", input) ∧
      String.mk input.Marshal =
        "\x7b\"command\":\"echo ok\",\"timeout\":30000000000,\"trace_id\":\"\\ufffd\"\x7d" ∧
      json.UnmarshalMap input.Marshal = some fields ∧
      traceIDFromInput fields = "\uFFFD" ∧
      RawString.ofString (traceIDFromInput fields) ≠ traceIDInvalid :=
  ⟨by decide,
    workflowInputRaw.windowsExec
      { Command := RawString.ofString "echo ok", Timeout := 30 * time.Second,
        TraceID := traceIDInvalid, IdempotentCheck := [] },
    [("trace_id", JSON.string "\uFFFD"), ("timeout", JSON.number 30000000000),
      ("command", JSON.string "echo ok")],
    rfl, by decide, rfl, rfl, by decide⟩

/-- Claim C20, amended: the trace id comes back unchanged when it is valid UTF-8, and with
every byte that starts no valid encoding replaced by U+FFFD otherwise. (1) For both job
types, a payload field (the command, respectively the task) that is not blank and a
non-empty trace id that is a text, hence valid UTF-8: `buildWorkflowInput` returns a payload
under the name of the job type; the JSON text that `json.Marshal` writes for the payload
decodes, as `json.Unmarshal` into an untyped map does it, without error to a map whose
`trace_id` is the string of the trace id, and `traceIDFromInput` returns the trace id from
that map. (2) The same for a trace id given byte by byte, valid or not, in place of the one
of the options: a payload is returned, its JSON text decodes without error, and
`traceIDFromInput` returns the trace id with its invalid bytes replaced by U+FFFD; (3) on a
trace id that is a text this is the payload of `buildWorkflowInput`, and nothing is
replaced. (4) `traceIDFromInput` returns the empty string when the key `trace_id` is absent,
(5) and when its value is not a string. -/
theorem trace_id_round_trip :
    (∀ opts : jobEnqueueOptions,
      (opts.jobType = hatchet.JobTypeWindowsExec ∨ opts.jobType = hatchet.JobTypeAlohaRun) →
      strings.TrimSpace
        (if opts.jobType = hatchet.JobTypeWindowsExec then opts.cmd else opts.task) ≠ "" →
      opts.traceID ≠ "" →
      ∃ input fields,
        buildWorkflowInput opts = Except.ok (opts.jobType, input) ∧
        json.UnmarshalMap input.raw.Marshal = some fields ∧
        mapIndex fields "trace_id" = some (JSON.string opts.traceID) ∧
        traceIDFromInput fields = opts.traceID) ∧
    (∀ (opts : jobEnqueueOptions) (traceID : RawString),
      (opts.jobType = hatchet.JobTypeWindowsExec ∨ opts.jobType = hatchet.JobTypeAlohaRun) →
      strings.TrimSpace
        (if opts.jobType = hatchet.JobTypeWindowsExec then opts.cmd else opts.task) ≠ "" →
      traceID ≠ [] →
      ∃ input fields,
        buildWorkflowInputRaw opts traceID = Except.ok (opts.jobType, input) ∧
        json.UnmarshalMap input.Marshal = some fields ∧
        mapIndex fields "trace_id" = some (JSON.string traceID.coerced) ∧
        traceIDFromInput fields = traceID.coerced) ∧
    (∀ (opts : jobEnqueueOptions) (workflowName : String) (input : workflowInput),
      buildWorkflowInput opts = Except.ok (workflowName, input) →
      buildWorkflowInputRaw opts (RawString.ofString opts.traceID) =
          Except.ok (workflowName, input.raw) ∧
        (RawString.ofString opts.traceID).coerced = opts.traceID) ∧
    (∀ input : List (String × JSON),
      mapIndex input "trace_id" = none → traceIDFromInput input = "") ∧
    (∀ (input : List (String × JSON)) (value : JSON),
      mapIndex input "trace_id" = some value →
      (∀ s, value ≠ JSON.string s) → traceIDFromInput input = "") := by
  have raw : ∀ (opts : jobEnqueueOptions) (traceID : RawString),
      (opts.jobType = hatchet.JobTypeWindowsExec ∨ opts.jobType = hatchet.JobTypeAlohaRun) →
      strings.TrimSpace
        (if opts.jobType = hatchet.JobTypeWindowsExec then opts.cmd else opts.task) ≠ "" →
      traceID ≠ [] →
      ∃ input fields,
        buildWorkflowInputRaw opts traceID = Except.ok (opts.jobType, input) ∧
        json.UnmarshalMap input.Marshal = some fields ∧
        mapIndex fields "trace_id" = some (JSON.string traceID.coerced) ∧
        traceIDFromInput fields = traceID.coerced := by
    intro opts traceID htype hfield ht
    obtain ⟨input, h1, h2⟩ := jobs.buildWorkflowInputRaw_ok opts traceID htype hfield
    obtain ⟨fields, h3, h4, h5⟩ := jobs.Marshal_trace input traceID ht h2
    exact ⟨input, fields, h1, h3, h4, h5⟩
  refine ⟨?_, raw, ?_, ?_, ?_⟩
  · intro opts htype hfield ht
    obtain ⟨input, h1⟩ := jobs.buildWorkflowInput_ok opts htype hfield
    obtain ⟨inputRaw, fields, h2, h3, h4, h5⟩ := raw opts (RawString.ofString opts.traceID)
      htype hfield (jobs.ofString_ne_nil _ ht)
    rw [jobs.buildWorkflowInputRaw_ofString, h1] at h2
    injection h2 with h2
    injection h2 with _ h2
    subst h2
    rw [json.coerced_ofString] at h4 h5
    exact ⟨input, fields, h1, h3, h4, h5⟩
  · intro opts workflowName input h
    rw [jobs.buildWorkflowInputRaw_ofString, h]
    exact ⟨rfl, json.coerced_ofString _⟩
  · intro input h
    simp only [traceIDFromInput, h]
  · intro input value h hns
    unfold traceIDFromInput
    rw [h]
    cases value with
    | string s => exact absurd rfl (hns s)
    | null => rfl
    | bool b => rfl
    | number n => rfl
    | array items => rfl
    | object fields => rfl

/-- Claim C20, amended, at `optsEcho` and `optsClick`, whose payloads `buildWorkflowInput`
builds and whose JSON texts are the ones shown, and at a map whose `trace_id` is a number. -/
theorem trace_id_round_trip_witness :
    (∃ input fields,
      buildWorkflowInput optsEcho = Except.ok ("windows.exec", input) ∧
      String.mk input.raw.Marshal =
        "\x7b\"command\":\"echo ok\",\"timeout\":30000000000,\"trace_id\":\"trace-123\"\x7d" ∧
      json.UnmarshalMap input.raw.Marshal = some fields ∧
      traceIDFromInput fields = "trace-123") ∧
    (∃ input fields,
      buildWorkflowInput optsClick = Except.ok ("aloha.run", input) ∧
      String.mk input.raw.Marshal =
        ("\x7b\"task\":\"click button\",\"selected_screen\":1,\"trace_id\":\"trace-456\"," ++
          "\"max_steps\":10\x7d") ∧
      json.UnmarshalMap input.raw.Marshal = some fields ∧
      traceIDFromInput fields = "trace-456") ∧
    traceIDFromInput [("command", JSON.string "echo ok"), ("trace_id", JSON.number 7)] = "" := by
  obtain ⟨input1, fields1, a1, a2, -, a4⟩ :=
    trace_id_round_trip.1 optsEcho (Or.inl rfl) (by decide) (by decide)
  obtain ⟨input2, fields2, b1, b2, -, b4⟩ :=
    trace_id_round_trip.1 optsClick (Or.inr rfl) (by decide) (by decide)
  have e1 : buildWorkflowInput optsEcho = Except.ok ("windows.exec", workflowInput.windowsExec
      { WindowsExecInput := { Command := "echo ok", Timeout := 30 * time.Second },
        TraceID := "trace-123", IdempotentCheck := "" }) := rfl
  have e2 : buildWorkflowInput optsClick = Except.ok ("aloha.run", workflowInput.alohaRun
      { AlohaRunInput :=
          { Task := "click button", SelectedScreen := 1, TraceID := "trace-456", MaxSteps := 10 },
        IdempotentCheck := "" }) := rfl
  rw [e1] at a1
  rw [e2] at b1
  injection a1 with a1
  injection a1 with _ a1
  injection b1 with b1
  injection b1 with _ b1
  subst a1 b1
  exact ⟨⟨_, fields1, e1, by decide, a2, a4⟩, ⟨_, fields2, e2, by decide, b2, b4⟩,
    trace_id_round_trip.2.2.2.2 _ (JSON.number 7) rfl (by intro s h; cases h)⟩

end

/-! # Lemmas on cancellation, the configuration, the guards and the worker -/

namespace supervisor

theorem passCount_append (a b : List LoopEvent) :
    passCount (a ++ b) = passCount a + passCount b := by
  simp [passCount, List.filter_append]

theorem passCount_debugLog (debug : Bool) (op msg : String) :
    passCount (loopDebugLog debug op msg) = 0 := by
  cases debug <;> simp [loopDebugLog, passCount]

theorem passCount_pass (turn start : Nat) (v : circuitVars) (r : supervisorResult) :
    passCount [LoopEvent.pass turn start v r] = 1 := rfl

theorem passCount_sleep (d : Int) : passCount [LoopEvent.sleep d] = 0 := rfl

/-- An interrupted interval sleep is a cancellation of the context. -/
theorem intervalSleep_some (w : Wake) (e : GoError)
    (h : sleepContext supervisorLoopInterval w = some e) : w = Wake.ctxDone e := by
  unfold sleepContext at h
  cases w with
  | timer => simp at h
  | ctxDone c =>
    have hpos : ¬ supervisorLoopInterval ≤ 0 := by decide
    simp [hpos] at h
    rw [h]

/-- How the loop returns in loop mode: at the guard at the top of a turn, in the wait for the
open circuit, or in the interval sleep, each time because the context is done; `k` is the turn
in which it returns, and every turn before it has run one pass. -/
theorem superviseLoop_returns (env : LoopEnv) (debug : Bool) :
    ∀ (fuel turn now : Nat) (v : circuitVars) (code : Int),
      (superviseLoop env false debug fuel turn now v).1 = some code →
      ∃ k, turn ≤ k ∧
        ((env.ctxErr k ≠ none ∧ code = 0 ∧
            (∃ pre, (superviseLoop env false debug fuel turn now v).2 =
              pre ++ [LoopEvent.logInfo "run" "stopped"]) ∧
            passCount (superviseLoop env false debug fuel turn now v).2 = k - turn) ∨
          (∃ ctxErr wait, env.cooldownWake k = Wake.ctxDone ctxErr ∧ 0 < wait ∧
            code = supervisorExitFailure ∧
            (∃ pre, (superviseLoop env false debug fuel turn now v).2 =
              pre ++ [LoopEvent.logWarn "circuit" "open", LoopEvent.sleep wait]) ∧
            passCount (superviseLoop env false debug fuel turn now v).2 = k - turn) ∨
          (∃ ctxErr, env.intervalWake k = Wake.ctxDone ctxErr ∧ code = 0 ∧
            (∃ pre, (superviseLoop env false debug fuel turn now v).2 =
              pre ++ [LoopEvent.sleep supervisorLoopInterval]) ∧
            passCount (superviseLoop env false debug fuel turn now v).2 = k - turn + 1)) := by
  intro fuel
  induction fuel with
  | zero => intro turn now v code h; simp [superviseLoop] at h
  | succ fuel ih =>
    intro turn now v code
    rw [superviseLoop]
    cases hc : env.ctxErr turn with
    | some e =>
      intro h
      simp only [Option.some.injEq] at h
      refine ⟨turn, le_refl _, Or.inl ⟨by simp [hc], h.symm, ⟨[], rfl⟩, by simp [passCount]⟩⟩
    | none =>
      simp only []
      have key : ∀ (start : Nat) (v1 : circuitVars) (evs : List LoopEvent), passCount evs = 0 →
          ∀ out : Option Int × List LoopEvent,
          out = (match afterPass false debug (start + env.passDuration turn) v1
                (passResult env debug turn) with
              | (Except.error code, evs2) =>
                ((some code, evs ++ [LoopEvent.pass turn start v1 (passResult env debug turn)] ++
                  evs2) : Option Int × List LoopEvent)
              | (Except.ok v2, evs2) =>
                match sleepContext supervisorLoopInterval (env.intervalWake turn) with
                | some _ =>
                  (some 0, evs ++ [LoopEvent.pass turn start v1 (passResult env debug turn)] ++
                    evs2 ++ [LoopEvent.sleep supervisorLoopInterval])
                | none =>
                  ((superviseLoop env false debug fuel (turn + 1)
                      (start + env.passDuration turn + supervisorLoopInterval.toNat +
                        env.intervalLag turn) v2).1,
                    evs ++ [LoopEvent.pass turn start v1 (passResult env debug turn)] ++ evs2 ++
                      [LoopEvent.sleep supervisorLoopInterval] ++
                      (superviseLoop env false debug fuel (turn + 1)
                        (start + env.passDuration turn + supervisorLoopInterval.toNat +
                          env.intervalLag turn) v2).2)) →
          out.1 = some code →
          ∃ k, turn ≤ k ∧
            ((env.ctxErr k ≠ none ∧ code = 0 ∧
                (∃ pre, out.2 = pre ++ [LoopEvent.logInfo "run" "stopped"]) ∧
                passCount out.2 = k - turn) ∨
              (∃ ctxErr wait, env.cooldownWake k = Wake.ctxDone ctxErr ∧ 0 < wait ∧
                code = supervisorExitFailure ∧
                (∃ pre, out.2 = pre ++ [LoopEvent.logWarn "circuit" "open",
                  LoopEvent.sleep wait]) ∧
                passCount out.2 = k - turn) ∨
              (∃ ctxErr, env.intervalWake k = Wake.ctxDone ctxErr ∧ code = 0 ∧
                (∃ pre, out.2 = pre ++ [LoopEvent.sleep supervisorLoopInterval]) ∧
                passCount out.2 = k - turn + 1)) := by
        intro start v1 evs hevs out hout hres
        have hev2 : ∀ v2 evs2,
            afterPass false debug (start + env.passDuration turn) v1
              (passResult env debug turn) = (Except.ok v2, evs2) →
            passCount evs2 = 0 →
            ∃ k, turn ≤ k ∧
            ((env.ctxErr k ≠ none ∧ code = 0 ∧
                (∃ pre, out.2 = pre ++ [LoopEvent.logInfo "run" "stopped"]) ∧
                passCount out.2 = k - turn) ∨
              (∃ ctxErr wait, env.cooldownWake k = Wake.ctxDone ctxErr ∧ 0 < wait ∧
                code = supervisorExitFailure ∧
                (∃ pre, out.2 = pre ++ [LoopEvent.logWarn "circuit" "open",
                  LoopEvent.sleep wait]) ∧
                passCount out.2 = k - turn) ∨
              (∃ ctxErr, env.intervalWake k = Wake.ctxDone ctxErr ∧ code = 0 ∧
                (∃ pre, out.2 = pre ++ [LoopEvent.sleep supervisorLoopInterval]) ∧
                passCount out.2 = k - turn + 1)) := by
          intro v2 evs2 ha hp2
          rw [ha] at hout
          simp only [] at hout
          cases hw : sleepContext supervisorLoopInterval (env.intervalWake turn) with
          | some e =>
            rw [hw] at hout
            simp only [] at hout
            subst hout
            simp only [Option.some.injEq] at hres
            refine ⟨turn, le_refl _, Or.inr (Or.inr ⟨e, intervalSleep_some _ _ hw, hres.symm,
              ⟨_, rfl⟩, ?_⟩)⟩
            simp only [passCount_append, hevs, hp2, passCount_pass, passCount_sleep]
            omega
          | none =>
            rw [hw] at hout
            simp only [] at hout
            subst hout
            simp only [] at hres
            obtain ⟨k, hk, hcases⟩ := ih _ _ _ code hres
            refine ⟨k, by omega, ?_⟩
            have hpc : ∀ rest : List LoopEvent,
                passCount (evs ++ [LoopEvent.pass turn start v1 (passResult env debug turn)] ++
                  evs2 ++ [LoopEvent.sleep supervisorLoopInterval] ++ rest) =
                1 + passCount rest := by
              intro rest
              simp only [passCount_append, hevs, hp2, passCount_pass, passCount_sleep]
            obtain ⟨pfx, hpfx⟩ : ∃ pfx, pfx = evs ++
                [LoopEvent.pass turn start v1 (passResult env debug turn)] ++ evs2 ++
                [LoopEvent.sleep supervisorLoopInterval] := ⟨_, rfl⟩
            rcases hcases with ⟨h1, h2, ⟨pre, h3⟩, h4⟩ | ⟨ce, w, h1, hw0, h2, ⟨pre, h3⟩, h4⟩ |
              ⟨ce, h1, h2, ⟨pre, h3⟩, h4⟩
            · refine Or.inl ⟨h1, h2, ⟨pfx ++ pre, ?_⟩, ?_⟩
              · simp only [h3, hpfx, List.append_assoc]
              · simp only [hpc, h4]; omega
            · refine Or.inr (Or.inl ⟨ce, w, h1, hw0, h2, ⟨pfx ++ pre, ?_⟩, ?_⟩)
              · simp only [h3, hpfx, List.append_assoc]
              · simp only [hpc, h4]; omega
            · refine Or.inr (Or.inr ⟨ce, h1, h2, ⟨pfx ++ pre, ?_⟩, ?_⟩)
              · simp only [h3, hpfx, List.append_assoc]
              · simp only [hpc, h4]; omega
        rcases afterPass_loop debug (start + env.passDuration turn) v1 (passResult env debug turn)
          with ⟨he, ha⟩ | ⟨err, he, hthr, ha⟩ | ⟨err, he, hthr, ha⟩
        · exact hev2 _ _ ha (passCount_debugLog _ _ _)
        · exact hev2 _ _ ha (by simp [passCount])
        · exact hev2 _ _ ha (by simp [passCount])
      rcases cooldown_cases env turn now v with ⟨hlt, hcool⟩ | ⟨hlt, wait, hwait, hcool⟩
      · rw [hcool]
        simp only []
        intro h
        exact key now v [] (by simp [passCount]) _ rfl h
      · rcases hcool with ⟨ctxErr, hwake, hcool⟩ | ⟨-, start, hstart, hcool⟩
        · rw [hcool]
          simp only [Option.some.injEq]
          intro h
          refine ⟨turn, le_refl _, Or.inr (Or.inl ⟨ctxErr, wait, hwake, by omega, h.symm,
            ⟨[], rfl⟩, by simp [passCount]⟩)⟩
        · rw [hcool]
          simp only []
          intro h
          exact key start _ [LoopEvent.logWarn "circuit" "open", LoopEvent.sleep wait]
            (by simp [passCount]) _ rfl h

end supervisor

namespace config

theorem malformed_text (env : Env) (name : String) : malformed env (name, Kind.text) = none := by
  simp [malformed]

theorem overrideInt_error (env : Env) (name : String) (set : Config → Int → Config)
    (cfg : Config) (e : GoError) (h : overrideInt env name set cfg = Except.error e) :
    malformed env (name, Kind.int) = some e := by
  unfold overrideInt at h
  unfold malformed
  by_cases hv : env.getenv name = ""
  · simp [hv] at h
  · simp only [hv, ne_eq, not_false_eq_true, if_true, if_false] at h ⊢
    cases ha : env.atoi (env.getenv name) with
    | error err => simp [ha] at h; simp [h]
    | ok n => simp [ha] at h

theorem overrideInt_ok (env : Env) (name : String) (set : Config → Int → Config)
    (cfg c : Config) (h : overrideInt env name set cfg = Except.ok c) :
    malformed env (name, Kind.int) = none := by
  unfold overrideInt at h
  unfold malformed
  by_cases hv : env.getenv name = ""
  · simp [hv]
  · simp only [hv, ne_eq, not_false_eq_true, if_true, if_false] at h ⊢
    cases ha : env.atoi (env.getenv name) with
    | error err => simp [ha] at h
    | ok n => simp

theorem overrideDuration_error (env : Env) (name sample : String) (set : Config → Int → Config)
    (cfg : Config) (e : GoError) (h : overrideDuration env name sample set cfg = Except.error e) :
    malformed env (name, Kind.duration sample) = some e := by
  unfold overrideDuration at h
  unfold malformed
  by_cases hv : env.getenv name = ""
  · simp [hv] at h
  · simp only [hv, ne_eq, not_false_eq_true, if_true, if_false] at h ⊢
    cases ha : env.parseDuration (env.getenv name) with
    | error err => simp [ha] at h; simp [h]
    | ok n => simp [ha] at h

theorem overrideDuration_ok (env : Env) (name sample : String) (set : Config → Int → Config)
    (cfg c : Config) (h : overrideDuration env name sample set cfg = Except.ok c) :
    malformed env (name, Kind.duration sample) = none := by
  unfold overrideDuration at h
  unfold malformed
  by_cases hv : env.getenv name = ""
  · simp [hv]
  · simp only [hv, ne_eq, not_false_eq_true, if_true, if_false] at h ⊢
    cases ha : env.parseDuration (env.getenv name) with
    | error err => simp [ha] at h
    | ok n => simp

theorem errorOf_bind (x : Except GoError Config) (k : Config → Except GoError Config)
    (m rest : Option GoError)
    (hx : ∀ e, x = Except.error e → m = some e) (hx2 : ∀ c, x = Except.ok c → m = none)
    (hk : ∀ c, errorOf (k c) = rest) :
    errorOf (x >>= k) = m.orElse fun _ => rest := by
  cases x with
  | error e => rw [hx e rfl]; rfl
  | ok c => rw [hx2 c rfl]; exact hk c

theorem findSome_cons_orElse (f : String × Kind → Option GoError) (a : String × Kind)
    (l : List (String × Kind)) :
    (a :: l).findSome? f = (f a).orElse fun _ => l.findSome? f := by
  rw [List.findSome?_cons]
  cases f a <;> rfl

theorem LoadFromEnv_error (env : Env) : (LoadFromEnv env).2 = firstMalformed env := by
  have h0 : (LoadFromEnv env).2 = errorOf (applyEnvOverrides env defaultConfig) := by
    unfold LoadFromEnv errorOf
    cases applyEnvOverrides env defaultConfig <;> rfl
  rw [h0]
  unfold applyEnvOverrides firstMalformed envVariables
  simp only [findSome_cons_orElse, malformed_text, Option.orElse, List.findSome?_nil]
  refine errorOf_bind _ _ (malformed env (_, Kind.int)) _ (overrideInt_error env _ _ _)
    (overrideInt_ok env _ _ _)
    (fun c => ?_)
  refine errorOf_bind _ _ (malformed env (_, Kind.duration _)) _
    (overrideDuration_error env _ _ _ _)
    (overrideDuration_ok env _ _ _ _) (fun c => ?_)
  refine errorOf_bind _ _ (malformed env (_, Kind.int)) _ (overrideInt_error env _ _ _)
    (overrideInt_ok env _ _ _)
    (fun c => ?_)
  refine errorOf_bind _ _ (malformed env (_, Kind.duration _)) _
    (overrideDuration_error env _ _ _ _)
    (overrideDuration_ok env _ _ _ _) (fun c => ?_)
  refine errorOf_bind _ _ (malformed env (_, Kind.int)) _ (overrideInt_error env _ _ _)
    (overrideInt_ok env _ _ _)
    (fun c => ?_)
  refine errorOf_bind _ _ (malformed env (_, Kind.duration _)) _
    (overrideDuration_error env _ _ _ _)
    (overrideDuration_ok env _ _ _ _) (fun c => ?_)
  refine errorOf_bind _ _ (malformed env (_, Kind.int)) _ (overrideInt_error env _ _ _)
    (overrideInt_ok env _ _ _)
    (fun c => ?_)
  refine errorOf_bind _ _ (malformed env (_, Kind.int)) _ (overrideInt_error env _ _ _)
    (overrideInt_ok env _ _ _)
    (fun c => ?_)
  rfl


theorem LoadFromEnv_zero_on_error (env : Env) (err : GoError)
    (h : (LoadFromEnv env).2 = some err) : LoadFromEnv env = (zeroConfig, some err) := by
  unfold LoadFromEnv at h ⊢
  cases hx : applyEnvOverrides env defaultConfig with
  | error e => simp only [hx] at h ⊢; rw [Option.some.inj h]
  | ok c => simp [hx] at h

end config

namespace strings

theorem Contains_middle (pre s post : String) : Contains (pre ++ s ++ post) s = true := by
  unfold Contains
  rw [String.data_append, String.data_append, hasInfix_iff]
  exact List.infix_append _ _ _

end strings

namespace config

/-- The words of the error of a variable that does not parse. -/
theorem malformed_words (env : Env) (name : String) (kind : Kind) (e : GoError)
    (h : malformed env (name, kind) = some e) :
    (kind = Kind.int ∧ ∃ pe, env.atoi (env.getenv name) = Except.error pe ∧
      e = Wrapf (name ++ " must be an int: ") pe ∧
      strings.Contains e.text "must be an int" = true) ∨
    (∃ sample, kind = Kind.duration sample ∧
      ∃ pe, env.parseDuration (env.getenv name) = Except.error pe ∧
      e = Wrapf (name ++ " must be a duration (e.g. " ++ sample ++ "): ") pe ∧
      strings.Contains e.text "must be a duration" = true) := by
  unfold malformed at h
  by_cases hv : env.getenv name = ""
  · simp [hv] at h
  · simp only [hv, if_false] at h
    cases kind with
    | text => simp at h
    | int =>
      left
      cases ha : env.atoi (env.getenv name) with
      | ok n => simp [ha] at h
      | error pe =>
        simp only [ha, Option.some.injEq] at h
        refine ⟨rfl, pe, rfl, h.symm, ?_⟩
        rw [← h]
        have : (Wrapf (name ++ " must be an int: ") pe).text =
            (name ++ " ") ++ "must be an int" ++ (": " ++ pe.text) := by
          simp only [Wrapf]
          apply String.ext
          simp only [String.data_append, List.append_assoc]
          rfl
        rw [this]
        exact strings.Contains_middle _ _ _
    | duration sample =>
      right
      cases ha : env.parseDuration (env.getenv name) with
      | ok n => simp [ha] at h
      | error pe =>
        simp only [ha, Option.some.injEq] at h
        refine ⟨sample, rfl, pe, rfl, h.symm, ?_⟩
        rw [← h]
        have : (Wrapf (name ++ " must be a duration (e.g. " ++ sample ++ "): ") pe).text =
            (name ++ " ") ++ "must be a duration" ++ (" (e.g. " ++ sample ++ "): " ++ pe.text) := by
          simp only [Wrapf]
          apply String.ext
          simp only [String.data_append, List.append_assoc]
          rfl
        rw [this]
        exact strings.Contains_middle _ _ _

/-- A variable that is set to a text that does not parse is malformed. -/
theorem malformed_of_parsed_error (env : Env) (name : String) (kind : Kind) (perr : GoError)
    (hset : env.getenv name ≠ "") (hbad : parsed env kind (env.getenv name) = Except.error perr) :
    ∃ e, malformed env (name, kind) = some e := by
  unfold malformed
  simp only [hset, if_false]
  cases kind with
  | text => simp [parsed] at hbad
  | int => simp only [parsed] at hbad; simp [hbad]
  | duration sample => simp only [parsed] at hbad; simp [hbad]

end config

namespace sshx

/-- A loop of `Run` that ends without error ends with an attempt whose `cmd.Run()` returned
`nil`. -/
theorem runLoop_ok_attempt (env : Env) (sshPath : String) (args : List String) :
    ∀ (remaining attempt : Nat), (runLoop env sshPath args remaining attempt).1.2 = none →
      ∃ k, attempt ≤ k ∧ k < attempt + remaining ∧ (env.cmdRun k).runErr = none := by
  intro remaining
  induction remaining with
  | zero => intro attempt h; simp [runLoop] at h
  | succ n ih =>
    intro attempt h
    cases hr : (env.cmdRun attempt).runErr with
    | none => exact ⟨attempt, le_refl _, by omega, hr⟩
    | some e =>
      cases hx : e.exitCode with
      | some code => simp [runLoop, hr, hx] at h
      | none =>
        by_cases hlast : attempt = maxAttempts - 1 ∨
            ¬ shouldRetryConnectionError env.lowerTable e = true
        · simp only [runLoop, hr, hx] at h
          rw [if_pos hlast] at h
          simp at h
        · cases hw : sleepContext (env.wake attempt) with
          | some err =>
            simp only [runLoop, hr, hx] at h
            rw [if_neg hlast] at h
            simp [hw] at h
          | none =>
            have hstep : (runLoop env sshPath args (n + 1) attempt).1 =
                (runLoop env sshPath args n (attempt + 1)).1 := by
              simp only [runLoop, hr, hx]
              rw [if_neg hlast]
              simp only [hw]
            rw [hstep] at h
            obtain ⟨k, h1, h2, h3⟩ := ih (attempt + 1) h
            exact ⟨k, by omega, by omega, h3⟩

end sshx

namespace main

/-- The guards when the desktop probe does not report an unlocked desktop. -/
theorem idempotentGuards_blocked (env : Env) (cfg : config.Config) (logEnabled : Bool)
    (component action check : String)
    (h : ¬ ((sshx.Run (env.ssh 0) cfg (win.DesktopUnlockedCheck env.quote)).1.2 = none ∧
      strings.EqualFold env.foldEq (strings.TrimSpace
        (sshx.Run (env.ssh 0) cfg (win.DesktopUnlockedCheck env.quote)).1.1.Stdout) "True" =
          true)) :
    (idempotentGuards env cfg logEnabled component action check).1 = some 1 ∧
    commands (idempotentGuards env cfg logEnabled component action check).2 =
      [win.DesktopUnlockedCheck env.quote] ∧
    tasks (idempotentGuards env cfg logEnabled component action check).2 = [] := by
  unfold idempotentGuards runDesktopUnlockedCheck
  cases he : (sshx.Run (env.ssh 0) cfg (win.DesktopUnlockedCheck env.quote)).1.2 with
  | some err => cases logEnabled <;> simp [he, commands, tasks]
  | none =>
    have h2 : ¬ strings.EqualFold env.foldEq (strings.TrimSpace
        (sshx.Run (env.ssh 0) cfg (win.DesktopUnlockedCheck env.quote)).1.1.Stdout) "True" =
          true := fun hq => h ⟨he, hq⟩
    cases logEnabled <;> simp [he, h2, commands, tasks]

/-- The guards when the desktop probe reports an unlocked desktop: the idempotency check is
run next. -/
theorem idempotentGuards_unlocked (env : Env) (cfg : config.Config) (logEnabled : Bool)
    (component action check : String)
    (h1 : (sshx.Run (env.ssh 0) cfg (win.DesktopUnlockedCheck env.quote)).1.2 = none)
    (h2 : strings.EqualFold env.foldEq (strings.TrimSpace
        (sshx.Run (env.ssh 0) cfg (win.DesktopUnlockedCheck env.quote)).1.1.Stdout) "True" =
          true) :
    commands (idempotentGuards env cfg logEnabled component action check).2 =
      [win.DesktopUnlockedCheck env.quote, win.PowerShellCommand env.quote check] ∧
    tasks (idempotentGuards env cfg logEnabled component action check).2 = [] ∧
    (idempotentGuards env cfg logEnabled component action check).1 =
      (if (runIdempotentCheck env 1 cfg logEnabled component action check).1.1 = true then
        some (runIdempotentCheck env 1 cfg logEnabled component action check).1.2
      else none) := by
  unfold idempotentGuards
  have hd : runDesktopUnlockedCheck env 0 cfg logEnabled component action =
      (false, [Event.sshRun (win.DesktopUnlockedCheck env.quote)
        (sshx.Run (env.ssh 0) cfg (win.DesktopUnlockedCheck env.quote)).2]) := by
    simp [runDesktopUnlockedCheck, h1, h2]
  rw [hd]
  have hc : commands (runIdempotentCheck env 1 cfg logEnabled component action check).2 =
      [win.PowerShellCommand env.quote check] ∧
      tasks (runIdempotentCheck env 1 cfg logEnabled component action check).2 = [] := by
    unfold runIdempotentCheck
    cases hq : (sshx.Run (env.ssh 1) cfg (win.PowerShellCommand env.quote check)).1.2 with
    | none => cases logEnabled <;> simp [hq, commands, tasks]
    | some err =>
      by_cases hx : (sshx.Run (env.ssh 1) cfg
          (win.PowerShellCommand env.quote check)).1.1.ExitCode > 0
      · simp [hq, hx, commands, tasks]
      · cases logEnabled <;> simp [hq, hx, commands, tasks]
  by_cases hs : (runIdempotentCheck env 1 cfg logEnabled component action check).1.1 = true
  · simp [hs, commands, tasks, hc.1, hc.2]
  · simp [hs, commands, tasks, hc.1, hc.2]

end main

namespace hatchet

/-- The handlers of a new worker, by job type. -/
theorem NewWorker_lookup (env : WorkerEnv) (cfg : config.Config) (jobType : String) :
    (NewWorker env cfg).handlers.lookup jobType =
      if jobType = JobTypeWindowsExec then some (handleWindowsExec env cfg)
      else if jobType = JobTypeAlohaRun then some (handleAlohaRun env cfg)
      else none := by
  simp only [NewWorker, List.lookup]
  by_cases h1 : jobType = JobTypeWindowsExec
  · have h3 : (jobType == JobTypeWindowsExec) = true := by simpa using h1
    rw [if_pos h1]
    simp only [h3]
  · have h3 : (jobType == JobTypeWindowsExec) = false := by simpa using h1
    by_cases h2 : jobType = JobTypeAlohaRun
    · have h4 : (jobType == JobTypeAlohaRun) = true := by simpa using h2
      rw [if_neg h1, if_pos h2]
      simp only [h3, h4]
    · have h4 : (jobType == JobTypeAlohaRun) = false := by simpa using h2
      rw [if_neg h1, if_neg h2]
      simp only [h3, h4]

/-- What `HandleJob` returns once the handler is found and the payload is encoded. -/
theorem HandleJob_handled (w : Worker) (req : JobRequest) (handler : TaskHandler)
    (payload : JSON) (hl : w.handlers.lookup req.Type_ = some handler)
    (hm : req.Payload.marshal = Except.ok payload) :
    ((w.HandleJob req).1.2 = none ∧ (w.HandleJob req).1.1.Status = JobStatusCompleted) ∨
    (∃ err, (w.HandleJob req).1.2 = some err ∧ (w.HandleJob req).1.1.Status = JobStatusFailed ∧
      (w.HandleJob req).1.1.Error = err.text) := by
  unfold Worker.HandleJob
  simp only [hl, hm]
  cases he : (handler payload).1.2 with
  | none => left; exact ⟨rfl, rfl⟩
  | some err => right; exact ⟨err, rfl, rfl, rfl⟩

end hatchet

/-! # The job commands, the configuration, the guards, cancellation and the worker: claims C21 to C30 -/

/-- Claim C21, a run in which the code departs from it. The cancel call returns without error
and the status query that follows reports the run as still running: `cmdJobsCancel` writes the
state "running", logs "ok" and returns exit code 0, that is, it reports success although the
state it has just read is not terminal. -/
theorem cancel_reports_success_for_running_job :
    jobs.cmdJobsCancel jobs.envStillRunning (Except.ok (jobs.sampleRunID, false)) none =
      (0, [jobs.CancelEvent.cancel [jobs.sampleRunID],
        jobs.CancelEvent.job (jobs.Event.get jobs.sampleRunID),
        jobs.CancelEvent.job (jobs.Event.write
          { JobID := jobs.sampleRunID, State := "running", TraceID := "t-1" } false),
        jobs.CancelEvent.job (jobs.Event.logInfo "cancel" "ok")]) ∧
    jobs.isTerminalState "running" = false := by
  decide

/-- Claim C22, as stated, fails: when the cancel call succeeds and the status query that
follows reports the run as cancelled, `cmdJobsCancel` returns exit code 0, not 1. -/
theorem cancel_of_cancelled_job_exits_zero :
    (jobs.cmdJobsCancel jobs.envCancelConfirmed (Except.ok (jobs.sampleRunID, false)) none).1 =
      0 := by
  decide

/-- Claim C22, amended. When the id is not blank and parses, the client is there, the cancel
call returns without error and the status query that follows reports the run as cancelled,
`cmdJobsCancel` returns exit code 0, and its effects are the cancel call, the one status
query, the output of the job id with state "cancelled" and the trace id of the stored input,
and the log line "ok". Exit code 1 for a cancelled run is what `cmdJobsRun` returns when the
watch it makes of its job ends in the state "cancelled". -/
theorem cancel_then_cancelled_exits_zero (env : jobs.CancelEnv) (jobID parsedID : String)
    (jsonOutput : Bool) (details : jobs.runDetails)
    (hid : strings.TrimSpace jobID ≠ "")
    (hparse : env.parseUUID jobID = Except.ok parsedID)
    (hcancel : env.cancel [parsedID] = none)
    (hget : env.get jobID = Except.ok details)
    (hstate : jobs.mapRunState details.Status = "cancelled") :
    jobs.cmdJobsCancel env (Except.ok (jobID, jsonOutput)) none =
      (0, [jobs.CancelEvent.cancel [parsedID],
        jobs.CancelEvent.job (jobs.Event.get jobID),
        jobs.CancelEvent.job (jobs.Event.write
          { JobID := jobID, State := "cancelled",
            TraceID := jobs.traceIDFromInput details.Input } jsonOutput),
        jobs.CancelEvent.job (jobs.Event.logInfo "cancel" "ok")]) ∧
    (∀ (qenv : jobs.Env) (cfg : config.Config) (opts : jobs.jobEnqueueOptions) (fuel : Nat)
        (result final : jobs.jobOutput),
      (jobs.enqueueJob qenv opts).1 = Except.ok result →
      (jobs.watchJob qenv result.JobID result.TraceID cfg.HatchetJobTimeout fuel).1 =
        some (final, none) →
      final.State = "cancelled" →
      (jobs.cmdJobsRun qenv cfg (Except.ok opts) none fuel).1 = some 1) := by
  constructor
  · simp [jobs.cmdJobsCancel, hid, hparse, hcancel, hget, hstate]
  · intro qenv cfg opts fuel result final henq hwatch hstate2
    simp [jobs.cmdJobsRun, henq, hwatch, hstate2]

/-- Claim C22, amended, at a queue that confirms the cancellation, and at a queue whose run is
cancelled while `cmdJobsRun` watches it. -/
theorem cancel_then_cancelled_exits_zero_witness :
    (jobs.cmdJobsCancel jobs.envCancelConfirmed (Except.ok (jobs.sampleRunID, true)) none).1 =
      0 ∧
    (jobs.cmdJobsRun jobs.envCancelledWhileWatched config.defaultConfig
      (Except.ok jobs.optsEcho) none 10).1 = some 1 := by
  have h := cancel_then_cancelled_exits_zero jobs.envCancelConfirmed jobs.sampleRunID
    jobs.sampleRunID true
    { Status := "CANCELLED", Input := [("trace_id", JSON.string "t-1")] }
    (by decide) rfl rfl rfl (by decide)
  refine ⟨by rw [h.1], ?_⟩
  exact h.2 jobs.envCancelledWhileWatched config.defaultConfig jobs.optsEcho 10
    { JobID := "run-4", State := "queued", TraceID := "trace-123" }
    { JobID := "run-4", State := "cancelled", TraceID := "trace-123" } rfl (by decide) rfl

/-- Claim C23. `JobRequest.WithDefaults` leaves each of `Timeout`, `RetryMax` and
`RetryBackoff` as it is when it is not zero and sets it to `HatchetJobTimeout`,
`HatchetRetryMax` and `HatchetRetryBackoff` of the configuration when it is zero; `Type`,
`Payload` and `Idempotent` stay as they are; and a second call with the same configuration
changes nothing. -/
theorem withDefaults_fills_zero_fields_only (r : hatchet.JobRequest) (cfg : config.Config) :
    (r.WithDefaults cfg).Timeout = (if r.Timeout = 0 then cfg.HatchetJobTimeout else r.Timeout) ∧
    (r.WithDefaults cfg).RetryMax = (if r.RetryMax = 0 then cfg.HatchetRetryMax else r.RetryMax) ∧
    (r.WithDefaults cfg).RetryBackoff =
      (if r.RetryBackoff = 0 then cfg.HatchetRetryBackoff else r.RetryBackoff) ∧
    (r.WithDefaults cfg).Type_ = r.Type_ ∧
    (r.WithDefaults cfg).Payload = r.Payload ∧
    (r.WithDefaults cfg).Idempotent = r.Idempotent ∧
    (r.WithDefaults cfg).WithDefaults cfg = r.WithDefaults cfg := by
  obtain ⟨ty, payload, timeout, retryMax, retryBackoff, idempotent⟩ := r
  simp only [hatchet.JobRequest.WithDefaults]
  by_cases h1 : timeout = 0 <;> by_cases h2 : retryMax = 0 <;> by_cases h3 : retryBackoff = 0 <;>
    by_cases c1 : cfg.HatchetJobTimeout = 0 <;> by_cases c2 : cfg.HatchetRetryMax = 0 <;>
    by_cases c3 : cfg.HatchetRetryBackoff = 0 <;>
    simp [h1, h2, h3, c1, c2, c3]

/-- Claim C23 at the configuration of `TestJobRequest_WithDefaults` and a request that sets
the retry backoff only. -/
theorem withDefaults_fills_zero_fields_only_witness :
    (hatchet.requestWithBackoff.WithDefaults hatchet.testConfig).Timeout = 15 * time.Minute ∧
    (hatchet.requestWithBackoff.WithDefaults hatchet.testConfig).RetryMax = 5 ∧
    (hatchet.requestWithBackoff.WithDefaults hatchet.testConfig).RetryBackoff =
      3 * time.Second ∧
    (hatchet.requestWithBackoff.WithDefaults hatchet.testConfig).Idempotent = true := by
  have h := withDefaults_fills_zero_fields_only hatchet.requestWithBackoff hatchet.testConfig
  exact ⟨h.1.trans (by decide), h.2.1.trans (by decide), h.2.2.1.trans (by decide),
    h.2.2.2.2.2.1.trans (by decide)⟩

/-- Claim C24. `runIdempotentCheck` runs the check script through `sshx.Run` and decides on
what `Run` returns: (1) no error, which means that an attempt ran the script and it exited
with status zero: the action is skipped with exit code 0; (2) an error with a positive exit
code, which is the status with which the script exited in an attempt: the action proceeds
(`skipped = false`); (3) an error without a positive exit code: the action is skipped with
exit code 1. (4) Such are the runs in which `ssh` is not found and the runs whose first
attempt fails at the transport level for good. (5) A first attempt in which the script exits
with status zero, or with a positive status, gives (1), or (2). -/
theorem idempotent_check_polarity (env : main.Env) (n : Nat) (cfg : config.Config)
    (logEnabled : Bool) (component action script : String) :
    ((sshx.Run (env.ssh n) cfg (win.PowerShellCommand env.quote script)).1.2 = none →
      (main.runIdempotentCheck env n cfg logEnabled component action script).1 = (true, 0) ∧
      ∃ k, k < 3 ∧ ((env.ssh n).cmdRun k).runErr = none) ∧
    ((sshx.Run (env.ssh n) cfg (win.PowerShellCommand env.quote script)).1.2 ≠ none →
      0 < (sshx.Run (env.ssh n) cfg (win.PowerShellCommand env.quote script)).1.1.ExitCode →
      (main.runIdempotentCheck env n cfg logEnabled component action script).1 = (false, 0) ∧
      ∃ k e, k < 3 ∧ ((env.ssh n).cmdRun k).runErr = some e ∧
        e.exitCode =
          some (sshx.Run (env.ssh n) cfg (win.PowerShellCommand env.quote script)).1.1.ExitCode) ∧
    ((sshx.Run (env.ssh n) cfg (win.PowerShellCommand env.quote script)).1.2 ≠ none →
      (sshx.Run (env.ssh n) cfg (win.PowerShellCommand env.quote script)).1.1.ExitCode ≤ 0 →
      (main.runIdempotentCheck env n cfg logEnabled component action script).1 = (true, 1)) ∧
    ((∀ err, (env.ssh n).lookPath = Except.error err →
        (main.runIdempotentCheck env n cfg logEnabled component action script).1 = (true, 1)) ∧
      (∀ sshPath e, (env.ssh n).lookPath = Except.ok sshPath →
        ((env.ssh n).cmdRun 0).runErr = some e → e.exitCode = none →
        sshx.shouldRetryConnectionError (env.ssh n).lowerTable e = false →
        (main.runIdempotentCheck env n cfg logEnabled component action script).1 = (true, 1))) ∧
    ((∀ sshPath, (env.ssh n).lookPath = Except.ok sshPath →
        ((env.ssh n).cmdRun 0).runErr = none →
        (main.runIdempotentCheck env n cfg logEnabled component action script).1 = (true, 0)) ∧
      (∀ sshPath e code, (env.ssh n).lookPath = Except.ok sshPath →
        ((env.ssh n).cmdRun 0).runErr = some e → e.exitCode = some code → 0 < code →
        (main.runIdempotentCheck env n cfg logEnabled component action script).1 =
          (false, 0))) := by
  have h1 : (sshx.Run (env.ssh n) cfg (win.PowerShellCommand env.quote script)).1.2 = none →
      (main.runIdempotentCheck env n cfg logEnabled component action script).1 = (true, 0) := by
    intro h
    simp [main.runIdempotentCheck, h]
  have h2 : (sshx.Run (env.ssh n) cfg (win.PowerShellCommand env.quote script)).1.2 ≠ none →
      0 < (sshx.Run (env.ssh n) cfg (win.PowerShellCommand env.quote script)).1.1.ExitCode →
      (main.runIdempotentCheck env n cfg logEnabled component action script).1 = (false, 0) := by
    intro h hc
    cases he : (sshx.Run (env.ssh n) cfg (win.PowerShellCommand env.quote script)).1.2 with
    | none => exact absurd he h
    | some err => simp [main.runIdempotentCheck, he, hc]
  have h3 : (sshx.Run (env.ssh n) cfg (win.PowerShellCommand env.quote script)).1.2 ≠ none →
      (sshx.Run (env.ssh n) cfg (win.PowerShellCommand env.quote script)).1.1.ExitCode ≤ 0 →
      (main.runIdempotentCheck env n cfg logEnabled component action script).1 = (true, 1) := by
    intro h hc
    cases he : (sshx.Run (env.ssh n) cfg (win.PowerShellCommand env.quote script)).1.2 with
    | none => exact absurd he h
    | some err =>
      have hc2 : ¬ (sshx.Run (env.ssh n) cfg
          (win.PowerShellCommand env.quote script)).1.1.ExitCode > 0 := by omega
      simp [main.runIdempotentCheck, he, hc2]
  refine ⟨?_, ?_, h3, ⟨?_, ?_⟩, ⟨?_, ?_⟩⟩
  · intro h
    refine ⟨h1 h, ?_⟩
    cases hlp : (env.ssh n).lookPath with
    | error err => simp [sshx.Run, hlp] at h
    | ok sshPath =>
      simp only [sshx.Run, hlp] at h
      obtain ⟨k, -, hk, hr⟩ := sshx.runLoop_ok_attempt _ _ _ _ _ h
      exact ⟨k, by simpa [sshx.maxAttempts] using hk, hr⟩
  · intro h hc
    refine ⟨h2 h hc, ?_⟩
    cases hlp : (env.ssh n).lookPath with
    | error err => simp [sshx.Run, hlp] at hc
    | ok sshPath =>
      rcases run_error_exit_code_after_lookPath (env.ssh n) cfg _ sshPath hlp h with hneg | hex
      · omega
      · exact hex
  · intro err hlp
    exact h3 (by simp [sshx.Run, hlp]) (by simp [sshx.Run, hlp])
  · intro sshPath e hlp hr hx hnr
    exact h3 (by simp [sshx.Run, hlp, sshx.runLoop, sshx.maxAttempts, hr, hx, hnr])
      (by simp [sshx.Run, hlp, sshx.runLoop, sshx.maxAttempts, hr, hx, hnr])
  · intro sshPath hlp hr
    exact h1 (by simp [sshx.Run, hlp, sshx.runLoop, sshx.maxAttempts, hr])
  · intro sshPath e code hlp hr hx hc
    exact h2 (by simp [sshx.Run, hlp, sshx.runLoop, sshx.maxAttempts, hr, hx])
      (by simp [sshx.Run, hlp, sshx.runLoop, sshx.maxAttempts, hr, hx, hc])

/-- Claim C24 at a check script that exits with status 0, at one that exits with status 1,
and at a host that refuses the connection. -/
theorem idempotent_check_polarity_witness :
    (main.runIdempotentCheck main.envAlreadyDone 1 config.defaultConfig true "windows" "exec"
      "Test-Path C:/done").1 = (true, 0) ∧
    (main.runIdempotentCheck main.envProceeds 1 config.defaultConfig true "windows" "exec"
      "Test-Path C:/done").1 = (false, 0) ∧
    (main.runIdempotentCheck main.envCheckUnreachable 1 config.defaultConfig true "windows"
      "exec" "Test-Path C:/done").1 = (true, 1) :=
  ⟨((idempotent_check_polarity main.envAlreadyDone 1 config.defaultConfig true "windows" "exec"
      "Test-Path C:/done").1 (by decide)).1,
    ((idempotent_check_polarity main.envProceeds 1 config.defaultConfig true "windows" "exec"
      "Test-Path C:/done").2.1 (by decide) (by decide)).1,
    (idempotent_check_polarity main.envCheckUnreachable 1 config.defaultConfig true "windows"
      "exec" "Test-Path C:/done").2.2.1 (by decide) (by decide)⟩

/-- Claim C25, as stated, fails for the network errors: `context.DeadlineExceeded` is a
`net.Error` that reports a timeout and a temporary condition, and `isTransientNetworkError`
classifies it as not transient. -/
theorem deadline_exceeded_is_not_transient :
    context.DeadlineExceeded.netError = some (true, true) ∧
    aloha.isTransientNetworkError context.DeadlineExceeded = false := by
  decide

/-- Claim C25, amended. `shouldRetryConnectionError` holds exactly when the lower-cased text
of the error contains "connection" or "timeout"; `isTransientNetworkError` holds exactly for
the errors that are a `net.Error` reporting a timeout or a temporary condition and that are
neither `context.Canceled` nor `context.DeadlineExceeded` (nor wrap one of them);
`isRetryableStatus` holds exactly for 502, 503 and 504. -/
theorem transient_classification :
    (∀ (table : Char → Char) (err : GoError),
      sshx.shouldRetryConnectionError table err = true ↔
        (strings.Contains (strings.ToLower table err.text) "connection" = true ∨
          strings.Contains (strings.ToLower table err.text) "timeout" = true)) ∧
    (∀ err : GoError,
      aloha.isTransientNetworkError err = true ↔
        (err.isCanceled = false ∧ err.isDeadlineExceeded = false ∧
          ∃ timeout temporary, err.netError = some (timeout, temporary) ∧
            (timeout = true ∨ temporary = true))) ∧
    (∀ status : Int,
      aloha.isRetryableStatus status = true ↔ (status = 502 ∨ status = 503 ∨ status = 504)) := by
  refine ⟨?_, ?_, ?_⟩
  · intro table err
    simp [sshx.shouldRetryConnectionError]
  · intro err
    unfold aloha.isTransientNetworkError
    cases hc : err.isCanceled <;> cases hd : err.isDeadlineExceeded <;>
      cases hn : err.netError with
      | none => simp
      | some p =>
        obtain ⟨t, q⟩ := p
        cases t <;> cases q <;> simp
  · intro status
    simp [aloha.isRetryableStatus]

/-- Claim C25, amended, at a dial timeout, at a bad certificate, at the two context errors
and at the statuses 503 and 500. -/
theorem transient_classification_witness :
    aloha.isTransientNetworkError aloha.dialTimeout = true ∧
    aloha.isTransientNetworkError aloha.badCertificate = false ∧
    aloha.isTransientNetworkError context.Canceled = false ∧
    aloha.isRetryableStatus 503 = true ∧
    aloha.isRetryableStatus 500 = false ∧
    sshx.shouldRetryConnectionError (fun c => c) (Errorf "Connection reset by peer") = true :=
  ⟨(transient_classification.2.1 aloha.dialTimeout).2 ⟨rfl, rfl, true, false, rfl, Or.inl rfl⟩,
    by decide, by decide,
    (transient_classification.2.2 503).2 (Or.inr (Or.inl rfl)),
    by decide,
    (transient_classification.1 (fun c => c) (Errorf "Connection reset by peer")).2
      (Or.inl (by decide))⟩

/-- Claim C26, as stated, fails when two variables are malformed: with the timeout set to
"soon" and the retry maximum set to "many", the variable of the retry maximum is
integer-valued and set to a text that is not an integer, yet the error that `LoadFromEnv`
returns is the one of the timeout, which is read first, and it does not contain "must be an
int". -/
theorem first_malformed_variable_hides_the_others :
    config.envTwoMalformed.getenv "WIN_AUTOMATION_HATCHET_RETRY_MAX" = "many" ∧
    config.envTwoMalformed.atoi "many" = Except.error (config.atoiSyntaxError "\"many\"") ∧
    (config.LoadFromEnv config.envTwoMalformed).2 =
      some (Errorf ("WIN_AUTOMATION_TIMEOUT must be a duration (e.g. 10s): " ++
        "time: invalid duration \"soon\"")) ∧
    strings.Contains ("WIN_AUTOMATION_TIMEOUT must be a duration (e.g. 10s): " ++
      "time: invalid duration \"soon\"") "must be an int" = false := by
  refine ⟨rfl, rfl, by decide, by decide⟩

/-- Claim C26, amended. If a variable that `LoadFromEnv` parses (the six of the claim, and the
playwright port and the artifact retention days) is set to a non-empty text that does not
parse, `LoadFromEnv` returns the zero `Config` together with an error. The error is the one
of the first variable, in the order of reading, that does not parse: it contains "must be an
int" or "must be a duration". When no variable read before the given one is malformed, the
error is the one of the given variable: the parse error inside the words of the variable,
which contain "must be an int" for an integer-valued variable and "must be a duration" for a
duration-valued one. -/
theorem malformed_variable_is_rejected (env : config.Env) (name : String) (kind : config.Kind)
    (perr : GoError)
    (hmem : (name, kind) ∈ config.envVariables)
    (hset : env.getenv name ≠ "")
    (hbad : config.parsed env kind (env.getenv name) = Except.error perr) :
    (∃ err, config.LoadFromEnv env = (config.zeroConfig, some err) ∧
      config.firstMalformed env = some err ∧
      (strings.Contains err.text "must be an int" = true ∨
        strings.Contains err.text "must be a duration" = true)) ∧
    (∀ l1 l2, config.envVariables = l1 ++ (name, kind) :: l2 →
      (∀ p, p ∈ l1 → config.malformed env p = none) →
      ∃ err, config.LoadFromEnv env = (config.zeroConfig, some err) ∧
        (kind = config.Kind.int →
          err = Wrapf (name ++ " must be an int: ") perr ∧
          strings.Contains err.text "must be an int" = true) ∧
        (∀ sample, kind = config.Kind.duration sample →
          err = Wrapf (name ++ " must be a duration (e.g. " ++ sample ++ "): ") perr ∧
          strings.Contains err.text "must be a duration" = true)) := by
  obtain ⟨e, he⟩ := config.malformed_of_parsed_error env name kind perr hset hbad
  constructor
  · cases hf : config.firstMalformed env with
    | none =>
      unfold config.firstMalformed at hf
      rw [List.findSome?_eq_none_iff] at hf
      rw [hf _ hmem] at he
      cases he
    | some err =>
      refine ⟨err, config.LoadFromEnv_zero_on_error env err
        ((config.LoadFromEnv_error env).trans hf), rfl, ?_⟩
      unfold config.firstMalformed at hf
      obtain ⟨a, -, ha⟩ := List.exists_of_findSome?_eq_some hf
      obtain ⟨n, k⟩ := a
      rcases config.malformed_words env n k err ha with ⟨-, -, -, -, h⟩ | ⟨-, -, -, -, -, h⟩
      · exact Or.inl h
      · exact Or.inr h
  · intro l1 l2 hsplit hbefore
    have hf : config.firstMalformed env = some e := by
      unfold config.firstMalformed
      rw [List.findSome?_eq_some_iff]
      exact ⟨l1, (name, kind), l2, hsplit, he, hbefore⟩
    refine ⟨e, config.LoadFromEnv_zero_on_error env e ((config.LoadFromEnv_error env).trans hf),
      ?_, ?_⟩
    · intro hk
      subst hk
      rcases config.malformed_words env name config.Kind.int e he with
        ⟨-, pe, hpe, hw, hc⟩ | ⟨s, hs, -⟩
      · simp only [config.parsed] at hbad
        rw [hbad] at hpe
        cases hpe
        exact ⟨hw, hc⟩
      · cases hs
    · intro sample hk
      subst hk
      rcases config.malformed_words env name (config.Kind.duration sample) e he with
        ⟨hs, -⟩ | ⟨s, hs, pe, hpe, hw, hc⟩
      · cases hs
      · cases hs
        simp only [config.parsed] at hbad
        rw [hbad] at hpe
        cases hpe
        exact ⟨hw, hc⟩

/-- Claim C26, amended, at an environment in which the retry maximum alone is set, to
"many". -/
theorem malformed_variable_is_rejected_witness :
    config.LoadFromEnv config.envBadRetryMax =
      (config.zeroConfig, some (Wrapf "WIN_AUTOMATION_HATCHET_RETRY_MAX must be an int: "
        (config.atoiSyntaxError "\"many\""))) ∧
    strings.Contains (Wrapf "WIN_AUTOMATION_HATCHET_RETRY_MAX must be an int: "
      (config.atoiSyntaxError "\"many\"")).text "must be an int" = true := by
  obtain ⟨err, h1, h2, -⟩ := (malformed_variable_is_rejected config.envBadRetryMax
    "WIN_AUTOMATION_HATCHET_RETRY_MAX" config.Kind.int (config.atoiSyntaxError "\"many\"")
    (by decide) (by decide) rfl).2
    (config.envVariables.take 18) (config.envVariables.drop 19) rfl
    (by decide)
  obtain ⟨h3, h4⟩ := h2 rfl
  subst h3
  exact ⟨h1, h4⟩

/-- Claim C27. (1) When none of the variables that `LoadFromEnv` reads is set, it returns the
default configuration and no error, and the default configuration has the values that the
claim lists. (2) When one variable alone is set, to a non-empty text that parses when the
variable is integer-valued or duration-valued, `LoadFromEnv` returns no error and the default
configuration with the field that the variable names set to the text, or to the number that
the text stands for; every other field has its default. -/
theorem loadFromEnv_defaults_and_frame :
    (∀ env : config.Env,
      (∀ p, p ∈ config.envVariables → env.getenv p.1 = "") →
      config.LoadFromEnv env = (config.defaultConfig, none)) ∧
    (config.defaultConfig.WindowsSSHHost = "localhost" ∧
      config.defaultConfig.WindowsSSHPort = 22555 ∧
      config.defaultConfig.WindowsSSHUser = "administrator" ∧
      config.defaultConfig.AlohaServerURL = "http://127.0.0.1:7887" ∧
      config.defaultConfig.AlohaClientURL = "http://127.0.0.1:7888" ∧
      config.defaultConfig.PlaywrightHost = "127.0.0.1" ∧
      config.defaultConfig.PlaywrightPort = 9323 ∧
      config.defaultConfig.Timeout = 10 * time.Second ∧
      config.defaultConfig.HatchetJobTimeout = 10 * time.Minute ∧
      config.defaultConfig.HatchetRetryMax = 3 ∧
      config.defaultConfig.HatchetRetryBackoff = 5 * time.Second ∧
      config.defaultConfig.HatchetWorkerConcurrency = 5 ∧
      config.defaultConfig.HatchetToken = "") ∧
    (∀ (env : config.Env) (name : String) (kind : config.Kind) (n : Int),
      (name, kind) ∈ config.envVariables →
      env.getenv name ≠ "" →
      (∀ p, p ∈ config.envVariables → p.1 ≠ name → env.getenv p.1 = "") →
      config.parsed env kind (env.getenv name) = Except.ok n →
      config.LoadFromEnv env =
        (config.withVariable name (env.getenv name) n config.defaultConfig, none)) := by
  refine ⟨?_, by decide, ?_⟩
  · intro env h
    simp only [config.envVariables, List.mem_cons, List.mem_singleton, forall_eq_or_imp,
      forall_eq, List.not_mem_nil, false_implies, implies_true, and_true] at h
    simp [config.LoadFromEnv, config.applyEnvOverrides, config.overrideString,
      config.overrideInt, config.overrideDuration, h, bind, Except.bind, pure, Except.pure]
  · intro env name kind n hmem hset hothers hparse
    simp only [config.envVariables, List.mem_cons, List.mem_singleton, forall_eq_or_imp,
      forall_eq, List.not_mem_nil, false_implies, implies_true, and_true] at hothers
    simp only [config.envVariables, List.mem_cons, List.mem_singleton, List.not_mem_nil,
      or_false, Prod.mk.injEq] at hmem
    rcases hmem with h | h | h | h | h | h | h | h | h | h | h | h | h | h | h | h | h | h | h |
      h | h | h | h | h <;>
    · obtain ⟨hn, hk⟩ := h
      subst hn hk
      simp only [ne_eq, String.reduceEq, not_true_eq_false, not_false_eq_true, false_implies,
        true_implies, forall_const] at hothers
      simp only [config.parsed] at hparse
      simp [config.LoadFromEnv, config.applyEnvOverrides, config.overrideString,
        config.overrideInt, config.overrideDuration, hothers, hset, hparse, bind, Except.bind,
        pure, Except.pure, config.withVariable]

/-- Claim C27 at an environment in which no variable is set, and at one in which the job
timeout alone is set, to "2m". -/
theorem loadFromEnv_defaults_and_frame_witness :
    config.LoadFromEnv config.envEmpty = (config.defaultConfig, none) ∧
    config.LoadFromEnv config.envJobTimeout =
      ({ config.defaultConfig with HatchetJobTimeout := 2 * time.Minute }, none) :=
  ⟨loadFromEnv_defaults_and_frame.1 config.envEmpty (by decide),
    (loadFromEnv_defaults_and_frame.2.2 config.envJobTimeout
      "WIN_AUTOMATION_HATCHET_JOB_TIMEOUT" (config.Kind.duration "10m") (2 * time.Minute)
      (by decide) (by decide) (by decide) rfl).trans (by decide)⟩

/-- Claim C28, as stated, fails: `windows exec --idempotent` without a check script, against a
locked desktop, exits with 2 and not with 1, on the usage check that comes before the gate.
No remote command is run. -/
theorem idempotent_without_check_exits_two :
    main.flagsNoCheck.idempotent = true ∧
    main.cmdWindowsExec main.envLocked config.defaultConfig main.flagsNoCheck =
      (2, [main.Event.stderr
        "windows exec: --idempotent-check is required when --idempotent is set"]) ∧
    ¬ main.desktopUnlocked main.envLocked config.defaultConfig := by
  refine ⟨rfl, by decide, ?_⟩
  unfold main.desktopUnlocked
  decide

/-- Claim C28, amended. In `windows exec` and in `aloha run` with `--idempotent` set: (1) a
second remote command (the idempotency check, and with it everything after it), and in `aloha
run` the task request, is issued only if the desktop probe returned without error and its
trimmed output equals "True" up to case; (2) when the arguments pass the usage checks and the
probe did not so return, the command exits with 1 and the probe is the only remote command it
has run: neither the idempotency check nor the action is run; (3) when the arguments do not
pass the usage checks, the command exits with 2 and runs no remote command at all; (4) when
the arguments pass and the probe reports an unlocked desktop, the idempotency check is the
remote command that follows the probe. -/
theorem desktop_lock_gate (env : main.Env) (cfg : config.Config) :
    (∀ f : main.windowsExecFlags, f.idempotent = true →
      (2 ≤ (main.commands (main.cmdWindowsExec env cfg f).2).length →
        main.desktopUnlocked env cfg) ∧
      (f.usageOK → ¬ main.desktopUnlocked env cfg →
        (main.cmdWindowsExec env cfg f).1 = 1 ∧
        main.commands (main.cmdWindowsExec env cfg f).2 = [win.DesktopUnlockedCheck env.quote] ∧
        main.tasks (main.cmdWindowsExec env cfg f).2 = []) ∧
      (¬ f.usageOK →
        (main.cmdWindowsExec env cfg f).1 = 2 ∧
        main.commands (main.cmdWindowsExec env cfg f).2 = [] ∧
        main.tasks (main.cmdWindowsExec env cfg f).2 = []) ∧
      (f.usageOK → main.desktopUnlocked env cfg →
        (main.commands (main.cmdWindowsExec env cfg f).2).take 2 =
          [win.DesktopUnlockedCheck env.quote,
            win.PowerShellCommand env.quote f.idempotentCheck])) ∧
    (∀ (a : aloha.Client) (f : main.alohaRunFlags), f.idempotent = true →
      (2 ≤ (main.commands (main.cmdAlohaRun env cfg a f).2).length ∨
          main.tasks (main.cmdAlohaRun env cfg a f).2 ≠ [] →
        main.desktopUnlocked env cfg) ∧
      (f.usageOK → ¬ main.desktopUnlocked env cfg →
        (main.cmdAlohaRun env cfg a f).1 = 1 ∧
        main.commands (main.cmdAlohaRun env cfg a f).2 = [win.DesktopUnlockedCheck env.quote] ∧
        main.tasks (main.cmdAlohaRun env cfg a f).2 = []) ∧
      (¬ f.usageOK →
        (main.cmdAlohaRun env cfg a f).1 = 2 ∧
        main.commands (main.cmdAlohaRun env cfg a f).2 = [] ∧
        main.tasks (main.cmdAlohaRun env cfg a f).2 = []) ∧
      (f.usageOK → main.desktopUnlocked env cfg →
        (main.commands (main.cmdAlohaRun env cfg a f).2).take 2 =
          [win.DesktopUnlockedCheck env.quote,
            win.PowerShellCommand env.quote f.idempotentCheck])) := by
  constructor
  · intro f hid
    have hblocked : f.usageOK → ¬ main.desktopUnlocked env cfg →
        (main.cmdWindowsExec env cfg f).1 = 1 ∧
        main.commands (main.cmdWindowsExec env cfg f).2 = [win.DesktopUnlockedCheck env.quote] ∧
        main.tasks (main.cmdWindowsExec env cfg f).2 = [] := by
      intro hu hb
      obtain ⟨u1, u2, u3⟩ := hu
      obtain ⟨g1, g2, g3⟩ := main.idempotentGuards_blocked env cfg (!f.raw) "windows" "exec"
        f.idempotentCheck hb
      simp only [main.cmdWindowsExec]
      rw [if_neg u1, if_neg u2, if_neg u3]
      simp only [hid, if_true, g1]
      exact ⟨trivial, g2, g3⟩
    have husage : ¬ f.usageOK →
        (main.cmdWindowsExec env cfg f).1 = 2 ∧
        main.commands (main.cmdWindowsExec env cfg f).2 = [] ∧
        main.tasks (main.cmdWindowsExec env cfg f).2 = [] := by
      intro hu
      unfold main.windowsExecFlags.usageOK at hu
      simp only [main.cmdWindowsExec]
      by_cases u1 : f.idempotent = true ∧ strings.TrimSpace f.idempotentCheck = ""
      · rw [if_pos u1]
        exact ⟨rfl, rfl, rfl⟩
      · by_cases u2 : f.rest.length = 0 ∨ f.rest.head? ≠ some "--"
        · rw [if_neg u1, if_pos u2]
          exact ⟨rfl, rfl, rfl⟩
        · by_cases u3 : f.rest.length = 1
          · rw [if_neg u1, if_neg u2, if_pos u3]
            exact ⟨rfl, rfl, rfl⟩
          · exact absurd ⟨u1, u2, u3⟩ hu
    refine ⟨?_, hblocked, husage, ?_⟩
    · intro hlen
      by_contra hb
      by_cases hu : f.usageOK
      · rw [(hblocked hu hb).2.1] at hlen
        simp at hlen
      · rw [(husage hu).2.1] at hlen
        simp at hlen
    · intro hu hunl
      obtain ⟨u1, u2, u3⟩ := hu
      obtain ⟨g1, g2, g3⟩ := main.idempotentGuards_unlocked env cfg (!f.raw) "windows" "exec"
        f.idempotentCheck hunl.1 hunl.2
      have happ : ∀ l : List main.Event,
          (main.commands ((main.idempotentGuards env cfg (!f.raw) "windows" "exec"
            f.idempotentCheck).2 ++ l)).take 2 =
          [win.DesktopUnlockedCheck env.quote,
            win.PowerShellCommand env.quote f.idempotentCheck] := by
        intro l
        have hc : ∀ a b : List main.Event,
            main.commands (a ++ b) = main.commands a ++ main.commands b := by
          intro a b
          induction a with
          | nil => rfl
          | cons e a ih => cases e <;> simp [main.commands, ih]
        rw [hc, g1]
        rfl
      simp only [main.cmdWindowsExec]
      rw [if_neg u1, if_neg u2, if_neg u3]
      simp only [hid, if_true]
      cases hg : (main.idempotentGuards env cfg (!f.raw) "windows" "exec"
          f.idempotentCheck).1 with
      | some code =>
        simp only []
        rw [g1]
        rfl
      | none =>
        simp only [List.append_assoc]
        split <;> exact happ _
  · intro a f hid
    have hblocked : f.usageOK → ¬ main.desktopUnlocked env cfg →
        (main.cmdAlohaRun env cfg a f).1 = 1 ∧
        main.commands (main.cmdAlohaRun env cfg a f).2 = [win.DesktopUnlockedCheck env.quote] ∧
        main.tasks (main.cmdAlohaRun env cfg a f).2 = [] := by
      intro hu hb
      obtain ⟨u1, u2⟩ := hu
      obtain ⟨g1, g2, g3⟩ := main.idempotentGuards_blocked env cfg true "aloha" "run"
        f.idempotentCheck hb
      simp only [main.cmdAlohaRun]
      rw [if_neg u1, if_neg u2]
      simp only [hid, if_true, g1]
      exact ⟨trivial, g2, g3⟩
    have husage : ¬ f.usageOK →
        (main.cmdAlohaRun env cfg a f).1 = 2 ∧
        main.commands (main.cmdAlohaRun env cfg a f).2 = [] ∧
        main.tasks (main.cmdAlohaRun env cfg a f).2 = [] := by
      intro hu
      unfold main.alohaRunFlags.usageOK at hu
      simp only [main.cmdAlohaRun]
      by_cases u1 : f.idempotent = true ∧ strings.TrimSpace f.idempotentCheck = ""
      · rw [if_pos u1]
        exact ⟨rfl, rfl, rfl⟩
      · by_cases u2 : strings.TrimSpace f.task = ""
        · rw [if_neg u1, if_pos u2]
          exact ⟨rfl, rfl, rfl⟩
        · exact absurd ⟨u1, u2⟩ hu
    refine ⟨?_, hblocked, husage, ?_⟩
    · intro hlen
      by_contra hb
      by_cases hu : f.usageOK
      · rw [(hblocked hu hb).2.1, (hblocked hu hb).2.2] at hlen
        simp at hlen
      · rw [(husage hu).2.1, (husage hu).2.2] at hlen
        simp at hlen
    · intro hu hunl
      obtain ⟨u1, u2⟩ := hu
      obtain ⟨g1, g2, g3⟩ := main.idempotentGuards_unlocked env cfg true "aloha" "run"
        f.idempotentCheck hunl.1 hunl.2
      have happ : ∀ l : List main.Event,
          (main.commands ((main.idempotentGuards env cfg true "aloha" "run"
            f.idempotentCheck).2 ++ l)).take 2 =
          [win.DesktopUnlockedCheck env.quote,
            win.PowerShellCommand env.quote f.idempotentCheck] := by
        intro l
        have hc : ∀ a b : List main.Event,
            main.commands (a ++ b) = main.commands a ++ main.commands b := by
          intro a b
          induction a with
          | nil => rfl
          | cons e a ih => cases e <;> simp [main.commands, ih]
        rw [hc, g1]
        rfl
      simp only [main.cmdAlohaRun]
      rw [if_neg u1, if_neg u2]
      simp only [hid, if_true]
      cases hg : (main.idempotentGuards env cfg true "aloha" "run" f.idempotentCheck).1 with
      | some code =>
        simp only []
        rw [g1]
        rfl
      | none =>
        simp only [List.append_assoc]
        split <;> exact happ _

/-- Claim C28, amended, at a locked desktop: both commands exit with 1 after the probe alone;
and at an unlocked desktop, where the action of `windows exec` is the third remote
command. -/
theorem desktop_lock_gate_witness :
    (main.cmdWindowsExec main.envLocked config.defaultConfig main.flagsMkdir).1 = 1 ∧
    main.commands (main.cmdWindowsExec main.envLocked config.defaultConfig main.flagsMkdir).2 =
      [win.DesktopUnlockedCheck main.envLocked.quote] ∧
    (main.cmdAlohaRun main.envLocked config.defaultConfig (aloha.New config.defaultConfig)
      main.flagsNotepad).1 = 1 ∧
    main.desktopUnlocked main.envProceeds config.defaultConfig := by
  have hlocked : ¬ main.desktopUnlocked main.envLocked config.defaultConfig := by
    unfold main.desktopUnlocked
    decide
  have h := desktop_lock_gate main.envLocked config.defaultConfig
  have hw := (h.1 main.flagsMkdir rfl).2.1 (by unfold main.windowsExecFlags.usageOK; decide)
    hlocked
  have ha := (h.2 (aloha.New config.defaultConfig) main.flagsNotepad rfl).2.1
    (by unfold main.alohaRunFlags.usageOK; decide) hlocked
  have hp := (desktop_lock_gate main.envProceeds config.defaultConfig).1 main.flagsMkdir rfl
  exact ⟨hw.1, hw.2.1, ha.1, hp.1 (by decide)⟩

/-- Claim C29, as stated, fails at the cooldown: the ssh probe is always down, the circuit is
opened after the third pass, and the context is cancelled during the wait for the open
circuit. `cmdSupervisorRun` then returns `supervisorExitFailure`, which is 1, not 0. No pass
is started after the three before the opening. -/
theorem cancel_during_cooldown_returns_exit_code_one :
    (supervisor.cmdSupervisorRun supervisor.envCancelledInCooldown (Except.ok (false, false))
      supervisor.someInstant 4).1 = some 1 ∧
    (supervisor.cmdSupervisorRun supervisor.envCancelledInCooldown (Except.ok (false, false))
      supervisor.someInstant 4).2.drop 12 =
      [supervisor.LoopEvent.logWarn "circuit" "open",
        supervisor.LoopEvent.sleep 50000000000] ∧
    supervisor.passCount (supervisor.cmdSupervisorRun supervisor.envCancelledInCooldown
      (Except.ok (false, false)) supervisor.someInstant 4).2 = 3 := by
  decide

/-- Claim C29, amended. In loop mode `cmdSupervisorRun` returns only when it observes that
its context is done, in some turn `k` of the loop before which every turn has run one pass:
at the guard at the top of the turn, where it logs "stopped" and returns 0 after `k` passes;
in the wait for the open circuit, where the interrupted sleep is its last effect and it
returns `supervisorExitFailure` (1) after `k` passes; or in the interval sleep that follows
the pass of the turn, where the interrupted sleep is its last effect and it returns 0 after
`k + 1` passes. Nothing follows the observation, so no further pass is started. -/
theorem cancellation_stops_loop_without_further_pass (env : supervisor.LoopEnv) (debug : Bool)
    (start fuel : Nat) (code : Int)
    (h : (supervisor.cmdSupervisorRun env (Except.ok (false, debug)) start fuel).1 =
      some code) :
    ∃ k,
      (env.ctxErr k ≠ none ∧ code = 0 ∧
        (∃ pre, (supervisor.cmdSupervisorRun env (Except.ok (false, debug)) start fuel).2 =
          pre ++ [supervisor.LoopEvent.logInfo "run" "stopped"]) ∧
        supervisor.passCount
          (supervisor.cmdSupervisorRun env (Except.ok (false, debug)) start fuel).2 = k) ∨
      (∃ ctxErr wait, env.cooldownWake k = Wake.ctxDone ctxErr ∧ 0 < wait ∧
        code = supervisor.supervisorExitFailure ∧
        (∃ pre, (supervisor.cmdSupervisorRun env (Except.ok (false, debug)) start fuel).2 =
          pre ++ [supervisor.LoopEvent.logWarn "circuit" "open",
            supervisor.LoopEvent.sleep wait]) ∧
        supervisor.passCount
          (supervisor.cmdSupervisorRun env (Except.ok (false, debug)) start fuel).2 = k) ∨
      (∃ ctxErr, env.intervalWake k = Wake.ctxDone ctxErr ∧ code = 0 ∧
        (∃ pre, (supervisor.cmdSupervisorRun env (Except.ok (false, debug)) start fuel).2 =
          pre ++ [supervisor.LoopEvent.sleep supervisor.supervisorLoopInterval]) ∧
        supervisor.passCount
          (supervisor.cmdSupervisorRun env (Except.ok (false, debug)) start fuel).2 =
            k + 1) := by
  simp only [supervisor.cmdSupervisorRun] at h ⊢
  obtain ⟨k, -, hcases⟩ := supervisor.superviseLoop_returns env debug fuel 0 start _ code h
  have hpc : ∀ l : List supervisor.LoopEvent,
      supervisor.passCount (supervisor.LoopEvent.logInfo "run" "starting" :: l) =
        supervisor.passCount l := by
    intro l
    simp [supervisor.passCount]
  refine ⟨k, ?_⟩
  rcases hcases with ⟨h1, h2, ⟨pre, h3⟩, h4⟩ | ⟨ce, w, h1, hw0, h2, ⟨pre, h3⟩, h4⟩ |
    ⟨ce, h1, h2, ⟨pre, h3⟩, h4⟩
  · exact Or.inl ⟨h1, h2, ⟨supervisor.LoopEvent.logInfo "run" "starting" :: pre, by rw [h3]; rfl⟩,
      by rw [hpc, h4]; omega⟩
  · exact Or.inr (Or.inl ⟨ce, w, h1, hw0, h2,
      ⟨supervisor.LoopEvent.logInfo "run" "starting" :: pre, by rw [h3]; rfl⟩,
      by rw [hpc, h4]; omega⟩)
  · exact Or.inr (Or.inr ⟨ce, h1, h2,
      ⟨supervisor.LoopEvent.logInfo "run" "starting" :: pre, by rw [h3]; rfl⟩,
      by rw [hpc, h4]; omega⟩)

/-- Claim C29, amended, at an environment whose context is cancelled during the interval
sleep that follows the second pass: the command returns 0. -/
theorem cancellation_stops_loop_without_further_pass_witness :
    (supervisor.cmdSupervisorRun supervisor.envCancelledInInterval (Except.ok (false, false))
      supervisor.someInstant 5).1 = some 0 ∧
    ∃ k,
      (supervisor.envCancelledInInterval.ctxErr k ≠ none ∧ (0 : Int) = 0 ∧
        (∃ pre, (supervisor.cmdSupervisorRun supervisor.envCancelledInInterval
            (Except.ok (false, false)) supervisor.someInstant 5).2 =
          pre ++ [supervisor.LoopEvent.logInfo "run" "stopped"]) ∧
        supervisor.passCount (supervisor.cmdSupervisorRun supervisor.envCancelledInInterval
          (Except.ok (false, false)) supervisor.someInstant 5).2 = k) ∨
      (∃ ctxErr wait, supervisor.envCancelledInInterval.cooldownWake k = Wake.ctxDone ctxErr ∧
        0 < wait ∧ (0 : Int) = supervisor.supervisorExitFailure ∧
        (∃ pre, (supervisor.cmdSupervisorRun supervisor.envCancelledInInterval
            (Except.ok (false, false)) supervisor.someInstant 5).2 =
          pre ++ [supervisor.LoopEvent.logWarn "circuit" "open",
            supervisor.LoopEvent.sleep wait]) ∧
        supervisor.passCount (supervisor.cmdSupervisorRun supervisor.envCancelledInInterval
          (Except.ok (false, false)) supervisor.someInstant 5).2 = k) ∨
      (∃ ctxErr, supervisor.envCancelledInInterval.intervalWake k = Wake.ctxDone ctxErr ∧
        (0 : Int) = 0 ∧
        (∃ pre, (supervisor.cmdSupervisorRun supervisor.envCancelledInInterval
            (Except.ok (false, false)) supervisor.someInstant 5).2 =
          pre ++ [supervisor.LoopEvent.sleep supervisor.supervisorLoopInterval]) ∧
        supervisor.passCount (supervisor.cmdSupervisorRun supervisor.envCancelledInInterval
          (Except.ok (false, false)) supervisor.someInstant 5).2 = k + 1) :=
  ⟨by decide,
    cancellation_stops_loop_without_further_pass supervisor.envCancelledInInterval false
      supervisor.someInstant 5 0 (by decide)⟩

/-- Claim C30, as stated, fails for a payload that `json.Marshal` rejects: for a request whose
payload is a channel, `HandleJob` returns the error of `json.Marshal`, and the `Error` of the
`JobResult` is not the text of that error but the text after the words "failed to marshal
payload: ". -/
theorem marshal_failure_error_text_differs :
    ((hatchet.NewWorker hatchet.envCommandNotFound config.defaultConfig).HandleJob
      hatchet.requestWithChannel).1 =
      ({ ID := "", Status := "failed", Output := none,
         Error := "failed to marshal payload: json: unsupported type: chan int" },
       some (Errorf "json: unsupported type: chan int")) ∧
    "failed to marshal payload: json: unsupported type: chan int" ≠
      (Errorf "json: unsupported type: chan int").text := by
  decide

/-- Claim C30, amended. For the worker that `NewWorker` makes, `HandleJob` returns a
`JobResult` whose `Status` is "completed" or "failed", and it is "completed" exactly when the
returned error is nil. When the error is not nil, `Status` is "failed", and `Error` is the text
of the error unless the job type has a handler and the payload cannot be encoded: then the
error of `json.Marshal` is returned and `Error` is its text after the words "failed to marshal
payload: ". A job type other than windows.exec and aloha.run gives "failed" with the error
"unknown job type: " followed by the type, as `Error` and as the text of the returned error,
and no handler is called. -/
theorem handleJob_status_matches_error (env : hatchet.WorkerEnv) (cfg : config.Config)
    (req : hatchet.JobRequest) :
    (((hatchet.NewWorker env cfg).HandleJob req).1.1.Status = hatchet.JobStatusCompleted ∨
      ((hatchet.NewWorker env cfg).HandleJob req).1.1.Status = hatchet.JobStatusFailed) ∧
    (((hatchet.NewWorker env cfg).HandleJob req).1.1.Status = hatchet.JobStatusCompleted ↔
      ((hatchet.NewWorker env cfg).HandleJob req).1.2 = none) ∧
    (∀ err, ((hatchet.NewWorker env cfg).HandleJob req).1.2 = some err →
      ((hatchet.NewWorker env cfg).HandleJob req).1.1.Status = hatchet.JobStatusFailed ∧
      (((req.Type_ ≠ hatchet.JobTypeWindowsExec ∧ req.Type_ ≠ hatchet.JobTypeAlohaRun) ∨
          ∃ payload, req.Payload.marshal = Except.ok payload) →
        ((hatchet.NewWorker env cfg).HandleJob req).1.1.Error = err.text)) ∧
    (∀ e, (req.Type_ = hatchet.JobTypeWindowsExec ∨ req.Type_ = hatchet.JobTypeAlohaRun) →
      req.Payload.marshal = Except.error e →
      (hatchet.NewWorker env cfg).HandleJob req =
        (({ ID := "", Status := hatchet.JobStatusFailed, Output := none,
            Error := "failed to marshal payload: " ++ e.text }, some e), [])) ∧
    (req.Type_ ≠ hatchet.JobTypeWindowsExec → req.Type_ ≠ hatchet.JobTypeAlohaRun →
      (hatchet.NewWorker env cfg).HandleJob req =
        (({ ID := "", Status := hatchet.JobStatusFailed, Output := none,
            Error := "unknown job type: " ++ req.Type_ },
          some (Errorf ("unknown job type: " ++ req.Type_))), []) ∧
      hatchet.handlerCalls ((hatchet.NewWorker env cfg).HandleJob req).2 = 0) := by
  have hunknown : req.Type_ ≠ hatchet.JobTypeWindowsExec →
      req.Type_ ≠ hatchet.JobTypeAlohaRun →
      (hatchet.NewWorker env cfg).HandleJob req =
        (({ ID := "", Status := hatchet.JobStatusFailed, Output := none,
            Error := "unknown job type: " ++ req.Type_ },
          some (Errorf ("unknown job type: " ++ req.Type_))), []) := by
    intro h1 h2
    have hl := hatchet.NewWorker_lookup env cfg req.Type_
    rw [if_neg h1, if_neg h2] at hl
    simp only [hatchet.Worker.HandleJob, hl]
  have hmarshal : ∀ e,
      (req.Type_ = hatchet.JobTypeWindowsExec ∨ req.Type_ = hatchet.JobTypeAlohaRun) →
      req.Payload.marshal = Except.error e →
      (hatchet.NewWorker env cfg).HandleJob req =
        (({ ID := "", Status := hatchet.JobStatusFailed, Output := none,
            Error := "failed to marshal payload: " ++ e.text }, some e), []) := by
    intro e ht hm
    have hl := hatchet.NewWorker_lookup env cfg req.Type_
    rcases ht with ht | ht
    · rw [if_pos ht] at hl
      simp only [hatchet.Worker.HandleJob, hl, hm]
    · have hne : ¬ req.Type_ = hatchet.JobTypeWindowsExec := by
        rw [ht]; decide
      rw [if_neg hne, if_pos ht] at hl
      simp only [hatchet.Worker.HandleJob, hl, hm]
  have hcases :
      (((hatchet.NewWorker env cfg).HandleJob req).1.2 = none ∧
        ((hatchet.NewWorker env cfg).HandleJob req).1.1.Status = hatchet.JobStatusCompleted) ∨
      (∃ err, ((hatchet.NewWorker env cfg).HandleJob req).1.2 = some err ∧
        ((hatchet.NewWorker env cfg).HandleJob req).1.1.Status = hatchet.JobStatusFailed ∧
        (((req.Type_ ≠ hatchet.JobTypeWindowsExec ∧ req.Type_ ≠ hatchet.JobTypeAlohaRun) ∨
            ∃ payload, req.Payload.marshal = Except.ok payload) →
          ((hatchet.NewWorker env cfg).HandleJob req).1.1.Error = err.text)) := by
    by_cases ht : req.Type_ = hatchet.JobTypeWindowsExec ∨ req.Type_ = hatchet.JobTypeAlohaRun
    · cases hm : req.Payload.marshal with
      | error e =>
        right
        rw [hmarshal e ht hm]
        refine ⟨e, rfl, rfl, ?_⟩
        rintro (⟨h1, h2⟩ | ⟨payload, hp⟩)
        · rcases ht with ht | ht
          · exact absurd ht h1
          · exact absurd ht h2
        · cases hp
      | ok payload =>
        have hl : ∃ handler, (hatchet.NewWorker env cfg).handlers.lookup req.Type_ =
            some handler := by
          rw [hatchet.NewWorker_lookup]
          rcases ht with ht | ht
          · exact ⟨_, if_pos ht⟩
          · have hne : ¬ req.Type_ = hatchet.JobTypeWindowsExec := by
              rw [ht]; decide
            rw [if_neg hne, if_pos ht]
            exact ⟨_, rfl⟩
        obtain ⟨handler, hl⟩ := hl
        rcases hatchet.HandleJob_handled _ req handler payload hl hm with h | ⟨err, h1, h2, h3⟩
        · exact Or.inl h
        · exact Or.inr ⟨err, h1, h2, fun _ => h3⟩
    · have h1 : req.Type_ ≠ hatchet.JobTypeWindowsExec := fun h => ht (Or.inl h)
      have h2 : req.Type_ ≠ hatchet.JobTypeAlohaRun := fun h => ht (Or.inr h)
      right
      rw [hunknown h1 h2]
      exact ⟨_, rfl, rfl, fun _ => rfl⟩
  refine ⟨?_, ?_, ?_, hmarshal, ?_⟩
  · rcases hcases with ⟨-, h⟩ | ⟨err, -, h, -⟩
    · exact Or.inl h
    · exact Or.inr h
  · rcases hcases with ⟨h1, h2⟩ | ⟨err, h1, h2, -⟩
    · exact ⟨fun _ => h1, fun _ => h2⟩
    · constructor
      · intro h
        rw [h2] at h
        exact absurd h (by decide)
      · intro h
        rw [h1] at h
        cases h
  · intro err herr
    rcases hcases with ⟨h1, -⟩ | ⟨err2, h1, h2, h3⟩
    · rw [h1] at herr
      cases herr
    · rw [h1] at herr
      cases herr
      exact ⟨h2, h3⟩
  · intro h1 h2
    refine ⟨hunknown h1 h2, ?_⟩
    rw [hunknown h1 h2]
    rfl

/-- Claim C30, amended, at a request of an unknown type and at a request whose remote command
exits with status 127. -/
theorem handleJob_status_matches_error_witness :
    (hatchet.NewWorker hatchet.envCommandNotFound config.defaultConfig).HandleJob
        hatchet.requestOfUnknownType =
      (({ ID := "", Status := "failed", Output := none,
          Error := "unknown job type: playwright.run" },
        some (Errorf "unknown job type: playwright.run")), []) ∧
    ((hatchet.NewWorker hatchet.envCommandNotFound config.defaultConfig).HandleJob
      hatchet.requestHostname).1.1.Status = "failed" ∧
    ((hatchet.NewWorker hatchet.envCommandNotFound config.defaultConfig).HandleJob
      hatchet.requestHostname).1.1.Error = "ssh command failed (exit 127)" := by
  have h1 := ((handleJob_status_matches_error hatchet.envCommandNotFound config.defaultConfig
    hatchet.requestOfUnknownType).2.2.2.2 (by decide) (by decide)).1
  have h2 := (handleJob_status_matches_error hatchet.envCommandNotFound config.defaultConfig
    hatchet.requestHostname).2.2.1 (Errorf "ssh command failed (exit 127)") (by decide)
  exact ⟨h1, h2.1, h2.2 (Or.inr ⟨_, rfl⟩)⟩
